import Mathlib

/-!
Reconciliation loop of the PerconaXtraDBCluster controller.

A shallow embedding of `pkg/controller/pxc/controller.go`.

* Go `error` values are `Option Err` (`none` is `nil`).
* The API server reached through `r.client` is an explicit `Store`; every call
  through the client is appended to the `trace` of the `World` and may be made
  to fail by the next entry of the `faults` script.
* Code of other packages (manifest builders, user sync, backups, version
  service, status writer) is not part of this file: its results are read from
  an `Env` record, and each call into it is logged as `Call.collab`.
-/

namespace PXC

/-! ## Errors -/

/-- Go error values as far as the controller inspects them: the two API status
reasons it tests for, any other failure, and an error wrapped with a message by
`errors.Wrap`, `errors.Wrapf` or `errors.WithMessage`. -/
inductive Err where
  | notFound (what : String)
  | alreadyExists (what : String)
  | other (msg : String)
  | wrap (cause : Err) (msg : String)
  deriving DecidableEq, Repr

/-- The test `k8serrors.IsNotFound(err)` on a non-nil error. -/
def Err.isNotFound : Err → Bool
  | .notFound _ => true
  | _ => false

/-- The test `k8serrors.IsAlreadyExists(err)` on a non-nil error. -/
def Err.isAlreadyExists : Err → Bool
  | .alreadyExists _ => true
  | _ => false

/-- The call `errors.Wrap(err, msg)` (also `Wrapf` and `WithMessage`): `nil` stays `nil`. -/
def wrap (err : Option Err) (msg : String) : Option Err :=
  err.map (fun c => Err.wrap c msg)

/-! ## Kubernetes objects -/

/-- A Go `map[string]string`: `none` is the nil map, `some kvs` a non-nil map
listed in one fixed order of its keys, so that `reflect.DeepEqual` is equality. -/
abbrev GoMap := Option (List (String × String))

/-- A Go slice: `none` is the nil slice, so that `reflect.DeepEqual` is equality. -/
abbrev GoSlice (α : Type) := Option (List α)

/-- The elements of a slice; `len` and `range` see a nil slice as empty. -/
def GoSlice.elems {α : Type} : GoSlice α → List α
  | none => []
  | some l => l

/-- Label sets as used in list selectors. -/
abbrev Labels := List (String × String)

/-- The type `intstr.IntOrString`: `type` is 0 for an integer, 1 for a string. -/
structure IntOrString where
  type : Nat
  intVal : Int
  strVal : String
  deriving DecidableEq, Repr

/-- The constructor `intstr.FromInt`. -/
def intstrFromInt (v : Int) : IntOrString := { type := 0, intVal := v, strVal := "" }

/-- The type `corev1.ServicePort`. -/
structure ServicePort where
  name : String
  protocol : String
  port : Int
  targetPort : IntOrString
  nodePort : Int
  deriving DecidableEq, Repr

/-- The fields of `corev1.ServiceSpec` the controller reads or writes, and
`clusterIP` as one field it never looks at. -/
structure ServiceSpec where
  ports : GoSlice ServicePort
  selector : GoMap
  clusterIP : String
  type : String
  externalTrafficPolicy : String
  loadBalancerSourceRanges : GoSlice String
  deriving DecidableEq, Repr

/-- The type `corev1.Service`. -/
structure Service where
  name : String
  labels : GoMap
  annotations : GoMap
  spec : ServiceSpec
  deriving DecidableEq, Repr

/-- The type `appsv1.StatefulSet`: name, `Spec.Replicas` and `Spec.Template.Annotations`. -/
structure StatefulSet where
  name : String
  replicas : Option Int
  templateAnnotations : GoMap
  deriving DecidableEq, Repr

/-- The type `corev1.ConfigMap`. -/
structure ConfigMap where
  name : String
  data : GoMap
  deriving DecidableEq, Repr

/-- The type `policyv1beta1.PodDisruptionBudgetSpec`. -/
structure PodDisruptionBudgetSpec where
  minAvailable : Option IntOrString
  maxUnavailable : Option IntOrString
  selector : Labels
  deriving DecidableEq, Repr

/-- The type `policyv1beta1.PodDisruptionBudget`. -/
structure PodDisruptionBudget where
  name : String
  spec : PodDisruptionBudgetSpec
  deriving DecidableEq, Repr

/-- The type `corev1.Pod`, as the controller lists it. -/
structure Pod where
  name : String
  labels : Labels
  deriving DecidableEq, Repr

/-- The type `corev1.PersistentVolumeClaim`, as the controller lists it. -/
structure PersistentVolumeClaim where
  name : String
  labels : Labels
  deriving DecidableEq, Repr

/-! ## The custom resource -/

/-- Memory figures of `api.PodResources`. -/
structure ResourcesList where
  memory : String
  deriving DecidableEq, Repr

/-- The type `api.PodResources`. -/
structure PodResources where
  limits : Option ResourcesList
  requests : Option ResourcesList
  deriving DecidableEq, Repr

/-- The fields of `api.PodSpec` read by the controller (one record for the
PXC, HAProxy and ProxySQL sections of the spec). -/
structure PodSpec where
  enabled : Bool
  configuration : String
  resources : Option PodResources
  podDisruptionBudget : Option PodDisruptionBudgetSpec
  serviceType : String
  externalTrafficPolicy : String
  replicasServiceType : String
  replicasExternalTrafficPolicy : String
  autoRecovery : Bool
  sslSecretName : String
  sslInternalSecretName : String
  deriving DecidableEq, Repr

/-- The section `Spec.Backup`, reduced to `PITR.Enabled`. -/
structure BackupSpec where
  pitrEnabled : Bool
  deriving DecidableEq, Repr

/-- The section `Spec.LogCollector`. -/
structure LogCollectorSpec where
  configuration : String
  deriving DecidableEq, Repr

/-- The type `api.PerconaXtraDBClusterSpec`. -/
structure ClusterSpec where
  pxc : PodSpec
  haproxy : Option PodSpec
  proxysql : Option PodSpec
  backup : Option BackupSpec
  logCollector : Option LogCollectorSpec
  crVersion : String
  initImage : String
  vaultSecretName : String
  allowUnsafeConfig : Bool
  deriving DecidableEq, Repr

/-- The type `api.PerconaXtraDBClusterStatus`: `Status` and `PXC.Version`. -/
structure ClusterStatus where
  status : String
  pxcVersion : String
  deriving DecidableEq, Repr

/-- The type `api.PerconaXtraDBCluster`. -/
structure Cluster where
  name : String
  ns : String
  finalizers : List String
  deletionTimestamp : Option Nat
  spec : ClusterSpec
  status : ClusterStatus
  deriving DecidableEq, Repr

/-- The key `request.NamespacedName.String()` under which an entity is fetched. -/
def Cluster.key (c : Cluster) : String := c.ns ++ "/" ++ c.name

/-- The constant `api.AppStateReady`. -/
def appStateReady : String := "ready"

/-! ## Store, faults and trace -/

/-- The kinds of object the controller reads and writes. -/
inductive Kind where
  | cluster | statefulSet | service | configMap | pdb | pod | pvc
  deriving DecidableEq, Repr

/-- The payload of a `Create` or `Update` call. -/
inductive Obj where
  | statefulSet (s : StatefulSet)
  | service (s : Service)
  | configMap (c : ConfigMap)
  | pdb (p : PodDisruptionBudget)
  | pod (p : Pod)
  | pvc (p : PersistentVolumeClaim)
  | cluster (c : Cluster)
  deriving DecidableEq, Repr

/-- The three workloads: `statefulset.NewNode`, `NewHAProxy`, `NewProxy`. -/
inductive Tier where
  | pxc | haproxy | proxysql
  deriving DecidableEq, Repr

/-- The three `getSecretHash` calls of `deploy`. -/
inductive SecretHash where
  | ssl | sslInternal | vault
  deriving DecidableEq, Repr

/-- The two functions that look up the operator pod and build the init container. -/
inductive Site where
  | deploy | reconcile
  deriving DecidableEq, Repr

/-- Calls into code that is not in this file. -/
inductive Collab where
  | recoverFullClusterCrashIfNeeded
  | reconcileUsersSecret
  | reconcileUsers
  | syncPXCUsersWithProxySQL
  | ensurePXCVersion
  | deletePITR
  | operatorPod (s : Site)
  | entrypointInitContainer (s : Site)
  | newAutoTuneConfigMap
  | statefulSet (t : Tier)
  | reconsileSSL
  | getSecretHash (h : SecretHash)
  | updatePod (t : Tier)
  | reconcileBackups
  | fetchVersionFromPXC
  | sheduleEnsurePXCVersion
  deriving DecidableEq, Repr

/-- The top-level statements of `Reconcile` after the branch on the deletion
marker; a `Call.stage` entry records that the statement was reached. -/
inductive Stage where
  | finalizer (name : String)
  | persistFinalizers
  | deploy
  | pxcUpdatePod
  | pxcServices
  | enabledTier (t : Tier)
  | disabledTier (t : Tier)
  | backups
  | versionFetch
  | versionSchedule
  deriving DecidableEq, Repr

/-- One entry of the trace of a pass. -/
inductive Call where
  | get (k : Kind) (name : String)
  | create (o : Obj)
  | update (o : Obj)
  | delete (k : Kind) (name : String)
  | list (k : Kind) (selector : Labels)
  | collab (c : Collab)
  | stage (s : Stage)
  | sleep (seconds : Nat)
  | spawnResync
  | updateStatus (err : Option Err)
  | lock (key : String)
  | unlock (key : String)
  | storeUpdateSync (key : String) (v : Int)
  deriving DecidableEq, Repr

/-- The content of the API server. -/
structure Store where
  clusters : List Cluster
  statefulSets : List StatefulSet
  services : List Service
  configMaps : List ConfigMap
  pdbs : List PodDisruptionBudget
  pods : List Pod
  pvcs : List PersistentVolumeClaim
  deriving DecidableEq, Repr

/-- The type `lock`: the state of `statusMutex` and the value of `updateSync`. -/
structure Lock where
  held : Bool
  updateSync : Int
  deriving DecidableEq, Repr

/-- The constant `updateDone`. -/
def updateDone : Int := 0

/-- The constant `updateWait`. -/
def updateWait : Int := 1

/-- The constant `stateFree`. -/
def stateFree : Int := 0

/-- The constant `stateLocked`. -/
def stateLocked : Int := 1

/-- Everything a pass can read or change: the store, the script of injected
store failures (one entry per client call, `none` lets the call through; an
exhausted script injects nothing), the calls made so far (oldest first), the
reconciler field `syncUsersState`, and the lock registry `lockers`. -/
structure World where
  store : Store
  faults : List (Option Err)
  trace : List Call
  syncUsersState : Int
  lockers : List (String × Lock)
  deriving DecidableEq, Repr

/-- Append a call to the trace. -/
def World.log (w : World) (c : Call) : World := { w with trace := w.trace ++ [c] }

/-- The failure the fault script holds for the next client call, if any. -/
def World.next (w : World) : Option Err := w.faults.head?.join

/-- Take the next entry of the fault script. -/
def World.nextFault (w : World) : Option Err × World :=
  (w.next, { w with faults := w.faults.tail })

/-- The world after a client call that leaves the store as it is. -/
def World.step (w : World) (c : Call) : World :=
  { w with faults := w.faults.tail, trace := w.trace ++ [c] }

/-- One typed collection of the store. -/
structure Coll (α : Type) where
  kind : Kind
  nameOf : α → String
  labelsOf : α → Labels
  items : Store → List α
  setItems : Store → List α → Store
  obj : α → Obj

/-- The collection of entities. -/
def clusterColl : Coll Cluster :=
  { kind := .cluster, nameOf := Cluster.key, labelsOf := fun _ => [],
    items := Store.clusters, setItems := fun s l => { s with clusters := l }, obj := .cluster }

/-- The collection of stateful sets. -/
def stsColl : Coll StatefulSet :=
  { kind := .statefulSet, nameOf := StatefulSet.name, labelsOf := fun _ => [],
    items := Store.statefulSets, setItems := fun s l => { s with statefulSets := l },
    obj := .statefulSet }

/-- The collection of services. -/
def svcColl : Coll Service :=
  { kind := .service, nameOf := Service.name, labelsOf := fun s => s.labels.getD [],
    items := Store.services, setItems := fun s l => { s with services := l }, obj := .service }

/-- The collection of config maps. -/
def cmColl : Coll ConfigMap :=
  { kind := .configMap, nameOf := ConfigMap.name, labelsOf := fun _ => [],
    items := Store.configMaps, setItems := fun s l => { s with configMaps := l },
    obj := .configMap }

/-- The collection of disruption budgets. -/
def pdbColl : Coll PodDisruptionBudget :=
  { kind := .pdb, nameOf := PodDisruptionBudget.name, labelsOf := fun _ => [],
    items := Store.pdbs, setItems := fun s l => { s with pdbs := l }, obj := .pdb }

/-- The collection of pods. -/
def podColl : Coll Pod :=
  { kind := .pod, nameOf := Pod.name, labelsOf := Pod.labels,
    items := Store.pods, setItems := fun s l => { s with pods := l }, obj := .pod }

/-- The collection of persistent volume claims. -/
def pvcColl : Coll PersistentVolumeClaim :=
  { kind := .pvc, nameOf := PersistentVolumeClaim.name, labelsOf := PersistentVolumeClaim.labels,
    items := Store.pvcs, setItems := fun s l => { s with pvcs := l }, obj := .pvc }

/-- The object of a collection with a given name. -/
def Coll.lookup {α : Type} (c : Coll α) (s : Store) (n : String) : Option α :=
  (c.items s).find? (fun x => c.nameOf x == n)

/-- A selector built by `labels.SelectorFromSet` matches when every pair of it is carried. -/
def matchesSelector (sel have_ : Labels) : Bool :=
  sel.all (fun kv => have_.contains kv)

/-- The call `client.Get`: not-found when the store has no such object. -/
def clientGet {α : Type} (c : Coll α) (n : String) (w : World) : Except Err α × World :=
  match (w.log (.get c.kind n)).nextFault with
  | (some e, w1) => (.error e, w1)
  | (none, w1) =>
    match c.lookup w1.store n with
    | some x => (.ok x, w1)
    | none => (.error (.notFound n), w1)

/-- The call `client.Create`: already-exists when the name is taken. -/
def clientCreate {α : Type} (c : Coll α) (x : α) (w : World) : Option Err × World :=
  match (w.log (.create (c.obj x))).nextFault with
  | (some e, w1) => (some e, w1)
  | (none, w1) =>
    match c.lookup w1.store (c.nameOf x) with
    | some _ => (some (.alreadyExists (c.nameOf x)), w1)
    | none => (none, { w1 with store := c.setItems w1.store (c.items w1.store ++ [x]) })

/-- The call `client.Update`: not-found when the store has no such object,
otherwise the stored object is replaced. -/
def clientUpdate {α : Type} (c : Coll α) (x : α) (w : World) : Option Err × World :=
  match (w.log (.update (c.obj x))).nextFault with
  | (some e, w1) => (some e, w1)
  | (none, w1) =>
    match c.lookup w1.store (c.nameOf x) with
    | none => (some (.notFound (c.nameOf x)), w1)
    | some _ =>
      (none, { w1 with store := (c.setItems w1.store
        ((c.items w1.store).map (fun y => if c.nameOf y = c.nameOf x then x else y))) })

/-- The call `client.Delete`: not-found when the store has no such object. -/
def clientDelete {α : Type} (c : Coll α) (n : String) (w : World) : Option Err × World :=
  match (w.log (.delete c.kind n)).nextFault with
  | (some e, w1) => (some e, w1)
  | (none, w1) =>
    match c.lookup w1.store n with
    | none => (some (.notFound n), w1)
    | some _ =>
      (none, { w1 with store := (c.setItems w1.store
        ((c.items w1.store).filter (fun y => c.nameOf y != n))) })

/-- The call `client.List` with a label selector. -/
def clientList {α : Type} (c : Coll α) (sel : Labels) (w : World) : Except Err (List α) × World :=
  match (w.log (.list c.kind sel)).nextFault with
  | (some e, w1) => (.error e, w1)
  | (none, w1) => (.ok ((c.items w1.store).filter (fun x => matchesSelector sel (c.labelsOf x))), w1)

/-! ## Comparing services -/

/-- The comparison closure handed to `sort.Slice`: `old[i].Name < old[j].Name`. -/
def lessName (a b : ServicePort) : Bool := decide (a.name < b.name)

/-- One pass of the inner loop of insertion sort: `x` has been appended to a
sorted run whose elements are listed last-first, and is swapped towards the
front as long as it is less than the element before it. -/
def insertBack {α : Type} (less : α → α → Bool) (x : α) : List α → List α
  | [] => [x]
  | y :: ys => if less x y then y :: insertBack less x ys else x :: y :: ys

/-- The call `sort.Slice(s, less)` as package `sort` runs it on a short slice
(insertion sort: fewer than 7 elements in every Go release, up to 12 since
Go 1.19; the port lists of this controller have at most 3). -/
def sortSlice {α : Type} (less : α → α → Bool) (s : List α) : List α :=
  (s.foldl (fun run x => insertBack less x run) []).reverse

/-- The loop of `isServicesPortsEqual` over the two sorted slices of equal length. -/
def portsLoop : List ServicePort → List ServicePort → Bool
  | oldSpec :: olds, newSpec :: news =>
    if oldSpec.name != newSpec.name || oldSpec.port != newSpec.port ||
        oldSpec.protocol != newSpec.protocol ||
        oldSpec.targetPort.intVal != newSpec.targetPort.intVal then false
    else portsLoop olds news
  | _, _ => true

/-- The function `isServicesPortsEqual`. -/
def isServicesPortsEqual (old new : List ServicePort) : Bool :=
  if old.length != new.length then false
  else portsLoop (sortSlice lessName old) (sortSlice lessName new)

/-- The function `isServicesSpecEqual`. -/
def isServicesSpecEqual (old new : ServiceSpec) : Bool :=
  if old.type != new.type || !isServicesPortsEqual old.ports.elems new.ports.elems ||
      old.externalTrafficPolicy != new.externalTrafficPolicy ||
      !(old.loadBalancerSourceRanges == new.loadBalancerSourceRanges) then false
  else true

/-- The function `isServiceNeedsToUpdate` (its client argument is unused). -/
def isServiceNeedsToUpdate (old new : Service) : Bool :=
  if !isServicesSpecEqual old.spec new.spec || !(old.annotations == new.annotations) ||
      !(old.labels == new.labels) || !(new.spec.selector == old.spec.selector) then true
  else false

/-- The port slice of `new` as `isServiceNeedsToUpdate old new` leaves it:
`sort.Slice` reorders the caller's backing array, and it is reached when the
types agree and the two slices have equal length. -/
def portsAfterCompare (old new : ServiceSpec) : GoSlice ServicePort :=
  if old.type = new.type ∧ old.ports.elems.length = new.ports.elems.length then
    new.ports.map (sortSlice lessName)
  else new.ports

/-! ## Code outside this file -/

/-- What the code outside this file returns during one pass. The manifest
builders of packages `statefulset`, `pxc` and `config` are pure functions of
the entity; the record holds their values for the entity of the pass. -/
structure Env where
  /-- The error returned by a call into another package or file. -/
  outcome : Collab → Option Err
  /-- The error of `OwnerRef(ro, scheme)` for an owner of the given kind. -/
  ownerRef : Kind → Option Err
  /-- The method `CompareVersionWith` of the entity. -/
  compareVersionWith : String → Int
  /-- The method `ShouldWaitForTokenIssue`. -/
  shouldWaitForTokenIssue : Cluster → Bool
  /-- The method `CheckNSetDefaults`: the entity with defaults filled in, `changed`, and the error. -/
  checkNSetDefaults : Cluster → Cluster × Bool × Option Err
  /-- The name `sfs.StatefulSet().Name` of a workload. -/
  appName : Tier → String
  /-- The labels `sfs.Labels()` of a workload. -/
  appLabels : Tier → Labels
  /-- The manifest returned by `pxc.StatefulSet`. -/
  statefulSet : Tier → StatefulSet
  /-- The value of `r.getConfigHash`. -/
  configHash : Tier → String
  /-- The hash returned by `r.getSecretHash`. -/
  secretHash : SecretHash → String
  newServicePXC : Service
  newServicePXCUnready : Service
  newServiceHAProxy : Service
  newServiceHAProxyReplicas : Service
  newServiceProxySQL : Service
  newServiceProxySQLUnready : Service
  /-- The name given by `pxc.HaproxyServiceNamespacedName`. -/
  haproxyServiceName : String
  /-- The name given by `pxc.HAProxyReplicasNamespacedName`. -/
  haproxyReplicasName : String
  /-- The name given by `pxc.ProxySQLServiceNamespacedName`. -/
  proxysqlServiceName : String
  /-- The name given by `pxc.ProxySQLUnreadyServiceNamespacedName`. -/
  proxysqlUnreadyName : String
  /-- The map built by `config.NewAutoTuneConfigMap` for a name. -/
  newAutoTuneConfigMap : String → ConfigMap
  /-- The map built by `config.NewConfigMap` from name, file name and content. -/
  newConfigMap : String → String → String → ConfigMap
  /-- The budget built by `pxc.PodDisruptionBudget`. -/
  podDisruptionBudget : PodDisruptionBudgetSpec → Tier → PodDisruptionBudget

/-- A call into code outside this file: logged, the error read from the environment. -/
def callCollab (env : Env) (c : Collab) (w : World) : Option Err × World :=
  (env.outcome c, w.log (.collab c))

/-- A step of a function that returns an error: `a` runs, and `b` runs when `a` returned `nil`. -/
def andThen (a b : World → Option Err × World) (w : World) : Option Err × World :=
  match a w with
  | (some e, w1) => (some e, w1)
  | (none, w1) => b w1

/-- Wrap the error of a step with a message. -/
def wrapped (a : World → Option Err × World) (msg : String) (w : World) : Option Err × World :=
  match a w with
  | (err, w1) => (wrap err msg, w1)

/-- A step that only runs under a condition. -/
def onlyIf (c : Bool) (a : World → Option Err × World) (w : World) : Option Err × World :=
  if c then a w else (none, w)

/-- The function `setControllerReference` for an owner of kind `k`: the owner
reference it appends to the object is not tracked. -/
def setControllerReference (env : Env) (k : Kind) (w : World) : Option Err × World :=
  (env.ownerRef k, w)

/-- Look up a key of a Go `map[string]string`; a missing key reads as the empty string. -/
def labelGet (ls : Labels) (k : String) : String :=
  ((ls.find? (fun kv => kv.1 == k)).map Prod.snd).getD ""

/-- Assign `m[k] = v` on a map that has been made non-nil. -/
def setAnn (m : GoMap) (k v : String) : GoMap :=
  let kvs := m.getD []
  if kvs.any (fun kv => kv.1 == k) then some (kvs.map (fun kv => if kv.1 = k then (k, v) else kv))
  else some (kvs ++ [(k, v)])

/-- The statement `if m == nil then m = make(map[string]string)`. -/
def ensureMap (m : GoMap) : GoMap := some (m.getD [])

/-! ## Helpers of the convergence pipeline -/

/-- The method `createService`. -/
def createService (env : Env) (svc : Service) (w : World) : Option Err × World :=
  match setControllerReference env .cluster w with
  | (some e, w0) => (wrap (some e) "setControllerReference", w0)
  | (none, w0) =>
    match clientGet svcColl svc.name w0 with
    | (.error e, w1) =>
      if e.isNotFound then
        match clientCreate svcColl svc w1 with
        | (err, w2) => (wrap err "create", w2)
      else (wrap (some e) "check if exists", w1)
    | (.ok _, w1) => (wrap none "check if exists", w1)

/-- The function `createOrUpdateConfigmap`. -/
def createOrUpdateConfigmap (configMap : ConfigMap) (w : World) : Option Err × World :=
  match clientGet cmColl configMap.name w with
  | (.error e, w1) =>
    if !e.isNotFound then (wrap (some e) "get current configmap", w1)
    else clientCreate cmColl configMap w1
  | (.ok currMap, w1) =>
    if !(currMap.data == configMap.data) then clientUpdate cmColl configMap w1
    else (none, w1)

/-- The method `reconcilePDB`; the owner is a stateful set. -/
def reconcilePDB (env : Env) (spec : Option PodDisruptionBudgetSpec) (t : Tier) (w : World) :
    Option Err × World :=
  match spec with
  | none => (none, w)
  | some sp =>
    let pdb := env.podDisruptionBudget sp t
    match setControllerReference env .statefulSet w with
    | (some e, w0) => (wrap (some e) "set owner reference", w0)
    | (none, w0) =>
      match clientGet pdbColl pdb.name w0 with
      | (.error e, w1) =>
        if e.isNotFound then clientCreate pdbColl pdb w1
        else (wrap (some e) "reconcile PDB", w1)
      | (.ok cpdb, w1) => clientUpdate pdbColl { cpdb with spec := pdb.spec } w1

/-! ## Teardown helpers -/

/-- The method `deleteStatefulSetPods`. -/
def deleteStatefulSetPods (env : Env) (t : Tier) (w : World) : Option Err × World :=
  match clientList podColl (env.appLabels t) w with
  | (.error e, w1) => (wrap (some e) "get pod list", w1)
  | (.ok items, w1) =>
    if items.length ≤ 1 then (none, w1.log (.sleep 3))
    else
      match clientGet stsColl (env.appName t) w1 with
      | (.error e, w2) => (wrap (some e) "get StatefulSet", w2)
      | (.ok cSet, w2) =>
        match clientUpdate stsColl { cSet with replicas := some 1 } w2 with
        | (some e, w3) => (wrap (some e) "downscale StatefulSet", w3)
        | (none, w3) => (some (.other "waiting for pods to be deleted"), w3)

/-- The method `deletePXCPods`. -/
def deletePXCPods (env : Env) (cr : Cluster) (w : World) : Option Err × World :=
  match deleteStatefulSetPods env .pxc w with
  | (some e, w1) => (wrap (some e) "delete statefulset pods", w1)
  | (none, w1) =>
    match cr.spec.backup with
    | some b =>
      if b.pitrEnabled then wrapped (callCollab env .deletePITR) "delete pitr pod" w1
      else (none, w1)
    | none => (none, w1)

/-- The loop of `deletePVC` over the listed claims. -/
def deletePVCItems : List PersistentVolumeClaim → World → Option Err × World
  | [], w => (none, w)
  | pvc :: rest, w =>
    match clientDelete pvcColl pvc.name w with
    | (some e, w1) => (wrap (some e) ("delete PVC " ++ pvc.name), w1)
    | (none, w1) => deletePVCItems rest w1

/-- The method `deletePVC`. -/
def deletePVC (lbls : Labels) (w : World) : Option Err × World :=
  match clientList pvcColl lbls w with
  | (.error e, w1) => (wrap (some e) "get PVC list", w1)
  | (.ok items, w1) => deletePVCItems items w1

/-- The method `deleteStatefulSet`; `delPVC` is its parameter `deletePVC`. -/
def deleteStatefulSet (env : Env) (t : Tier) (delPVC : Bool) (w : World) : Option Err × World :=
  match clientGet stsColl (env.appName t) w with
  | (.error e, w1) =>
    if !e.isNotFound then (wrap (some e) ("get statefulset: " ++ env.appName t), w1)
    else (none, w1)
  | (.ok _, w1) =>
    match clientDelete stsColl (env.appName t) w1 with
    | (some e, w2) =>
      if !e.isNotFound then (wrap (some e) ("delete statefulset: " ++ env.appName t), w2)
      else if delPVC then wrapped (deletePVC (env.appLabels t)) ("delete pvc: " ++ env.appName t) w2
      else (none, w2)
    | (none, w2) =>
      if delPVC then wrapped (deletePVC (env.appLabels t)) ("delete pvc: " ++ env.appName t) w2
      else (none, w2)

/-- The method `deleteServices`. -/
def deleteServices : List String → World → Option Err × World
  | [], w => (none, w)
  | svcName :: rest, w =>
    match clientGet svcColl svcName w with
    | (.error e, w1) =>
      if !e.isNotFound then (wrap (some e) ("get service: " ++ svcName), w1)
      else deleteServices rest w1
    | (.ok svc, w1) =>
      match clientDelete svcColl svc.name w1 with
      | (some e, w2) => (wrap (some e) ("delete service: " ++ svcName), w2)
      | (none, w2) => deleteServices rest w2

/-- The method `resyncPXCUsersWithProxySQL` up to the `go` statement: the
compare-and-swap on `syncUsersState` is tried only for a ready entity with
ProxySQL enabled, and the goroutine is started when it succeeds. -/
def resyncPXCUsersWithProxySQL (cr : Cluster) (w : World) : World :=
  match cr.spec.proxysql with
  | none => w
  | some p =>
    if !p.enabled then w
    else if cr.status.status != appStateReady then w
    else if w.syncUsersState = stateFree then
      ({ w with syncUsersState := stateLocked }).log .spawnResync
    else w

/-- The goroutine started by `resyncPXCUsersWithProxySQL`, run to its end. -/
def resyncGoroutine (env : Env) (w : World) : World :=
  match callCollab env .syncPXCUsersWithProxySQL w with
  | (_, w1) => { w1 with syncUsersState := stateFree }

/-! ## The convergence pipeline: `deploy` -/

/-- The condition `spec != nil && spec.Enabled` on a routing tier. -/
def tierEnabled (p : Option PodSpec) : Bool :=
  match p with
  | some h => h.enabled
  | none => false

/-- The memory figure read by `reconcileConfigMap`, the empty string when a pointer on the way is nil. -/
def memoryOf (r : Option PodResources) (pick : PodResources → Option ResourcesList) : String :=
  match r with
  | none => ""
  | some res =>
    match pick res with
    | none => ""
    | some l => l.memory

/-- The log-collector block of `reconcileConfigMap`: create, and update when the map exists. -/
def logCollectorConfigMap (configMap : ConfigMap) (w : World) : Option Err × World :=
  match clientCreate cmColl configMap w with
  | (some e, w1) =>
    if e.isAlreadyExists then wrapped (clientUpdate cmColl configMap) "update ConfigMap LogCollector" w1
    else (wrap (some e) "create ConfigMap LogCollector", w1)
  | (none, w1) => (none, w1)

/-- The method `reconcileConfigMap`. -/
def reconcileConfigMap (env : Env) (cr : Cluster) : World → Option Err × World :=
  let ls := env.appLabels .pxc
  let instance_ := labelGet ls "app.kubernetes.io/instance"
  let component := labelGet ls "app.kubernetes.io/component"
  let limitMemory := memoryOf cr.spec.pxc.resources PodResources.limits
  let requestMemory := memoryOf cr.spec.pxc.resources PodResources.requests
  andThen
    (onlyIf (decide (env.compareVersionWith "1.3.0" ≥ 0) &&
        (limitMemory != "" || requestMemory != ""))
      (andThen (wrapped (callCollab env .newAutoTuneConfigMap) "new auto-config map")
      (andThen (wrapped (setControllerReference env .cluster) "set auto-config controller ref")
        (wrapped (createOrUpdateConfigmap
          (env.newAutoTuneConfigMap ("auto-" ++ instance_ ++ "-" ++ component)))
          "auto-config config map"))))
  (andThen
    (onlyIf (cr.spec.pxc.configuration != "")
      (andThen (wrapped (setControllerReference env .cluster) "set controller ref")
        (wrapped (createOrUpdateConfigmap
          (env.newConfigMap (instance_ ++ "-" ++ component) "init.cnf" cr.spec.pxc.configuration))
          "pxc config map")))
  (andThen
    (match cr.spec.proxysql with
      | some p =>
        onlyIf (p.enabled && p.configuration != "")
          (andThen (wrapped (setControllerReference env .cluster) "set controller ref ProxySQL")
            (wrapped (createOrUpdateConfigmap
              (env.newConfigMap (instance_ ++ "-proxysql") "proxysql.cnf" p.configuration))
              "proxysql config map"))
      | none => fun w => (none, w))
  (andThen
    (match cr.spec.haproxy with
      | some h =>
        onlyIf (h.enabled && h.configuration != "")
          (andThen (wrapped (setControllerReference env .cluster) "set controller ref HAProxy")
            (wrapped (createOrUpdateConfigmap
              (env.newConfigMap (instance_ ++ "-haproxy") "haproxy-global.cfg" h.configuration))
              "haproxy config map"))
      | none => fun w => (none, w))
    (match cr.spec.logCollector with
      | some lc =>
        onlyIf (lc.configuration != "" && decide (env.compareVersionWith "1.7.0" ≥ 0))
          (andThen (wrapped (setControllerReference env .cluster) "set controller ref LogCollector")
            (logCollectorConfigMap
              (env.newConfigMap (instance_ ++ "-logcollector") "fluentbit_custom.conf"
                lc.configuration)))
      | none => fun w => (none, w)))))

/-- The statement `err = r.client.Create(..., set)` of `deploy` with its check
`err != nil && !k8serrors.IsAlreadyExists(err)`. -/
def createWorkload (set : StatefulSet) (msg : String) (w : World) : Option Err × World :=
  match clientCreate stsColl set w with
  | (some e, w1) => if !e.isAlreadyExists then (wrap (some e) msg, w1) else (none, w1)
  | (none, w1) => (none, w1)

/-- The block of `deploy` that fetches a workload back and reconciles its disruption budget. -/
def budgetStep (env : Env) (name : String) (spec : Option PodDisruptionBudgetSpec) (t : Tier)
    (getMsg : String) (w : World) : Option Err × World :=
  match clientGet stsColl name w with
  | (.ok _, w1) => wrapped (reconcilePDB env spec t) ("PodDisruptionBudget for " ++ name) w1
  | (.error e, w1) => if !e.isNotFound then (wrap (some e) getMsg, w1) else (none, w1)

/-- The primary workload as `deploy` sends it: the built manifest with the hash annotations. -/
def nodeSet (env : Env) : StatefulSet :=
  let set := env.statefulSet .pxc
  let a0 := ensureMap set.templateAnnotations
  let a1 := if env.compareVersionWith "1.1.0" ≥ 0 then
      setAnn a0 "percona.com/configuration-hash" (env.configHash .pxc) else a0
  let a2 := if env.secretHash .ssl != "" && decide (env.compareVersionWith "1.1.0" ≥ 0) then
      setAnn a1 "percona.com/ssl-hash" (env.secretHash .ssl) else a1
  let a3 := if env.secretHash .sslInternal != "" && decide (env.compareVersionWith "1.1.0" ≥ 0) then
      setAnn a2 "percona.com/ssl-internal-hash" (env.secretHash .sslInternal) else a2
  let a4 := if env.secretHash .vault != "" && decide (env.compareVersionWith "1.6.0" ≥ 0) then
      setAnn a3 "percona.com/vault-config-hash" (env.secretHash .vault) else a3
  { set with templateAnnotations := a4 }

/-- The HAProxy workload as `deploy` sends it. -/
def haProxySet (env : Env) : StatefulSet :=
  let set := env.statefulSet .haproxy
  let a0 := ensureMap set.templateAnnotations
  let a1 := setAnn a0 "percona.com/configuration-hash" (env.configHash .haproxy)
  let a2 := if env.compareVersionWith "1.5.0" = 0 ∧ env.secretHash .ssl ≠ "" then
      setAnn a1 "percona.com/ssl-hash" (env.secretHash .ssl) else a1
  let a3 := if env.compareVersionWith "1.5.0" = 0 ∧ env.secretHash .sslInternal ≠ "" then
      setAnn a2 "percona.com/ssl-internal-hash" (env.secretHash .sslInternal) else a2
  { set with templateAnnotations := a3 }

/-- The ProxySQL workload as `deploy` sends it. -/
def proxySet (env : Env) : StatefulSet :=
  let set := env.statefulSet .proxysql
  let a0 := ensureMap set.templateAnnotations
  let a1 := if env.compareVersionWith "1.1.0" ≥ 0 then
      setAnn a0 "percona.com/configuration-hash" (env.configHash .proxysql) else a0
  let a2 := if env.compareVersionWith "1.1.0" ≥ 0 ∧ env.secretHash .ssl ≠ "" then
      setAnn a1 "percona.com/ssl-hash" (env.secretHash .ssl) else a1
  let a3 := if env.compareVersionWith "1.1.0" ≥ 0 ∧ env.secretHash .sslInternal ≠ "" then
      setAnn a2 "percona.com/ssl-internal-hash" (env.secretHash .sslInternal) else a2
  { set with templateAnnotations := a3 }

/-- The call `r.getSecretHash` for the internal TLS secret, whose not-found error is let through. -/
def internalSecretHash (env : Env) (w : World) : Option Err × World :=
  match callCollab env (.getSecretHash .sslInternal) w with
  | (some e, w1) => if !e.isNotFound then (wrap (some e) "get internal secret hash", w1) else (none, w1)
  | (none, w1) => (none, w1)

/-- The method `deploy`. -/
def deploy (env : Env) (cr : Cluster) : World → Option Err × World :=
  andThen (reconcileConfigMap env cr)
  (andThen (wrapped (callCollab env (.operatorPod .deploy)) "get operator deployment")
  (andThen (onlyIf (decide (env.compareVersionWith "1.5.0" ≥ 0))
      (callCollab env (.entrypointInitContainer .deploy)))
  (andThen (wrapped (callCollab env (.statefulSet .pxc)) "get pxc statefulset")
  (andThen (wrapped (callCollab env .reconsileSSL)
      ("failed to reconcile SSL.Please create your TLS secret " ++ cr.spec.pxc.sslSecretName ++
        " and " ++ cr.spec.pxc.sslInternalSecretName ++
        " manually or setup cert-manager correctly"))
  (andThen (wrapped (callCollab env (.getSecretHash .ssl)) "get secret hash")
  (andThen (internalSecretHash env)
  (andThen (wrapped (callCollab env (.getSecretHash .vault)) "get vault config hash")
  (andThen (setControllerReference env .cluster)
  (andThen (createWorkload (nodeSet env) "create newStatefulSetNode")
  (andThen (wrapped (createService env env.newServicePXCUnready) "create PXC ServiceUnready")
  (andThen (wrapped (createService env env.newServicePXC) "create PXC Service")
  (andThen (budgetStep env (nodeSet env).name cr.spec.pxc.podDisruptionBudget .pxc
      "get PXC stateful set")
  (andThen
    (match cr.spec.haproxy with
      | some h =>
        onlyIf h.enabled
          (andThen (wrapped (callCollab env (.statefulSet .haproxy)) "create HAProxy StatefulSet")
          (andThen (setControllerReference env .cluster)
          (andThen (createWorkload (haProxySet env) "create newStatefulSetHAProxy")
          (andThen (wrapped (createService env env.newServiceHAProxy) "create HAProxy Service")
          (andThen (wrapped (createService env env.newServiceHAProxyReplicas)
              "create HAProxyReplicas Service")
            (budgetStep env (haProxySet env).name h.podDisruptionBudget .haproxy
              "get HAProxy stateful set"))))))
      | none => fun w => (none, w))
    (match cr.spec.proxysql with
      | some p =>
        onlyIf p.enabled
          (andThen (wrapped (callCollab env (.statefulSet .proxysql)) "create ProxySQL Service")
          (andThen (setControllerReference env .cluster)
          (andThen (createWorkload (proxySet env) "create newStatefulSetProxySQL")
          (andThen (wrapped (createService env env.newServiceProxySQL) "create ProxySQL Service")
          (andThen (wrapped (createService env env.newServiceProxySQLUnready)
              "create ProxySQL ServiceUnready")
            (budgetStep env (proxySet env).name p.podDisruptionBudget .proxysql
              "get ProxySQL stateful set"))))))
      | none => fun w => (none, w)))))))))))))))

/-! ## The control loop: `Reconcile` -/

/-- The type `reconcile.Result`; `requeueAfter` is a `time.Duration` in nanoseconds. -/
structure Result where
  requeue : Bool
  requeueAfter : Nat
  deriving DecidableEq, Repr

/-- The constant `time.Second`. -/
def second : Nat := 1000000000

/-- The value `rr` built at the top of `Reconcile`. -/
def rr : Result := { requeue := false, requeueAfter := second * 5 }

/-- The zero value `reconcile.Result{}`. -/
def emptyResult : Result := { requeue := false, requeueAfter := 0 }

/-- A `return` statement of `Reconcile` after the status closure has been
deferred: the two returned values and, as `errVar`, the value the variable
`err` of the function scope holds at that moment (the closure reads it). -/
structure Exit where
  result : Result
  err : Option Err
  errVar : Option Err
  deriving DecidableEq, Repr

/-- A statement of `Reconcile`: it receives the current value of the variable
`err` of the function scope and either returns from `Reconcile` or goes on with
the new value of that variable. -/
abbrev StageFn := Option Err → World → Except Exit (Option Err) × World

/-- Sequencing of two statements. -/
def next (a b : StageFn) : StageFn := fun err w =>
  match a err w with
  | (.error x, w1) => (.error x, w1)
  | (.ok err1, w1) => b err1 w1

/-- A statement under a condition. -/
def condStage (c : Bool) (a : StageFn) : StageFn := fun err w =>
  if c then a err w else (.ok err, w)

/-- Record in the trace that a statement was reached. -/
def mark (s : Stage) : StageFn := fun err w => (.ok err, w.log (.stage s))

/-- The pattern `err = f(); if err != nil then return res, wrapped`: the error is
assigned to the variable of the function scope. With `msg = none` the error is
returned as it is. -/
def stepOuter (a : World → Option Err × World) (res : Result) (msg : Option String) : StageFn :=
  fun _ w =>
    match a w with
    | (some e, w1) =>
      (.error { result := res,
                err := (match msg with
                  | some m => wrap (some e) m
                  | none => some e),
                errVar := some e }, w1)
    | (none, w1) => (.ok none, w1)

/-- The same pattern where the error lives in a variable declared with `:=` in
an inner block: the variable of the function scope keeps its value. -/
def stepInner (a : World → Option Err × World) (res : Result) (msg : Option String) : StageFn :=
  fun err w =>
    match a w with
    | (some e, w1) =>
      (.error { result := res,
                err := (match msg with
                  | some m => wrap (some e) m
                  | none => some e),
                errVar := err }, w1)
    | (none, w1) => (.ok err, w1)

/-- The loop over `o.GetFinalizers()` in the teardown branch: `err` is the
variable of the function scope, `finalizers` the slice being rebuilt. -/
def finalizerLoop (env : Env) (o : Cluster) :
    List String → Option Err → List String → World → Option Err × List String × World
  | [], err, finalizers, w => (err, finalizers, w)
  | fnlz :: rest, err, finalizers, w =>
    let w0 := w.log (.stage (.finalizer fnlz))
    match (if fnlz = "delete-proxysql-pvc" then deleteStatefulSet env .proxysql true w0
           else if fnlz = "delete-pxc-pvc" then deleteStatefulSet env .pxc true w0
           else if fnlz = "delete-pxc-pods-in-order" then deletePXCPods env o w0
           else (err, w0)) with
    | (some e, w1) => finalizerLoop env o rest (some e) (finalizers ++ [fnlz]) w1
    | (none, w1) => finalizerLoop env o rest none finalizers w1

/-- The teardown branch `if o.ObjectMeta.DeletionTimestamp != nil`. -/
def teardown (env : Env) (o : Cluster) : StageFn := fun err w =>
  match finalizerLoop env o o.finalizers err [] w with
  | (_, finalizers, w1) =>
    match clientUpdate clusterColl { o with finalizers := finalizers }
        (w1.log (.stage .persistFinalizers)) with
    | (err2, w2) => (.error { result := rr, err := err2, errVar := err2 }, w2)

/-- One round of the loop over the two PXC services. -/
def pxcServiceStep (pxcService : Service) : StageFn := fun _ w =>
  match clientGet svcColl pxcService.name w with
  | (.error e, w1) =>
    (.error { result := emptyResult, err := wrap (some e) "failed to get current PXC service",
              errVar := some e }, w1)
  | (.ok currentService, w1) =>
    if currentService.spec.ports == pxcService.spec.ports then (.ok none, w1)
    else
      match clientUpdate svcColl
          { currentService with spec := { currentService.spec with ports := pxcService.spec.ports } }
          w1 with
      | (some e, w2) =>
        (.error { result := emptyResult, err := wrap (some e) "PXC service upgrade error",
                  errVar := some e }, w2)
      | (none, w2) => (.ok none, w2)

/-- A TCP port whose target is the given number. -/
def tcpPort (name : String) (port target : Int) : ServicePort :=
  { name := name, protocol := "TCP", port := port, targetPort := intstrFromInt target, nodePort := 0 }

/-- A port literal that sets only `Port` and `Name`. -/
def barePort (name : String) (port : Int) : ServicePort :=
  { name := name, protocol := "", port := port,
    targetPort := { type := 0, intVal := 0, strVal := "" }, nodePort := 0 }

/-- The value `newHAProxyService` computed from the stored service. -/
def newHAProxyService (env : Env) (h : PodSpec) (old : Service) : Service :=
  let ports := [tcpPort "mysql" 3306 3306, tcpPort "proxy-protocol" 3309 3309]
  let type := if h.serviceType != "" then h.serviceType else "ClusterIP"
  let etp :=
    if type == "LoadBalancer" || type == "NodePort" then
      if h.externalTrafficPolicy != "" then h.externalTrafficPolicy
      else if old.spec.externalTrafficPolicy != h.externalTrafficPolicy then "Cluster"
      else old.spec.externalTrafficPolicy
    else old.spec.externalTrafficPolicy
  let ports := if env.compareVersionWith "1.6.0" ≥ 0 then
      ports ++ [tcpPort "mysql-admin" 33062 33062] else ports
  { old with spec := { old.spec with ports := some ports, type := type,
                                     externalTrafficPolicy := etp } }

/-- The value `newHAProxyServiceReplicas` computed from the stored service. -/
def newHAProxyServiceReplicas (h : PodSpec) (old : Service) : Service :=
  let type := if h.replicasServiceType != "" then h.replicasServiceType else "ClusterIP"
  let etp :=
    if type == "LoadBalancer" || type == "NodePort" then
      if h.replicasExternalTrafficPolicy != "" then h.replicasExternalTrafficPolicy
      else "Cluster"
    else old.spec.externalTrafficPolicy
  { old with spec := { old.spec with ports := some [tcpPort "mysql-replicas" 3306 3307],
                                     type := type, externalTrafficPolicy := etp } }

/-- Fetch a service, compute the wanted one, and update when `isServiceNeedsToUpdate` says so. -/
def serviceStep (name : String) (wanted : Service → Service) (getMsg updMsg : String) :
    World → Option Err × World := fun w =>
  match clientGet svcColl name w with
  | (.error e, w1) => (wrap (some e) getMsg, w1)
  | (.ok old, w1) =>
    let new := wanted old
    if isServiceNeedsToUpdate old new then
      wrapped (clientUpdate svcColl
        { new with spec := { new.spec with ports := portsAfterCompare old.spec new.spec } })
        updMsg w1
    else (none, w1)

/-- The block `if o.Spec.HAProxy != nil && o.Spec.HAProxy.Enabled`: its `err`
is declared inside the block. -/
def haproxyEnabledStage (env : Env) (h : PodSpec) : StageFn :=
  next (mark (.enabledTier .haproxy))
  (next (stepInner (wrapped (callCollab env (.updatePod .haproxy)) "HAProxy upgrade error")
      emptyResult none)
  (next (stepInner (serviceStep env.haproxyServiceName (newHAProxyService env h)
      "failed to get HAProxy service" "HAProxy service upgrade") emptyResult none)
    (stepInner (serviceStep env.haproxyReplicasName (newHAProxyServiceReplicas h)
      "failed to get HAProxyReplicas service" "HAProxyReplicas service upgrade error")
      emptyResult none)))

/-- The else-branch for HAProxy: the workload and both services are deleted. -/
def haproxyDisabledStage (env : Env) : StageFn :=
  next (mark (.disabledTier .haproxy))
  (next (stepOuter (deleteStatefulSet env .haproxy false) emptyResult
      (some "delete HAProxy stateful set"))
    (stepOuter (deleteServices [env.haproxyServiceName, env.haproxyReplicasName]) emptyResult
      (some "delete HAProxy replica service")))

/-- The service `currentService` as the ProxySQL block rewrites it before the update. -/
def proxysqlService (env : Env) (p : PodSpec) (currentService : Service) : Service :=
  let ports := [barePort "mysql" 3306]
  let spec1 :=
    if p.serviceType != "" then
      if currentService.spec.type != p.serviceType then
        { currentService.spec with ports := some ports, type := p.serviceType }
      else currentService.spec
    else if currentService.spec.type != "ClusterIP" then
      { currentService.spec with ports := some ports, type := "ClusterIP" }
    else currentService.spec
  let spec2 :=
    if spec1.type == "LoadBalancer" || spec1.type == "NodePort" then
      if p.externalTrafficPolicy != "" then
        { spec1 with externalTrafficPolicy := p.externalTrafficPolicy }
      else if spec1.externalTrafficPolicy != p.externalTrafficPolicy then
        { spec1 with externalTrafficPolicy := "Cluster" }
      else spec1
    else spec1
  let spec3 :=
    if env.compareVersionWith "1.6.0" ≥ 0 then
      { spec2 with ports := some (ports ++ [barePort "mysql-admin" 33062]) }
    else spec2
  { currentService with spec := spec3 }

/-- The lookup and the unconditional update of the ProxySQL service. -/
def proxysqlServiceStep (env : Env) (p : PodSpec) : World → Option Err × World := fun w =>
  match clientGet svcColl env.newServiceProxySQL.name w with
  | (.error e, w1) => (wrap (some e) "failed to get current proxysql service sate", w1)
  | (.ok currentService, w1) =>
    wrapped (clientUpdate svcColl (proxysqlService env p currentService))
      "ProxySQL service upgrade error" w1

/-- The block `if o.Spec.ProxySQL != nil && o.Spec.ProxySQL.Enabled`: the first
`err` is the variable of the function scope, the later ones are declared inside
the block. -/
def proxysqlEnabledStage (env : Env) (p : PodSpec) : StageFn :=
  next (mark (.enabledTier .proxysql))
  (next (stepOuter (callCollab env (.updatePod .proxysql)) emptyResult
      (some "ProxySQL upgrade error"))
    (stepInner (proxysqlServiceStep env p) emptyResult none))

/-- The loop that looks for the finalizer `delete-proxysql-pvc`. -/
def wantsProxysqlPVC (finalizers : List String) : Bool :=
  match finalizers with
  | [] => false
  | fnlz :: rest => if fnlz = "delete-proxysql-pvc" then true else wantsProxysqlPVC rest

/-- The else-branch for ProxySQL. -/
def proxysqlDisabledStage (env : Env) (o : Cluster) : StageFn :=
  next (mark (.disabledTier .proxysql))
  (next (stepOuter (deleteStatefulSet env .proxysql (wantsProxysqlPVC o.finalizers)) emptyResult none)
    (stepOuter (deleteServices [env.proxysqlServiceName, env.proxysqlUnreadyName]) emptyResult
      none))

/-- The statement `if o.Spec.HAProxy != nil && o.Spec.HAProxy.Enabled ... else ...`. -/
def haproxyStage (env : Env) (o : Cluster) : StageFn :=
  match o.spec.haproxy with
  | some h => if h.enabled then haproxyEnabledStage env h else haproxyDisabledStage env
  | none => haproxyDisabledStage env

/-- The statement `if o.Spec.ProxySQL != nil && o.Spec.ProxySQL.Enabled ... else ...`. -/
def proxysqlStage (env : Env) (o : Cluster) : StageFn :=
  match o.spec.proxysql with
  | some p => if p.enabled then proxysqlEnabledStage env p else proxysqlDisabledStage env o
  | none => proxysqlDisabledStage env o

/-- The statements of `Reconcile` after the teardown branch. -/
def convergence (env : Env) (o : Cluster) : StageFn :=
  next (mark .deploy)
  (next (stepOuter (deploy env o) emptyResult none)
  (next (stepOuter (callCollab env (.operatorPod .reconcile)) emptyResult
      (some "get operator deployment"))
  (next (condStage (decide (env.compareVersionWith "1.5.0" ≥ 0))
      (stepInner (callCollab env (.entrypointInitContainer .reconcile)) emptyResult none))
  (next (mark .pxcUpdatePod)
  (next (stepOuter (callCollab env (.updatePod .pxc)) emptyResult (some "pxc upgrade error"))
  (next (mark .pxcServices)
  (next (pxcServiceStep env.newServicePXC)
  (next (pxcServiceStep env.newServicePXCUnready)
  (next (haproxyStage env o)
  (next (proxysqlStage env o)
  (next (mark .backups)
  (next (stepOuter (callCollab env .reconcileBackups) emptyResult none)
  (next (mark .versionFetch)
  (next (stepInner (wrapped (callCollab env .fetchVersionFromPXC) "update CR version") rr none)
  (next (mark .versionSchedule)
    (stepOuter (callCollab env .sheduleEnsurePXCVersion) emptyResult
      (some "failed to ensure version")))))))))))))))))

/-- The statements of `Reconcile` between the registration of the status
closure and the branch on the deletion marker. -/
def preBranch (env : Env) (o : Cluster) (changed : Bool) : StageFn :=
  next (condStage (decide (env.compareVersionWith "1.7.0" ≥ 0) && o.spec.pxc.autoRecovery)
      (fun _ w => match callCollab env .recoverFullClusterCrashIfNeeded w with
        | (err, w1) => (.ok err, w1)))
  (next (stepOuter (callCollab env .reconcileUsersSecret) emptyResult
      (some "reconcile users secret"))
  (next (condStage (decide (env.compareVersionWith "1.5.0" ≥ 0))
      (stepOuter (callCollab env .reconcileUsers) rr (some "reconcileUsers")))
  (next (fun err w => (.ok err, resyncPXCUsersWithProxySQL o w))
  (next (condStage changed
      (stepOuter (clientUpdate clusterColl o) emptyResult (some "update PXC CR")))
    (condStage (o.status.pxcVersion == "" || o.status.pxcVersion.endsWith "intermediate")
      (fun err w => match callCollab env .ensurePXCVersion w with
        | (_, w1) => (.ok err, w1)))))))

/-- The body of `Reconcile` from the registration of the status closure to its `return`. -/
def reconcileBody (env : Env) (o : Cluster) (changed : Bool) (w : World) : Exit × World :=
  match next (preBranch env o changed)
      (if o.deletionTimestamp.isSome then teardown env o else convergence env o) none w with
  | (.error x, w1) => (x, w1)
  | (.ok err, w1) => ({ result := rr, err := none, errVar := err }, w1)

/-- The deferred closure: `uerr := r.updateStatus(o, err)`, and `uerr` is only logged. -/
def statusClosure (uerr : Option Err) (errVar : Option Err) (w : World) : World :=
  match uerr with
  | some _ => w.log (.updateStatus errVar)
  | none => w.log (.updateStatus errVar)

/-- What one call of `Reconcile` leaves behind. -/
structure Pass where
  result : Result
  err : Option Err
  world : World
  deriving DecidableEq, Repr

/-- The statements of `Reconcile` that run while the mutex is held, the deferred
status closure included; `uerr` is what `r.updateStatus` returns. -/
def reconcileLocked (env : Env) (uerr : Option Err) (request : String) (w : World) : Pass :=
  match clientGet clusterColl request w with
  | (.error e, w1) =>
    if e.isNotFound then { result := rr, err := none, world := w1 }
    else { result := emptyResult, err := some e, world := w1 }
  | (.ok o, w1) =>
    if env.shouldWaitForTokenIssue o then { result := rr, err := none, world := w1 }
    else
      match env.checkNSetDefaults o with
      | (_, _, some e) =>
        { result := emptyResult, err := wrap (some e) "wrong PXC options", world := w1 }
      | (o1, changed, none) =>
        match reconcileBody env o1 changed w1 with
        | (x, w2) => { result := x.result, err := x.err, world := statusClosure uerr x.errVar w2 }

/-- The method `lockStore.LoadOrCreate`: a fresh lock is free with `updateSync = 0`. -/
def loadOrCreate (key : String) (lockers : List (String × Lock)) : List (String × Lock) :=
  if lockers.any (fun kl => kl.1 == key) then lockers
  else lockers ++ [(key, { held := false, updateSync := 0 })]

/-- Change the lock stored under a key. -/
def setLock (key : String) (f : Lock → Lock) (lockers : List (String × Lock)) :
    List (String × Lock) :=
  lockers.map (fun kl => if kl.1 = key then (kl.1, f kl.2) else kl)

/-- Set the field `held` of a lock. -/
def Lock.setHeld (b : Bool) (l : Lock) : Lock := { l with held := b }

/-- Set the field `updateSync` of a lock. -/
def Lock.setUpdateSync (v : Int) (l : Lock) : Lock := { l with updateSync := v }

/-- Replace the lock registry of a world. -/
def World.withLockers (w : World) (ls : List (String × Lock)) : World := { w with lockers := ls }

/-- The start of `Reconcile`: the lock of the request key is loaded or created
and `statusMutex` is taken. -/
def acquire (request : String) (w : World) : World :=
  (w.withLockers (setLock request (Lock.setHeld true) (loadOrCreate request w.lockers))).log
    (.lock request)

/-- The two deferred calls `atomic.StoreInt32(l.updateSync, updateDone)` and
`l.statusMutex.Unlock()`, which run last, in this order. -/
def release (request : String) (w : World) : World :=
  let w1 := (w.withLockers (setLock request (Lock.setUpdateSync updateDone) w.lockers)).log
    (.storeUpdateSync request updateDone)
  (w1.withLockers (setLock request (Lock.setHeld false) w1.lockers)).log (.unlock request)

/-- The method `Reconcile`, started when `statusMutex` has been acquired. -/
def Reconcile (env : Env) (uerr : Option Err) (request : String) (w : World) : Pass :=
  match reconcileLocked env uerr request (acquire request w) with
  | p => { p with world := release request p.world }

/-! ## Vocabulary of the statements below -/

/-- The entity a pass fetches: the first client call of `Reconcile` is the
lookup of the request key, and it finds the stored entity unless the fault
script makes that call fail. -/
def fetched (request : String) (w : World) : Option Cluster :=
  match w.faults with
  | some _ :: _ => none
  | _ => clusterColl.lookup w.store request

/-- The world `w'` continues the trace of `w` by calls that all satisfy `P`. -/
def Ext (P : Call → Prop) (w w' : World) : Prop :=
  ∃ l, w'.trace = w.trace ++ l ∧ ∀ c ∈ l, P c

/-- The next `n` client calls are not made to fail by the fault script. -/
def World.calm (w : World) (n : Nat) : Prop := ∀ e, some e ∉ w.faults.take n

/-- A call of the status hook. -/
def Call.isStatusHook : Call → Bool
  | .updateStatus _ => true
  | _ => false

/-- Calls that only the wrapper of a pass makes: the status hook and the lock handling. -/
def Call.isBodyWork : Call → Bool
  | .updateStatus _ => false
  | .lock _ => false
  | .unlock _ => false
  | .storeUpdateSync _ _ => false
  | _ => true

/-- Calls that belong to the convergence pipeline: its stage markers, the
collaborators it calls, every `Create`, and every call on a service, a config
map or a disruption budget. -/
def Call.isConvergenceWork : Call → Bool
  | .stage (.finalizer _) => false
  | .stage .persistFinalizers => false
  | .stage _ => true
  | .collab (.operatorPod _) => true
  | .collab (.entrypointInitContainer _) => true
  | .collab .newAutoTuneConfigMap => true
  | .collab (.statefulSet _) => true
  | .collab .reconsileSSL => true
  | .collab (.getSecretHash _) => true
  | .collab (.updatePod _) => true
  | .collab .reconcileBackups => true
  | .collab .fetchVersionFromPXC => true
  | .collab .sheduleEnsurePXCVersion => true
  | .create _ => true
  | .get .service _ => true
  | .get .configMap _ => true
  | .get .pdb _ => true
  | .delete .service _ => true
  | .delete .configMap _ => true
  | .delete .pdb _ => true
  | .update (.service _) => true
  | .update (.configMap _) => true
  | .update (.pdb _) => true
  | _ => false

/-- Calls made by the finalizer tasks: lookups and deletions of a workload,
listing and deletion of claims, listing of pods, the downscale of a workload,
the grace delay and the point-in-time-recovery cleanup. -/
def Call.isTaskWork : Call → Bool
  | .get .statefulSet _ => true
  | .delete .statefulSet _ => true
  | .list .pvc _ => true
  | .delete .pvc _ => true
  | .list .pod _ => true
  | .update (.statefulSet _) => true
  | .sleep _ => true
  | .collab .deletePITR => true
  | _ => false

/-- Calls made before the branch on the deletion marker. -/
def Call.isPreBranchWork : Call → Bool
  | .collab .recoverFullClusterCrashIfNeeded => true
  | .collab .reconcileUsersSecret => true
  | .collab .reconcileUsers => true
  | .collab .ensurePXCVersion => true
  | .spawnResync => true
  | .update (.cluster _) => true
  | _ => false

/-- Calls of a pass on an entity marked for deletion, between the fetch and the status hook. -/
def Call.isTeardownWork (c : Call) : Bool :=
  c.isPreBranchWork || c.isTaskWork ||
    (match c with
      | .stage (.finalizer _) => true
      | .stage .persistFinalizers => true
      | _ => false)

/-- A call that touches persistent volume claims. -/
def Call.isClaimCall : Call → Bool
  | .list .pvc _ => true
  | .delete .pvc _ => true
  | _ => false

/-- A `Create` or `Update` of a child object (anything but the entity itself). -/
def Call.isChildWrite : Call → Bool
  | .create _ => true
  | .update (.cluster _) => false
  | .update _ => true
  | _ => false

/-- The fields `isServicesPortsEqual` compares in a port. -/
def portKey (p : ServicePort) : String × Int × String × Int :=
  (p.name, p.port, p.protocol, p.targetPort.intVal)

/-- The store holds `x` under its name, and nothing else under that name. -/
def Coll.holds {α : Type} [DecidableEq α] (c : Coll α) (s : Store) (x : α) : Bool :=
  (c.items s).any (fun y => c.nameOf y == c.nameOf x) &&
    (c.items s).all (fun y => c.nameOf y != c.nameOf x || y == x)

/-- The store has an object of the collection under the name. -/
def Coll.present {α : Type} (c : Coll α) (s : Store) (n : String) : Bool :=
  (c.lookup s n).isSome

/-- What the else-branch of a routing tier does, read off the run `r` of the
tier's statement from the world `w`: the statement is recorded, the workload
is looked up, and then
* claims are touched only when `delPVC` is set;
* when no store call is made to fail, a workload that is present is deleted,
  and when the workload step returns no error the statement goes on, looks up
  every endpoint of `svcs` and deletes each one that is present. -/
def RequestsDeletion (env : Env) (t : Tier) (delPVC : Bool) (svcs : List String) (w : World)
    (r : Except Exit (Option Err) × World) : Prop :=
  ∃ l, r.2.trace =
      w.trace ++ [.stage (.disabledTier t), .get .statefulSet (env.appName t)] ++ l ∧
    (delPVC = false → ∀ c ∈ l, c.isClaimCall = false) ∧
    (w.faults = [] →
      (stsColl.present w.store (env.appName t) = true →
        .delete .statefulSet (env.appName t) ∈ l) ∧
      ((deleteStatefulSet env t delPVC (w.log (.stage (.disabledTier t)))).1 = none →
        r.1 = .ok none ∧
        ∀ n ∈ svcs, .get .service n ∈ l ∧
          (svcColl.present w.store n = true → .delete .service n ∈ l)))

/-- The part of the world the endpoints step depends on is left alone: an empty
fault script stays empty and the services are the same. -/
def Keeps (w w1 : World) : Prop :=
  (w.faults = [] → w1.faults = []) ∧ w1.store.services = w.store.services

/-! ## A converged store -/

/-- The world after more calls, with the store they leave. -/
def World.move (w : World) (l : List Call) (s : Store) : World :=
  { w with trace := w.trace ++ l, store := s }

/-- A function that returns an error, run from any world with store `s` and
no injected failure: it returns `nil`, its child writes are `writes`, it leaves
the store `s1`. -/
def RunsF (s : Store) (a : World → Option Err × World) (writes : List Call) (s1 : Store) : Prop :=
  ∀ w, w.faults = [] → w.store = s →
    ∃ l, a w = (none, w.move l s1) ∧ l.filter Call.isChildWrite = writes

/-- The same for a statement of `Reconcile`: it does not return from
`Reconcile`, and the world it leaves has still no injected failure. -/
def RunsS (s : Store) (a : StageFn) (writes : List Call) (s1 : Store) : Prop :=
  ∀ err w, w.faults = [] → w.store = s →
    ∃ l e w1, a err w = (.ok e, w1) ∧ w1.faults = [] ∧ w1.store = s1 ∧
      w1.trace = w.trace ++ l ∧ l.filter Call.isChildWrite = writes

/-- The config maps `reconcileConfigMap` hands to `createOrUpdateConfigmap`. -/
def wantedConfigMaps (env : Env) (cr : Cluster) : List ConfigMap :=
  let ls := env.appLabels .pxc
  let instance_ := labelGet ls "app.kubernetes.io/instance"
  let component := labelGet ls "app.kubernetes.io/component"
  (if (decide (env.compareVersionWith "1.3.0" ≥ 0) &&
        (memoryOf cr.spec.pxc.resources PodResources.limits != "" ||
          memoryOf cr.spec.pxc.resources PodResources.requests != "")) = true then
      [env.newAutoTuneConfigMap ("auto-" ++ instance_ ++ "-" ++ component)] else []) ++
  (if (cr.spec.pxc.configuration != "") = true then
      [env.newConfigMap (instance_ ++ "-" ++ component) "init.cnf" cr.spec.pxc.configuration]
    else []) ++
  (match cr.spec.proxysql with
    | some p =>
      if (p.enabled && p.configuration != "") = true then
        [env.newConfigMap (instance_ ++ "-proxysql") "proxysql.cnf" p.configuration] else []
    | none => []) ++
  (match cr.spec.haproxy with
    | some h =>
      if (h.enabled && h.configuration != "") = true then
        [env.newConfigMap (instance_ ++ "-haproxy") "haproxy-global.cfg" h.configuration] else []
    | none => [])

/-- The log-collector config map, which `reconcileConfigMap` creates and updates itself. -/
def logCollectorMaps (env : Env) (cr : Cluster) : List ConfigMap :=
  match cr.spec.logCollector with
  | some lc =>
    if (lc.configuration != "" && decide (env.compareVersionWith "1.7.0" ≥ 0)) = true then
      [env.newConfigMap (labelGet (env.appLabels .pxc) "app.kubernetes.io/instance" ++
        "-logcollector") "fluentbit_custom.conf" lc.configuration]
    else []
  | none => []

/-- The disruption budget of a tier is stored as built, when one is configured. -/
def budgetHeld (env : Env) (s : Store) (spec : Option PodDisruptionBudgetSpec) (t : Tier) : Bool :=
  match spec with
  | none => true
  | some sp => pdbColl.holds s (env.podDisruptionBudget sp t)

/-- The stored service of that name has the ports of the built PXC service. -/
def portsHeld (s : Store) (svc : Service) : Bool :=
  match svcColl.lookup s svc.name with
  | some cur => cur.spec.ports == svc.spec.ports
  | none => false

/-- The stored service of that name is, up to the order of its ports, the
service `wanted` computes from it: its port names are distinct, and exposure
type, ports (name, number, protocol and integer target of each), traffic
policy, source ranges, annotations, labels and selector are the same. -/
def serviceHeld (s : Store) (name : String) (wanted : Service → Service) : Bool :=
  match svcColl.lookup s name with
  | some old =>
    decide (old.spec.ports.elems.map ServicePort.name).Nodup &&
      decide (old.spec.type = (wanted old).spec.type) &&
      decide (List.Perm (old.spec.ports.elems.map portKey)
        ((wanted old).spec.ports.elems.map portKey)) &&
      decide (old.spec.externalTrafficPolicy = (wanted old).spec.externalTrafficPolicy) &&
      decide (old.spec.loadBalancerSourceRanges = (wanted old).spec.loadBalancerSourceRanges) &&
      decide (old.annotations = (wanted old).annotations) &&
      decide (old.labels = (wanted old).labels) &&
      decide (old.spec.selector = (wanted old).spec.selector)
  | none => false

/-- A tier that the deployment and the service reconciliation find in place:
workload, both services and the budget. -/
def tierDeployed (env : Env) (s : Store) (set : StatefulSet) (svc1 svc2 : Service)
    (spec : Option PodDisruptionBudgetSpec) (t : Tier) : Bool :=
  stsColl.present s set.name && svcColl.present s svc1.name && svcColl.present s svc2.name &&
    budgetHeld env s spec t

/-- A disabled tier of which nothing is left: no workload, neither service. -/
def tierRemoved (env : Env) (s : Store) (t : Tier) (svc1 svc2 : String) : Bool :=
  !stsColl.present s (env.appName t) && !svcColl.present s svc1 && !svcColl.present s svc2

/-- The store holds every child resource of the entity as a pass wants it. -/
def converged (env : Env) (cr : Cluster) (s : Store) : Bool :=
  (wantedConfigMaps env cr).all (fun cm =>
      match cmColl.lookup s cm.name with
      | some c => c.data == cm.data
      | none => false) &&
    (logCollectorMaps env cr).all (fun cm => cmColl.holds s cm) &&
    tierDeployed env s (nodeSet env) env.newServicePXCUnready env.newServicePXC
      cr.spec.pxc.podDisruptionBudget .pxc &&
    portsHeld s env.newServicePXC && portsHeld s env.newServicePXCUnready &&
    (match cr.spec.haproxy with
      | some h =>
        if h.enabled then
          tierDeployed env s (haProxySet env) env.newServiceHAProxy env.newServiceHAProxyReplicas
              h.podDisruptionBudget .haproxy &&
            serviceHeld s env.haproxyServiceName (newHAProxyService env h) &&
            serviceHeld s env.haproxyReplicasName (newHAProxyServiceReplicas h)
        else tierRemoved env s .haproxy env.haproxyServiceName env.haproxyReplicasName
      | none => tierRemoved env s .haproxy env.haproxyServiceName env.haproxyReplicasName) &&
    (match cr.spec.proxysql with
      | some p =>
        if p.enabled then
          tierDeployed env s (proxySet env) env.newServiceProxySQL env.newServiceProxySQLUnready
            p.podDisruptionBudget .proxysql
        else tierRemoved env s .proxysql env.proxysqlServiceName env.proxysqlUnreadyName
      | none => tierRemoved env s .proxysql env.proxysqlServiceName env.proxysqlUnreadyName)

/-- The update of a disruption budget that `reconcilePDB` issues on every pass. -/
def budgetWrites (env : Env) (spec : Option PodDisruptionBudgetSpec) (t : Tier) : List Call :=
  match spec with
  | none => []
  | some sp => [.update (.pdb (env.podDisruptionBudget sp t))]

/-- The writes `deploy` issues for a routing tier that is enabled. -/
def tierWrites (env : Env) (p : Option PodSpec) (set : StatefulSet) (t : Tier) : List Call :=
  match p with
  | some h =>
    if h.enabled then [.create (.statefulSet set)] ++ budgetWrites env h.podDisruptionBudget t
    else []
  | none => []

/-- The update of the ProxySQL service that `Reconcile` issues on every pass. -/
def proxysqlWrites (env : Env) (cr : Cluster) (s : Store) : List Call :=
  match cr.spec.proxysql with
  | some p =>
    if p.enabled then
      match svcColl.lookup s env.newServiceProxySQL.name with
      | some cur => [.update (.service (proxysqlService env p cur))]
      | none => []
    else []
  | none => []

/-- Every `Create` and `Update` of a child resource that a pass over a
converged store issues, in order, those on the log-collector map and on the
ProxySQL service included. -/
def convergedWrites (env : Env) (cr : Cluster) (s : Store) : List Call :=
  (logCollectorMaps env cr).flatMap
      (fun cm => [Call.create (.configMap cm), Call.update (.configMap cm)]) ++
    ([.create (.statefulSet (nodeSet env))] ++
      budgetWrites env cr.spec.pxc.podDisruptionBudget .pxc) ++
    tierWrites env cr.spec.haproxy (haProxySet env) .haproxy ++
    tierWrites env cr.spec.proxysql (proxySet env) .proxysql ++
    proxysqlWrites env cr s


/-- The writes on the log-collector config map and on the ProxySQL service. -/
def Call.isLeftOut (env : Env) (cr : Cluster) : Call → Bool
  | .create (.configMap cm) => decide (cm ∈ logCollectorMaps env cr)
  | .update (.configMap cm) => decide (cm ∈ logCollectorMaps env cr)
  | .update (.service svc) => svc.name == env.newServiceProxySQL.name
  | _ => false

/-- The writes `deploy` issues whatever the store holds: a `Create` of the
workload of every enabled tier and an `Update` of every configured budget. -/
def deployWrites (env : Env) (cr : Cluster) : List Call :=
  [.create (.statefulSet (nodeSet env))] ++
    budgetWrites env cr.spec.pxc.podDisruptionBudget .pxc ++
    tierWrites env cr.spec.haproxy (haProxySet env) .haproxy ++
    tierWrites env cr.spec.proxysql (proxySet env) .proxysql

/-! ## Exits of a pass -/

/-- Every `return` a statement of `Reconcile` makes with a `nil` error carries the result `rr`. -/
def ExitOk (a : StageFn) : Prop :=
  ∀ err w x w1, a err w = (.error x, w1) → x.err = none → x.result = rr

/-! ## The rounds of the teardown loop -/

/-- The `switch fnlz` of one round of the teardown loop: the value the variable
`err` holds after it, which is the result of the task for a name that has a
case and the value it held before for any other name. -/
def finalizerTask (env : Env) (o : Cluster) (fnlz : String) (err : Option Err) (w : World) :
    Option Err × World :=
  if fnlz = "delete-proxysql-pvc" then deleteStatefulSet env .proxysql true w
  else if fnlz = "delete-pxc-pvc" then deleteStatefulSet env .pxc true w
  else if fnlz = "delete-pxc-pods-in-order" then deletePXCPods env o w
  else (err, w)

/-- The value of `err` at the end of every round of the teardown loop, in order. -/
def finalizerRounds (env : Env) (o : Cluster) :
    List String → Option Err → World → List (Option Err)
  | [], _, _ => []
  | fnlz :: rest, err, w =>
    (finalizerTask env o fnlz err (w.log (.stage (.finalizer fnlz)))).1 ::
      finalizerRounds env o rest
        (finalizerTask env o fnlz err (w.log (.stage (.finalizer fnlz)))).1
        (finalizerTask env o fnlz err (w.log (.stage (.finalizer fnlz)))).2

/-- The names whose round ended with a non-nil `err`, in their order. -/
def keptFinalizers (names : List String) (rounds : List (Option Err)) : List String :=
  ((names.zip rounds).filter (fun p => p.2.isSome)).map Prod.fst

/-- The names the `switch` of the teardown loop has a case for. -/
def recognisedFinalizer (fnlz : String) : Bool :=
  fnlz = "delete-proxysql-pvc" || fnlz = "delete-pxc-pvc" || fnlz = "delete-pxc-pods-in-order"

/-! ## The user resync and its guard -/

/-- The goroutines `resyncPXCUsersWithProxySQL` has started so far. -/
def spawned (w : World) : Nat := w.trace.count .spawnResync

/-- The goroutines that have run `syncPXCUsersWithProxySQL` to its end so far. -/
def finished (w : World) : Nat := w.trace.count (.collab .syncPXCUsersWithProxySQL)

/-- The goroutines that are started and not finished. -/
def inFlight (w : World) : Nat := spawned w - finished w

/-- What happens around the guard flag: some pass calls
`resyncPXCUsersWithProxySQL` for an entity, or a started goroutine runs to its end. -/
inductive ResyncEvent where
  | request (cr : Cluster)
  | finish
  deriving DecidableEq, Repr

/-- A schedule of such events, run in order; a goroutine can only finish when one is in flight. -/
def runResync (env : Env) : List ResyncEvent → World → World
  | [], w => w
  | .request cr :: rest, w => runResync env rest (resyncPXCUsersWithProxySQL cr w)
  | .finish :: rest, w =>
    runResync env rest (if 0 < inFlight w then resyncGoroutine env w else w)

/-- The flag `syncUsersState` tells whether a goroutine is in flight: free with
none in flight, locked with exactly one. -/
def ResyncInvariant (w : World) : Prop :=
  (w.syncUsersState = stateFree ∧ spawned w = finished w) ∨
    (w.syncUsersState = stateLocked ∧ spawned w = finished w + 1)

/-! ## The lock registry -/

/-- The lock stored under a key, as `sync.Map.Load` finds it. -/
def lockOf (key : String) (lockers : List (String × Lock)) : Option Lock :=
  (lockers.find? (fun kl => kl.1 == key)).map Prod.snd

/-- The lock registry is the same in both worlds. -/
def Same (w w1 : World) : Prop := w1.lockers = w.lockers

/-! ## The statements of a pass around the routing tiers -/

/-- The statements of `Reconcile` that run before the HAProxy statement when
the entity is not marked for deletion. -/
def untilHaproxy (env : Env) (o : Cluster) (changed : Bool) : StageFn :=
  next (preBranch env o changed)
  (next (mark .deploy)
  (next (stepOuter (deploy env o) emptyResult none)
  (next (stepOuter (callCollab env (.operatorPod .reconcile)) emptyResult
      (some "get operator deployment"))
  (next (condStage (decide (env.compareVersionWith "1.5.0" ≥ 0))
      (stepInner (callCollab env (.entrypointInitContainer .reconcile)) emptyResult none))
  (next (mark .pxcUpdatePod)
  (next (stepOuter (callCollab env (.updatePod .pxc)) emptyResult (some "pxc upgrade error"))
  (next (mark .pxcServices)
  (next (pxcServiceStep env.newServicePXC)
    (pxcServiceStep env.newServicePXCUnready)))))))))

/-- The statements of `Reconcile` that run before the ProxySQL statement when
the entity is not marked for deletion. -/
def untilProxysql (env : Env) (o : Cluster) (changed : Bool) : StageFn :=
  next (untilHaproxy env o changed) (haproxyStage env o)

/-- The statements of `Reconcile` after the ProxySQL statement. -/
def afterProxysql (env : Env) : StageFn :=
  next (mark .backups)
  (next (stepOuter (callCollab env .reconcileBackups) emptyResult none)
  (next (mark .versionFetch)
  (next (stepInner (wrapped (callCollab env .fetchVersionFromPXC) "update CR version") rr none)
  (next (mark .versionSchedule)
    (stepOuter (callCollab env .sheduleEnsurePXCVersion) emptyResult
      (some "failed to ensure version"))))))
/-! ## Concrete inputs -/

/-- Names of the three workloads of the example entity. -/
def exampleName : Tier → String
  | .pxc => "c1-pxc"
  | .haproxy => "c1-haproxy"
  | .proxysql => "c1-proxysql"

/-- A cluster-internal service with the given ports. -/
def exampleService (n : String) (ports : List ServicePort) : Service :=
  { name := n, labels := none, annotations := none,
    spec := { ports := some ports, selector := none, clusterIP := "", type := "ClusterIP",
              externalTrafficPolicy := "", loadBalancerSourceRanges := none } }

/-- Two ports that share a name and differ in their number. -/
def dupPorts : List ServicePort := [tcpPort "mysql" 3306 3306, tcpPort "mysql" 3307 3307]

/-- The same two ports in the other order. -/
def dupPortsSwapped : List ServicePort := [tcpPort "mysql" 3307 3307, tcpPort "mysql" 3306 3306]

/-- A port whose target is a named container port. -/
def namedTargetPort (target : String) : ServicePort :=
  { name := "mysql", protocol := "TCP", port := 3306,
    targetPort := { type := 1, intVal := 0, strVal := target }, nodePort := 0 }

/-- A service with a source-range restriction on its load balancer. -/
def rangedService (ranges : GoSlice String) : Service :=
  { name := "c1-haproxy", labels := none, annotations := none,
    spec := { ports := some [tcpPort "mysql" 3306 3306], selector := none, clusterIP := "",
              type := "LoadBalancer", externalTrafficPolicy := "Cluster",
              loadBalancerSourceRanges := ranges } }

/-- Collaborators that all succeed, a recent custom-resource version, and the
manifests of an entity `ns/c1`. -/
def exampleEnv : Env :=
  { outcome := fun _ => none
    ownerRef := fun _ => none
    compareVersionWith := fun _ => 1
    shouldWaitForTokenIssue := fun _ => false
    checkNSetDefaults := fun o => (o, false, none)
    appName := exampleName
    appLabels := fun t => [("app.kubernetes.io/component", exampleName t)]
    statefulSet := fun t => { name := exampleName t, replicas := some 3, templateAnnotations := none }
    configHash := fun _ => "h"
    secretHash := fun _ => ""
    newServicePXC := exampleService "c1-pxc" [tcpPort "mysql" 3306 3306]
    newServicePXCUnready := exampleService "c1-pxc-unready" [tcpPort "mysql" 3306 3306]
    newServiceHAProxy := exampleService "c1-haproxy" [tcpPort "mysql" 3306 3306]
    newServiceHAProxyReplicas :=
      exampleService "c1-haproxy-replicas" [tcpPort "mysql-replicas" 3306 3307]
    newServiceProxySQL := exampleService "c1-proxysql" [barePort "mysql" 3306]
    newServiceProxySQLUnready := exampleService "c1-proxysql-unready" [barePort "mysql" 3306]
    haproxyServiceName := "c1-haproxy"
    haproxyReplicasName := "c1-haproxy-replicas"
    proxysqlServiceName := "c1-proxysql"
    proxysqlUnreadyName := "c1-proxysql-unready"
    newAutoTuneConfigMap := fun n => { name := n, data := some [("auto-config.cnf", "x")] }
    newConfigMap := fun n f c => { name := n, data := some [(f, c)] }
    podDisruptionBudget := fun sp t => { name := exampleName t, spec := sp } }

/-- A pod section with nothing optional set. -/
def examplePodSpec (enabled : Bool) : PodSpec :=
  { enabled := enabled, configuration := "", resources := none, podDisruptionBudget := none,
    serviceType := "", externalTrafficPolicy := "", replicasServiceType := "",
    replicasExternalTrafficPolicy := "", autoRecovery := false, sslSecretName := "ssl",
    sslInternalSecretName := "ssl-internal" }

/-- The entity `ns/c1`: primary tier only, ready, not marked for deletion. -/
def exampleCluster : Cluster :=
  { name := "c1", ns := "ns", finalizers := [], deletionTimestamp := none,
    spec := { pxc := examplePodSpec true, haproxy := none, proxysql := none, backup := none,
              logCollector := none, crVersion := "1.8.0", initImage := "", vaultSecretName := "",
              allowUnsafeConfig := false },
    status := { status := "ready", pxcVersion := "8.0.21" } }

/-- A store that holds the given entity, workloads and pods, and nothing else. -/
def exampleStore (cr : Cluster) (sets : List StatefulSet) (pods : List Pod) : Store :=
  { clusters := [cr], statefulSets := sets, services := [], configMaps := [], pdbs := [],
    pods := pods, pvcs := [] }

/-- A world at the start of a pass: empty trace, no lock taken, the given fault script. -/
def exampleWorld (s : Store) (faults : List (Option Err)) : World :=
  { store := s, faults := faults, trace := [], syncUsersState := 0, lockers := [] }

/-- A pod of the primary tier. -/
def pxcPod (n : String) : Pod :=
  { name := n, labels := [("app.kubernetes.io/component", "c1-pxc")] }

/-- The primary workload with three replicas. -/
def pxcSet : StatefulSet := { name := "c1-pxc", replicas := some 3, templateAnnotations := none }

/-- The example entity marked for deletion with the given finalizers. -/
def markedCluster (finalizers : List String) : Cluster :=
  { exampleCluster with finalizers := finalizers, deletionTimestamp := some 1 }

/-- The example entity with the HAProxy tier enabled. -/
def haproxyCluster : Cluster :=
  { exampleCluster with
    spec := { exampleCluster.spec with haproxy := some (examplePodSpec true) } }

/-- The example environment in which one collaborator fails. -/
def failingEnv (c : Collab) (e : Err) : Env :=
  { exampleEnv with outcome := fun x => if x = c then some e else none }

/-- The example entity with a disruption budget on the primary tier. -/
def budgetCluster : Cluster :=
  { exampleCluster with
    spec := { exampleCluster.spec with
      pxc := { examplePodSpec true with
        podDisruptionBudget := some { minAvailable := none,
                                      maxUnavailable := some (intstrFromInt 1),
                                      selector := [] } } } }

/-- A first pass over a store that holds only the entity. -/
def firstPass : Pass :=
  Reconcile exampleEnv none "ns/c1" (exampleWorld (exampleStore budgetCluster [] []) [])

/-- A second pass over what the first pass left, with a fresh trace. -/
def secondPass : Pass :=
  Reconcile exampleEnv none "ns/c1" { firstPass.world with trace := [] }


/-- The example environment for an entity that still waits for its token. -/
def waitingEnv : Env := { exampleEnv with shouldWaitForTokenIssue := fun _ => true }

/-- A pass over the example entity while it waits for its token. -/
def gatePass : Pass :=
  Reconcile waitingEnv none "ns/c1" (exampleWorld (exampleStore exampleCluster [] []) [])

/-- A config map `c1-pxc` with one file. -/
def exampleMap (content : String) : ConfigMap :=
  { name := "c1-pxc", data := some [("init.cnf", content)] }

/-- A store that holds the example entity and the given config maps. -/
def mapStore (maps : List ConfigMap) : Store :=
  { clusters := [exampleCluster], statefulSets := [], services := [], configMaps := maps,
    pdbs := [], pods := [], pvcs := [] }

/-- A world in which the example entity is marked for deletion with both
storage finalizers and the primary workload is still there. -/
def storageTeardownWorld : World :=
  exampleWorld (exampleStore (markedCluster ["delete-pxc-pvc", "delete-proxysql-pvc"])
    [pxcSet] []) []

/-- A claim of the primary tier. -/
def pxcClaim : PersistentVolumeClaim :=
  { name := "datadir-c1-pxc-0", labels := [("app.kubernetes.io/component", "c1-pxc")] }

/-- A store that holds the given entity, workloads and claims. -/
def claimStore (cr : Cluster) (sets : List StatefulSet) (pvcs : List PersistentVolumeClaim) :
    Store :=
  { clusters := [cr], statefulSets := sets, services := [], configMaps := [], pdbs := [],
    pods := [], pvcs := pvcs }

/-- A teardown pass with the finalizer `delete-pxc-pvc` in which the listing of
the claims fails after the workload has been deleted. -/
def claimPass1 : Pass :=
  Reconcile exampleEnv none "ns/c1"
    (exampleWorld (claimStore (markedCluster ["delete-pxc-pvc"]) [pxcSet] [pxcClaim])
      [none, none, none, some (.other "timeout")])

/-- The next pass over what that pass left, with a fresh trace. -/
def claimPass2 : Pass :=
  Reconcile exampleEnv none "ns/c1" { claimPass1.world with trace := [] }

/-- A ready entity of the given name with ProxySQL enabled. -/
def proxyCluster (n : String) : Cluster :=
  { exampleCluster with
    name := n,
    spec := { exampleCluster.spec with proxysql := some (examplePodSpec true) } }

/-- A world that holds two such entities and in which nothing has run yet. -/
def twoEntities : World :=
  { store := { clusters := [proxyCluster "c1", proxyCluster "c2"], statefulSets := [],
               services := [], configMaps := [], pdbs := [], pods := [], pvcs := [] },
    faults := [], trace := [], syncUsersState := stateFree, lockers := [] }

/-- The example entity with HAProxy enabled and a disruption budget on both tiers. -/
def haproxyBudgetCluster : Cluster :=
  { budgetCluster with
    spec := { budgetCluster.spec with
      haproxy := some { examplePodSpec true with
        podDisruptionBudget := some { minAvailable := none,
                                      maxUnavailable := some (intstrFromInt 1),
                                      selector := [] } } } }

/-- A first pass over a store that holds only that entity. -/
def haproxyFirstPass : Pass :=
  Reconcile exampleEnv none "ns/c1" (exampleWorld (exampleStore haproxyBudgetCluster [] []) [])

/-- The example entity with ProxySQL enabled. -/
def proxysqlCluster : Cluster :=
  { exampleCluster with
    spec := { exampleCluster.spec with proxysql := some (examplePodSpec true) } }

/-- A first pass over a store that holds only that entity. -/
def proxysqlFirstPass : Pass :=
  Reconcile exampleEnv none "ns/c1" (exampleWorld (exampleStore proxysqlCluster [] []) [])

/-- A world in which the example entity, whose routing tiers are both absent
from the spec, still has an HAProxy workload and a ProxySQL endpoint. -/
def leftoverWorld : World :=
  exampleWorld
    { exampleStore exampleCluster
        [{ name := "c1-haproxy", replicas := some 3, templateAnnotations := none }] [] with
      services := [exampleService "c1-proxysql" [barePort "mysql" 3306]] } []

/-! ## Sorting and comparing port lists -/

theorem insertBack_perm {α : Type} (less : α → α → Bool) (x : α) (l : List α) :
    List.Perm (insertBack less x l) (x :: l) := by
  induction l with
  | nil => simp [insertBack]
  | cons y ys ih =>
    simp only [insertBack]
    split
    · exact (List.Perm.cons y ih).trans (List.Perm.swap x y ys)
    · exact List.Perm.refl _

theorem foldl_insertBack_perm {α : Type} (less : α → α → Bool) (s run : List α) :
    List.Perm (s.foldl (fun run x => insertBack less x run) run) (s ++ run) := by
  induction s generalizing run with
  | nil => simp
  | cons x xs ih =>
    simp only [List.foldl_cons]
    refine (ih (insertBack less x run)).trans ?_
    refine (List.Perm.append_left xs (insertBack_perm less x run)).trans ?_
    exact (List.perm_middle : List.Perm (xs ++ x :: run) (x :: (xs ++ run)))

theorem sortSlice_perm {α : Type} (less : α → α → Bool) (s : List α) :
    List.Perm (sortSlice less s) s := by
  unfold sortSlice
  refine (List.reverse_perm _).trans ?_
  simpa using foldl_insertBack_perm less s []

theorem sortSlice_length {α : Type} (less : α → α → Bool) (s : List α) :
    (sortSlice less s).length = s.length :=
  (sortSlice_perm less s).length_eq

theorem insertBack_sorted {α : Type} (f : α → String) (x : α) (run : List α)
    (h : run.Pairwise (fun a b => ¬ f a < f b)) :
    (insertBack (fun a b => decide (f a < f b)) x run).Pairwise (fun a b => ¬ f a < f b) := by
  induction run with
  | nil => simp [insertBack]
  | cons y ys ih =>
    rw [List.pairwise_cons] at h
    simp only [insertBack]
    split
    · rename_i hlt
      have hlt' : f x < f y := by simpa using hlt
      rw [List.pairwise_cons]
      refine ⟨?_, ih h.2⟩
      intro z hz
      have hz' : z ∈ x :: ys := (insertBack_perm _ x ys).subset hz
      rcases List.mem_cons.1 hz' with rfl | hz''
      · exact not_lt.2 (le_of_lt hlt')
      · exact h.1 z hz''
    · rename_i hlt
      have hlt' : ¬ f x < f y := by simpa using hlt
      rw [List.pairwise_cons]
      refine ⟨?_, List.pairwise_cons.2 h⟩
      intro z hz
      rcases List.mem_cons.1 hz with rfl | hz'
      · exact hlt'
      · have h1 := h.1 z hz'
        exact not_lt.2 (le_trans (not_lt.1 h1) (not_lt.1 hlt'))

theorem foldl_insertBack_sorted {α : Type} (f : α → String) (s run : List α)
    (h : run.Pairwise (fun a b => ¬ f a < f b)) :
    (s.foldl (fun run x => insertBack (fun a b => decide (f a < f b)) x run) run).Pairwise
      (fun a b => ¬ f a < f b) := by
  induction s generalizing run with
  | nil => exact h
  | cons x xs ih =>
    simp only [List.foldl_cons]
    exact ih _ (insertBack_sorted f x run h)

theorem sortSlice_sorted {α : Type} (f : α → String) (s : List α) :
    (sortSlice (fun a b => decide (f a < f b)) s).Pairwise (fun a b => ¬ f b < f a) := by
  unfold sortSlice
  rw [List.pairwise_reverse]
  exact foldl_insertBack_sorted f s [] List.Pairwise.nil

/-- Two lists sorted by a key without repetition that are permutations of each other are equal. -/
theorem sorted_perm_unique {α : Type} (f : α → String) :
    ∀ l1 l2 : List α, List.Perm l1 l2 →
      l1.Pairwise (fun a b => ¬ f b < f a) → l2.Pairwise (fun a b => ¬ f b < f a) →
      (l1.map f).Nodup → l1 = l2 := by
  intro l1
  induction l1 with
  | nil => intro l2 hp _ _ _; exact (List.Perm.nil_eq hp)
  | cons a t ih =>
    intro l2 hp h1 h2 hnd
    cases l2 with
    | nil => exact absurd hp.length_eq (by simp)
    | cons b u =>
      have hab : a = b := by
        by_contra hne
        have ha : a ∈ b :: u := hp.subset (List.mem_cons_self a t)
        have hb : b ∈ a :: t := hp.symm.subset (List.mem_cons_self b u)
        have ha' : a ∈ u := by
          rcases List.mem_cons.1 ha with h | h
          · exact absurd h hne
          · exact h
        have hb' : b ∈ t := by
          rcases List.mem_cons.1 hb with h | h
          · exact absurd h.symm hne
          · exact h
        have e1 : ¬ f a < f b := (List.pairwise_cons.1 h2).1 a ha'
        have e2 : ¬ f b < f a := (List.pairwise_cons.1 h1).1 b hb'
        have hf : f a = f b := le_antisymm (not_lt.1 e2) (not_lt.1 e1)
        have hna : f a ∉ t.map f := (List.nodup_cons.1 (by simpa using hnd)).1
        exact hna (hf ▸ List.mem_map_of_mem f hb')
      subst hab
      have hp' : List.Perm t u := List.Perm.cons_inv hp
      have := ih u hp' (List.pairwise_cons.1 h1).2 (List.pairwise_cons.1 h2).2
        (List.nodup_cons.1 (by simpa using hnd)).2
      rw [this]

theorem lessName_eq : lessName = fun a b => decide (ServicePort.name a < ServicePort.name b) := rfl

theorem portsLoop_iff : ∀ a b : List ServicePort, a.length = b.length →
    (portsLoop a b = true ↔ a.map portKey = b.map portKey) := by
  intro a
  induction a with
  | nil =>
    intro b hb
    cases b with
    | nil => simp [portsLoop]
    | cons y ys => simp at hb
  | cons x xs ih =>
    intro b hb
    cases b with
    | nil => simp at hb
    | cons y ys =>
      have hl : xs.length = ys.length := by simpa using hb
      simp only [portsLoop, List.map_cons, List.cons.injEq]
      by_cases hk : portKey x = portKey y
      · have hk' := hk
        simp only [portKey, Prod.mk.injEq] at hk'
        obtain ⟨h1, h2, h3, h4⟩ := hk'
        simp [h1, h2, h3, h4, ih ys hl, hk]
      · have hk' := hk
        simp only [portKey, Prod.mk.injEq, not_and] at hk'
        simp only [hk, false_and, iff_false]
        by_cases h1 : x.name = y.name
        · by_cases h2 : x.port = y.port
          · by_cases h3 : x.protocol = y.protocol
            · have h4 := hk' h1 h2 h3
              simp [h4]
            · simp [h3]
          · simp [h2]
        · simp [h1]

theorem isServicesPortsEqual_iff (old new : List ServicePort) :
    isServicesPortsEqual old new = true ↔
      old.length = new.length ∧
        (sortSlice lessName old).map portKey = (sortSlice lessName new).map portKey := by
  unfold isServicesPortsEqual
  by_cases hl : old.length = new.length
  · have hl' : (sortSlice lessName old).length = (sortSlice lessName new).length := by
      rw [sortSlice_length, sortSlice_length, hl]
    simp [hl, portsLoop_iff _ _ hl']
  · simp [hl]


theorem isServicesPortsEqual_iff_perm (old new : List ServicePort)
    (hnames : (old.map ServicePort.name).Nodup) :
    isServicesPortsEqual old new = true ↔ List.Perm (old.map portKey) (new.map portKey) := by
  rw [isServicesPortsEqual_iff]
  constructor
  · rintro ⟨_, h⟩
    have h1 : List.Perm ((sortSlice lessName old).map portKey) (old.map portKey) :=
      (sortSlice_perm lessName old).map portKey
    have h2 : List.Perm ((sortSlice lessName new).map portKey) (new.map portKey) :=
      (sortSlice_perm lessName new).map portKey
    exact h1.symm.trans (h ▸ h2)
  · intro hp
    have hlen : old.length = new.length := by simpa using hp.length_eq
    refine ⟨hlen, ?_⟩
    have h1 : List.Perm ((sortSlice lessName old).map portKey) (old.map portKey) :=
      (sortSlice_perm lessName old).map portKey
    have h2 : List.Perm ((sortSlice lessName new).map portKey) (new.map portKey) :=
      (sortSlice_perm lessName new).map portKey
    have hP : List.Perm ((sortSlice lessName old).map portKey)
        ((sortSlice lessName new).map portKey) := h1.trans (hp.trans h2.symm)
    have hs : ∀ s : List ServicePort,
        ((sortSlice lessName s).map portKey).Pairwise (fun a b => ¬ b.1 < a.1) := by
      intro s
      rw [List.pairwise_map]
      exact sortSlice_sorted ServicePort.name s
    refine sorted_perm_unique Prod.fst _ _ hP (hs old) (hs new) ?_
    have hn : List.Perm (((sortSlice lessName old).map portKey).map Prod.fst)
        (old.map ServicePort.name) := by
      have := (sortSlice_perm lessName old).map ServicePort.name
      simpa [List.map_map, Function.comp_def, portKey] using this
    exact hn.nodup_iff.2 hnames

/-- C6, as stated, fails: with two ports that share a name, the permuted list
compares unequal and the service is reported as needing an update. -/
theorem isServicesPortsEqual_perm_counterexample :
    List.Perm dupPortsSwapped dupPorts ∧
      isServicesPortsEqual dupPorts dupPortsSwapped = false ∧
      isServiceNeedsToUpdate (exampleService "c1-pxc" dupPorts)
        (exampleService "c1-pxc" dupPortsSwapped) = true := by
  have hlt : ¬ ("mysql" < "mysql") := lt_irrefl _
  have h : isServicesPortsEqual dupPorts dupPortsSwapped = false := by
    simp [isServicesPortsEqual, dupPorts, dupPortsSwapped, sortSlice, insertBack, lessName,
      portsLoop, tcpPort, hlt]
  refine ⟨List.Perm.swap _ _ _, h, ?_⟩
  simp [isServiceNeedsToUpdate, isServicesSpecEqual, exampleService, GoSlice.elems, h]

/-- C6 (amended): for every list of service ports `p` whose names are pairwise
distinct and every permutation `q` of `p`, `isServicesPortsEqual p q` is true,
and replacing the ports of a service by such a permutation never makes
`isServiceNeedsToUpdate` report an update. -/
theorem isServicesPortsEqual_perm (p q : List ServicePort) (hperm : List.Perm q p)
    (hnames : (p.map ServicePort.name).Nodup) :
    isServicesPortsEqual p q = true ∧
      ∀ svc : Service, svc.spec.ports = some p →
        isServiceNeedsToUpdate svc { svc with spec := { svc.spec with ports := some q } } = false := by
  have h : isServicesPortsEqual p q = true :=
    (isServicesPortsEqual_iff_perm p q hnames).2 ((hperm.map portKey).symm)
  refine ⟨h, ?_⟩
  intro svc hsvc
  simp [isServiceNeedsToUpdate, isServicesSpecEqual, hsvc, GoSlice.elems, h]

theorem isServicesPortsEqual_perm_witness :
    List.Perm [tcpPort "mysql-admin" 33062 33062, tcpPort "mysql" 3306 3306]
        [tcpPort "mysql" 3306 3306, tcpPort "mysql-admin" 33062 33062] ∧
      isServicesPortsEqual [tcpPort "mysql" 3306 3306, tcpPort "mysql-admin" 33062 33062]
        [tcpPort "mysql-admin" 33062 33062, tcpPort "mysql" 3306 3306] = true :=
  ⟨List.Perm.swap _ _ _,
    (isServicesPortsEqual_perm [tcpPort "mysql" 3306 3306, tcpPort "mysql-admin" 33062 33062]
      [tcpPort "mysql-admin" 33062 33062, tcpPort "mysql" 3306 3306]
      (List.Perm.swap _ _ _) (by decide)).1⟩

/-- C7, as stated, fails in both directions: two services that agree on every
field of the claimed set and differ only in `LoadBalancerSourceRanges` are
reported as needing an update, and two services whose only port differs in a
named target port are not. -/
theorem isServiceNeedsToUpdate_fieldset_counterexample :
    (isServiceNeedsToUpdate (rangedService none) (rangedService (some ["10.0.0.0/8"])) = true ∧
      (rangedService none).spec.ports = (rangedService (some ["10.0.0.0/8"])).spec.ports ∧
      (rangedService none).spec.type = (rangedService (some ["10.0.0.0/8"])).spec.type ∧
      (rangedService none).spec.externalTrafficPolicy =
        (rangedService (some ["10.0.0.0/8"])).spec.externalTrafficPolicy ∧
      (rangedService none).spec.selector = (rangedService (some ["10.0.0.0/8"])).spec.selector ∧
      (rangedService none).annotations = (rangedService (some ["10.0.0.0/8"])).annotations ∧
      (rangedService none).labels = (rangedService (some ["10.0.0.0/8"])).labels) ∧
    (isServiceNeedsToUpdate (exampleService "c1-pxc" [namedTargetPort "mysql"])
        (exampleService "c1-pxc" [namedTargetPort "proxy"]) = false ∧
      (namedTargetPort "mysql").targetPort ≠ (namedTargetPort "proxy").targetPort) := by
  have hlt : ¬ ("mysql" < "mysql") := lt_irrefl _
  refine ⟨⟨?_, rfl, rfl, rfl, rfl, rfl, rfl⟩, ?_, by decide⟩
  · simp [isServiceNeedsToUpdate, isServicesSpecEqual, rangedService]
  · simp [isServiceNeedsToUpdate, isServicesSpecEqual, isServicesPortsEqual, exampleService,
      GoSlice.elems, sortSlice, insertBack, portsLoop, namedTargetPort]

/-- C7 (amended): for every pair of services whose existing port names are
pairwise distinct, `isServiceNeedsToUpdate` returns true if and only if the two
differ in the exposure type, in the port list compared as an unordered
collection of (name, number, protocol, integer value of the target port), in
the external traffic policy, in the load-balancer source ranges, in the
annotations, in the labels or in the label selector. -/
theorem isServiceNeedsToUpdate_iff (old new : Service)
    (hnames : (old.spec.ports.elems.map ServicePort.name).Nodup) :
    isServiceNeedsToUpdate old new = true ↔
      (old.spec.type ≠ new.spec.type ∨
        ¬ List.Perm (old.spec.ports.elems.map portKey) (new.spec.ports.elems.map portKey) ∨
        old.spec.externalTrafficPolicy ≠ new.spec.externalTrafficPolicy ∨
        old.spec.loadBalancerSourceRanges ≠ new.spec.loadBalancerSourceRanges ∨
        old.annotations ≠ new.annotations ∨
        old.labels ≠ new.labels ∨
        old.spec.selector ≠ new.spec.selector) := by
  have hp := isServicesPortsEqual_iff_perm old.spec.ports.elems new.spec.ports.elems hnames
  unfold isServiceNeedsToUpdate isServicesSpecEqual
  by_cases h1 : old.spec.type = new.spec.type
  · by_cases h2 : List.Perm (old.spec.ports.elems.map portKey) (new.spec.ports.elems.map portKey)
    · have h2' := hp.2 h2
      by_cases h3 : old.spec.externalTrafficPolicy = new.spec.externalTrafficPolicy
      · by_cases h4 : old.spec.loadBalancerSourceRanges = new.spec.loadBalancerSourceRanges
        · by_cases h5 : old.annotations = new.annotations
          · by_cases h6 : old.labels = new.labels
            · by_cases h7 : old.spec.selector = new.spec.selector
              · simp [h1, h2, h2', h3, h4, h5, h6, h7]
              · have h7' : ¬ new.spec.selector = old.spec.selector := fun h => h7 h.symm
                simp [h1, h2, h2', h3, h4, h5, h6, h7, h7']
            · simp [h1, h2, h2', h3, h4, h5, h6]
          · simp [h1, h2, h2', h3, h4, h5]
        · simp [h1, h2, h2', h3, h4]
      · simp [h1, h2, h2', h3]
    · have h2' : isServicesPortsEqual old.spec.ports.elems new.spec.ports.elems = false := by
        cases hb : isServicesPortsEqual old.spec.ports.elems new.spec.ports.elems
        · rfl
        · exact absurd (hp.1 hb) h2
      simp [h1, h2, h2']
  · simp [h1]

theorem isServiceNeedsToUpdate_iff_witness :
    ((exampleService "c1-pxc" [tcpPort "mysql" 3306 3306]).spec.ports.elems.map
        ServicePort.name).Nodup ∧
      (isServiceNeedsToUpdate (exampleService "c1-pxc" [tcpPort "mysql" 3306 3306])
          (exampleService "c1-pxc" [tcpPort "mysql" 3306 3307]) = true ↔
        ((exampleService "c1-pxc" [tcpPort "mysql" 3306 3306]).spec.type ≠
            (exampleService "c1-pxc" [tcpPort "mysql" 3306 3307]).spec.type ∨
          ¬ List.Perm
            ((exampleService "c1-pxc" [tcpPort "mysql" 3306 3306]).spec.ports.elems.map portKey)
            ((exampleService "c1-pxc" [tcpPort "mysql" 3306 3307]).spec.ports.elems.map portKey) ∨
          (exampleService "c1-pxc" [tcpPort "mysql" 3306 3306]).spec.externalTrafficPolicy ≠
            (exampleService "c1-pxc" [tcpPort "mysql" 3306 3307]).spec.externalTrafficPolicy ∨
          (exampleService "c1-pxc" [tcpPort "mysql" 3306 3306]).spec.loadBalancerSourceRanges ≠
            (exampleService "c1-pxc" [tcpPort "mysql" 3306 3307]).spec.loadBalancerSourceRanges ∨
          (exampleService "c1-pxc" [tcpPort "mysql" 3306 3306]).annotations ≠
            (exampleService "c1-pxc" [tcpPort "mysql" 3306 3307]).annotations ∨
          (exampleService "c1-pxc" [tcpPort "mysql" 3306 3306]).labels ≠
            (exampleService "c1-pxc" [tcpPort "mysql" 3306 3307]).labels ∨
          (exampleService "c1-pxc" [tcpPort "mysql" 3306 3306]).spec.selector ≠
            (exampleService "c1-pxc" [tcpPort "mysql" 3306 3307]).spec.selector)) :=
  ⟨by decide,
    isServiceNeedsToUpdate_iff (exampleService "c1-pxc" [tcpPort "mysql" 3306 3306])
      (exampleService "c1-pxc" [tcpPort "mysql" 3306 3307]) (by decide)⟩


/-! ## Client calls -/

theorem World.log_nextFault (w : World) (c : Call) : (w.log c).nextFault = (w.next, w.step c) := rfl

theorem clientGet_eq {α : Type} (c : Coll α) (n : String) (w : World) :
    clientGet c n w =
      ((match w.next with
        | some e => .error e
        | none =>
          match c.lookup w.store n with
          | some x => .ok x
          | none => .error (.notFound n)), w.step (.get c.kind n)) := by
  unfold clientGet
  rw [World.log_nextFault]
  cases w.next with
  | some e => rfl
  | none =>
    show (match c.lookup w.store n with
      | some x => ((Except.ok x : Except Err α), w.step (.get c.kind n))
      | none => (.error (.notFound n), w.step (.get c.kind n))) = _
    cases c.lookup w.store n <;> rfl

theorem clientList_eq {α : Type} (c : Coll α) (sel : Labels) (w : World) :
    clientList c sel w =
      ((match w.next with
        | some e => .error e
        | none => .ok ((c.items w.store).filter (fun x => matchesSelector sel (c.labelsOf x)))),
        w.step (.list c.kind sel)) := by
  unfold clientList
  rw [World.log_nextFault]
  cases w.next <;> rfl

theorem clientCreate_eq {α : Type} (c : Coll α) (x : α) (w : World) :
    clientCreate c x w =
      match w.next with
      | some e => (some e, w.step (.create (c.obj x)))
      | none =>
        match c.lookup w.store (c.nameOf x) with
        | some _ => (some (.alreadyExists (c.nameOf x)), w.step (.create (c.obj x)))
        | none =>
          (none, { w.step (.create (c.obj x)) with
            store := c.setItems w.store (c.items w.store ++ [x]) }) := by
  unfold clientCreate
  rw [World.log_nextFault]
  cases w.next with
  | some e => rfl
  | none =>
    show (match c.lookup w.store (c.nameOf x) with
      | some _ => _
      | none => _) = _
    cases c.lookup w.store (c.nameOf x) <;> rfl

theorem clientUpdate_eq {α : Type} (c : Coll α) (x : α) (w : World) :
    clientUpdate c x w =
      match w.next with
      | some e => (some e, w.step (.update (c.obj x)))
      | none =>
        match c.lookup w.store (c.nameOf x) with
        | none => (some (.notFound (c.nameOf x)), w.step (.update (c.obj x)))
        | some _ =>
          (none, { w.step (.update (c.obj x)) with
            store := c.setItems w.store
              ((c.items w.store).map (fun y => if c.nameOf y = c.nameOf x then x else y)) }) := by
  unfold clientUpdate
  rw [World.log_nextFault]
  cases w.next with
  | some e => rfl
  | none =>
    show (match c.lookup w.store (c.nameOf x) with
      | none => _
      | some _ => _) = _
    cases c.lookup w.store (c.nameOf x) <;> rfl

theorem clientDelete_eq {α : Type} (c : Coll α) (n : String) (w : World) :
    clientDelete c n w =
      match w.next with
      | some e => (some e, w.step (.delete c.kind n))
      | none =>
        match c.lookup w.store n with
        | none => (some (.notFound n), w.step (.delete c.kind n))
        | some _ =>
          (none, { w.step (.delete c.kind n) with
            store := c.setItems w.store ((c.items w.store).filter (fun y => c.nameOf y != n)) }) := by
  unfold clientDelete
  rw [World.log_nextFault]
  cases w.next with
  | some e => rfl
  | none =>
    show (match c.lookup w.store n with
      | none => _
      | some _ => _) = _
    cases c.lookup w.store n <;> rfl

theorem World.calm_next (w : World) (n : Nat) (h : w.calm (n + 1)) : w.next = none := by
  unfold World.calm at h
  unfold World.next
  cases hf : w.faults with
  | nil => rfl
  | cons f fs =>
    cases f with
    | none => rfl
    | some e =>
      rw [hf] at h
      exact absurd (List.mem_cons_self _ _) (h e)

theorem World.calm_tail (w w1 : World) (n : Nat) (h : w.calm (n + 1))
    (h1 : w1.faults = w.faults.tail) : w1.calm n := by
  unfold World.calm at h ⊢
  rw [h1]
  intro e he
  cases hf : w.faults with
  | nil => rw [hf] at he; simp at he
  | cons f fs =>
    rw [hf] at h he
    exact h e (by simp [List.take_succ_cons] at he ⊢; exact Or.inr he)

theorem lookup_name {α : Type} (c : Coll α) (s : Store) (n : String) (x : α)
    (h : c.lookup s n = some x) : c.nameOf x = n := by
  have := List.find?_some h
  simpa using this

theorem lookup_mem {α : Type} (c : Coll α) (s : Store) (n : String) (x : α)
    (h : c.lookup s n = some x) : x ∈ c.items s :=
  List.mem_of_find?_eq_some h


/-! ## Ordered pod drain -/

/-- C9: ordered pod drain. For every set of pods the list call returns for a
tier: if at most one pod is listed, `deleteStatefulSetPods` reports complete
(nil) and its only calls are the list and the grace delay, with no Get or
Update of the workload; if more than one is listed and the lookup and the
update of the workload succeed, it issues exactly one Update, which sets the
replica count of the stored workload to 1, and reports incomplete. -/
theorem deleteStatefulSetPods_drain (env : Env) (t : Tier) (w : World) (pods : List Pod)
    (hlist : (clientList podColl (env.appLabels t) w).1 = .ok pods) :
    (pods.length ≤ 1 →
      (deleteStatefulSetPods env t w).1 = none ∧
      (deleteStatefulSetPods env t w).2.trace =
        w.trace ++ [.list .pod (env.appLabels t), .sleep 3] ∧
      (deleteStatefulSetPods env t w).2.store = w.store) ∧
    (1 < pods.length → ∀ cSet : StatefulSet, w.calm 3 →
      stsColl.lookup w.store (env.appName t) = some cSet →
      (deleteStatefulSetPods env t w).1 = some (.other "waiting for pods to be deleted") ∧
      (deleteStatefulSetPods env t w).2.trace =
        w.trace ++ [.list .pod (env.appLabels t), .get .statefulSet (env.appName t),
          .update (.statefulSet { cSet with replicas := some 1 })] ∧
      ∀ s ∈ (deleteStatefulSetPods env t w).2.store.statefulSets,
        s.name = env.appName t → s.replicas = some 1) := by
  rw [clientList_eq] at hlist
  have hnext : w.next = none := by
    cases h : w.next with
    | none => rfl
    | some e => rw [h] at hlist; simp at hlist
  rw [hnext] at hlist
  simp only [Except.ok.injEq] at hlist
  constructor
  · intro hN
    have hN' : (List.filter (fun x => matchesSelector (env.appLabels t) (podColl.labelsOf x))
        (podColl.items w.store)).length ≤ 1 := by rw [hlist]; exact hN
    unfold deleteStatefulSetPods
    rw [clientList_eq, hnext]
    simp only [hN', if_true]
    simp [World.log, World.step, podColl]
  · intro hN cSet hcalm hsts
    have hN' : ¬ (List.filter (fun x => matchesSelector (env.appLabels t) (podColl.labelsOf x))
        (podColl.items w.store)).length ≤ 1 := by rw [hlist]; omega
    have hname : cSet.name = env.appName t := lookup_name stsColl _ _ _ hsts
    have hc1 : (w.step (.list podColl.kind (env.appLabels t))).calm 2 :=
      World.calm_tail w _ 2 hcalm rfl
    have hn1 := World.calm_next _ 1 hc1
    have hc2 : ((w.step (.list podColl.kind (env.appLabels t))).step
        (.get stsColl.kind (env.appName t))).calm 1 := World.calm_tail _ _ 1 hc1 rfl
    have hn2 := World.calm_next _ 0 hc2
    have hs1 : (w.step (.list podColl.kind (env.appLabels t))).store = w.store := rfl
    have hs2 : ((w.step (.list podColl.kind (env.appLabels t))).step
        (.get stsColl.kind (env.appName t))).store = w.store := rfl
    have hlook : stsColl.lookup w.store
        (stsColl.nameOf { cSet with replicas := some 1 }) = some cSet := by
      show stsColl.lookup w.store cSet.name = some cSet
      rw [hname]; exact hsts
    unfold deleteStatefulSetPods
    rw [clientList_eq, hnext]
    simp only [hN', if_false]
    rw [clientGet_eq, hn1, hs1, hsts]
    simp only []
    rw [clientUpdate_eq, hn2, hs2, hlook]
    refine ⟨rfl, ?_, ?_⟩
    · simp [World.step, podColl, stsColl]
    · intro s hs hsn
      simp only [stsColl, World.step, List.mem_map] at hs
      obtain ⟨y, _, hy⟩ := hs
      by_cases hyn : y.name = cSet.name
      · rw [if_pos hyn] at hy
        rw [← hy]
      · rw [if_neg hyn] at hy
        rw [hy, hname] at hyn
        exact absurd hsn hyn

theorem deleteStatefulSetPods_drain_witness :
    ((deleteStatefulSetPods exampleEnv .pxc
        (exampleWorld (exampleStore exampleCluster [pxcSet] [pxcPod "c1-pxc-0"]) [])).1 = none ∧
      (deleteStatefulSetPods exampleEnv .pxc
        (exampleWorld (exampleStore exampleCluster [pxcSet] [pxcPod "c1-pxc-0"]) [])).2.trace =
        [.list .pod [("app.kubernetes.io/component", "c1-pxc")], .sleep 3]) ∧
    ((deleteStatefulSetPods exampleEnv .pxc
        (exampleWorld (exampleStore exampleCluster [pxcSet]
          [pxcPod "c1-pxc-0", pxcPod "c1-pxc-1", pxcPod "c1-pxc-2"]) [])).1 =
        some (.other "waiting for pods to be deleted") ∧
      (deleteStatefulSetPods exampleEnv .pxc
        (exampleWorld (exampleStore exampleCluster [pxcSet]
          [pxcPod "c1-pxc-0", pxcPod "c1-pxc-1", pxcPod "c1-pxc-2"]) [])).2.trace =
        [.list .pod [("app.kubernetes.io/component", "c1-pxc")], .get .statefulSet "c1-pxc",
          .update (.statefulSet { pxcSet with replicas := some 1 })]) := by
  constructor
  · have h := (deleteStatefulSetPods_drain exampleEnv .pxc
      (exampleWorld (exampleStore exampleCluster [pxcSet] [pxcPod "c1-pxc-0"]) [])
      [pxcPod "c1-pxc-0"] rfl).1 (by decide)
    exact ⟨h.1, h.2.1⟩
  · have h := (deleteStatefulSetPods_drain exampleEnv .pxc
      (exampleWorld (exampleStore exampleCluster [pxcSet]
        [pxcPod "c1-pxc-0", pxcPod "c1-pxc-1", pxcPod "c1-pxc-2"]) [])
      [pxcPod "c1-pxc-0", pxcPod "c1-pxc-1", pxcPod "c1-pxc-2"] rfl).2 (by decide)
      pxcSet (by intro e he; simp [exampleWorld] at he) (by decide)
    exact ⟨h.1, h.2.1⟩


/-! ## Growth of the trace -/

theorem Ext.refl {P : Call → Prop} {w : World} : Ext P w w := ⟨[], by simp, by simp⟩

theorem Ext.trans {P : Call → Prop} {w w1 w2 : World} (h1 : Ext P w w1) (h2 : Ext P w1 w2) :
    Ext P w w2 := by
  obtain ⟨l1, e1, p1⟩ := h1
  obtain ⟨l2, e2, p2⟩ := h2
  refine ⟨l1 ++ l2, by rw [e2, e1, List.append_assoc], ?_⟩
  intro c hc
  rcases List.mem_append.1 hc with h | h
  · exact p1 c h
  · exact p2 c h

theorem Ext.mono {P Q : Call → Prop} {w w1 : World} (h : ∀ c, P c → Q c) (h1 : Ext P w w1) :
    Ext Q w w1 := by
  obtain ⟨l1, e1, p1⟩ := h1
  exact ⟨l1, e1, fun c hc => h c (p1 c hc)⟩

theorem Ext.of_trace {P : Call → Prop} {w w1 w2 : World} (h : w2.trace = w1.trace)
    (h1 : Ext P w w1) : Ext P w w2 := by
  obtain ⟨l1, e1, p1⟩ := h1
  exact ⟨l1, by rw [h, e1], p1⟩

theorem Ext.step {P : Call → Prop} {w w1 : World} {c : Call} (hc : P c) (h1 : Ext P w w1) :
    Ext P w (w1.step c) :=
  Ext.trans h1 ⟨[c], rfl, by simpa using hc⟩

theorem Ext.log {P : Call → Prop} {w w1 : World} {c : Call} (hc : P c) (h1 : Ext P w w1) :
    Ext P w (w1.log c) :=
  Ext.trans h1 ⟨[c], rfl, by simpa using hc⟩

theorem Ext.withStore {P : Call → Prop} {w w1 : World} {s : Store} (h1 : Ext P w w1) :
    Ext P w { w1 with store := s } :=
  Ext.of_trace rfl h1

/-- Every run of `a` continues the trace by calls that satisfy `P`. -/
theorem clientGet_ext {α : Type} {P : Call → Prop} (c : Coll α) (n : String) (w : World)
    (h : P (.get c.kind n)) : Ext P w (clientGet c n w).2 := by
  rw [clientGet_eq]
  exact Ext.step h Ext.refl

theorem clientList_ext {α : Type} {P : Call → Prop} (c : Coll α) (sel : Labels) (w : World)
    (h : P (.list c.kind sel)) : Ext P w (clientList c sel w).2 := by
  rw [clientList_eq]
  exact Ext.step h Ext.refl

theorem clientCreate_ext {α : Type} {P : Call → Prop} (c : Coll α) (x : α) (w : World)
    (h : P (.create (c.obj x))) : Ext P w (clientCreate c x w).2 := by
  rw [clientCreate_eq]
  split
  · exact Ext.step h Ext.refl
  · split
    · exact Ext.step h Ext.refl
    · exact Ext.withStore (Ext.step h Ext.refl)

theorem clientUpdate_ext {α : Type} {P : Call → Prop} (c : Coll α) (x : α) (w : World)
    (h : P (.update (c.obj x))) : Ext P w (clientUpdate c x w).2 := by
  rw [clientUpdate_eq]
  split
  · exact Ext.step h Ext.refl
  · split
    · exact Ext.step h Ext.refl
    · exact Ext.withStore (Ext.step h Ext.refl)

theorem clientDelete_ext {α : Type} {P : Call → Prop} (c : Coll α) (n : String) (w : World)
    (h : P (.delete c.kind n)) : Ext P w (clientDelete c n w).2 := by
  rw [clientDelete_eq]
  split
  · exact Ext.step h Ext.refl
  · split
    · exact Ext.step h Ext.refl
    · exact Ext.withStore (Ext.step h Ext.refl)

theorem callCollab_ext {P : Call → Prop} (env : Env) (c : Collab) (w : World)
    (h : P (.collab c)) : Ext P w (callCollab env c w).2 :=
  Ext.log h Ext.refl

theorem setControllerReference_ext {P : Call → Prop} (env : Env) (k : Kind) (w : World) :
    Ext P w (setControllerReference env k w).2 := Ext.refl

theorem andThen_ext {P : Call → Prop} (a b : World → Option Err × World)
    (ha : ∀ w, Ext P w (a w).2) (hb : ∀ w, Ext P w (b w).2) (w : World) :
    Ext P w (andThen a b w).2 := by
  unfold andThen
  have h1 := ha w
  cases hr : a w with
  | mk r w1 =>
    rw [hr] at h1
    cases r with
    | some e => exact h1
    | none => exact Ext.trans h1 (hb w1)

theorem wrapped_ext {P : Call → Prop} (a : World → Option Err × World) (msg : String)
    (ha : ∀ w, Ext P w (a w).2) (w : World) : Ext P w (wrapped a msg w).2 := by
  unfold wrapped
  exact ha w

theorem onlyIf_ext {P : Call → Prop} (c : Bool) (a : World → Option Err × World)
    (ha : ∀ w, Ext P w (a w).2) (w : World) : Ext P w (onlyIf c a w).2 := by
  unfold onlyIf
  split
  · exact ha w
  · exact Ext.refl

theorem next_ext {P : Call → Prop} (a b : StageFn)
    (ha : ∀ err w, Ext P w (a err w).2) (hb : ∀ err w, Ext P w (b err w).2)
    (err : Option Err) (w : World) : Ext P w (next a b err w).2 := by
  unfold next
  have h1 := ha err w
  cases hr : a err w with
  | mk r w1 =>
    rw [hr] at h1
    cases r with
    | error x => exact h1
    | ok e1 => exact Ext.trans h1 (hb e1 w1)

theorem condStage_ext {P : Call → Prop} (c : Bool) (a : StageFn)
    (ha : ∀ err w, Ext P w (a err w).2) (err : Option Err) (w : World) :
    Ext P w (condStage c a err w).2 := by
  unfold condStage
  split
  · exact ha err w
  · exact Ext.refl

theorem mark_ext {P : Call → Prop} (s : Stage) (h : P (.stage s)) (err : Option Err) (w : World) :
    Ext P w (mark s err w).2 :=
  Ext.log h Ext.refl

theorem stepOuter_ext {P : Call → Prop} (a : World → Option Err × World) (res : Result)
    (msg : Option String) (ha : ∀ w, Ext P w (a w).2) (err : Option Err) (w : World) :
    Ext P w (stepOuter a res msg err w).2 := by
  unfold stepOuter
  have h1 := ha w
  cases hr : a w with
  | mk r w1 =>
    rw [hr] at h1
    cases r <;> exact h1

theorem stepInner_ext {P : Call → Prop} (a : World → Option Err × World) (res : Result)
    (msg : Option String) (ha : ∀ w, Ext P w (a w).2) (err : Option Err) (w : World) :
    Ext P w (stepInner a res msg err w).2 := by
  unfold stepInner
  have h1 := ha w
  cases hr : a w with
  | mk r w1 =>
    rw [hr] at h1
    cases r <;> exact h1


theorem Ext.of_eq {β : Type} {P : Call → Prop} {w w1 : World} {x : β × World} {r : β}
    (heq : x = (r, w1)) (hf : Ext P w x.2) : Ext P w w1 := by
  subst heq
  exact hf

/-! ### The finalizer tasks -/

theorem deleteStatefulSetPods_ext {P : Call → Prop} (hP : ∀ c, c.isTaskWork = true → P c)
    (env : Env) (t : Tier) (w : World) : Ext P w (deleteStatefulSetPods env t w).2 := by
  unfold deleteStatefulSetPods
  split
  · next e w1 heq => exact Ext.of_eq heq (clientList_ext podColl _ w (hP _ rfl))
  · next items w1 heq =>
    have h1 := Ext.of_eq heq (clientList_ext (P := P) podColl _ w (hP _ rfl))
    split
    · exact Ext.log (hP _ rfl) h1
    · split
      · next e w2 heq2 =>
        exact Ext.trans h1 (Ext.of_eq heq2 (clientGet_ext stsColl _ w1 (hP _ rfl)))
      · next cSet w2 heq2 =>
        have h2 := Ext.trans h1 (Ext.of_eq heq2 (clientGet_ext (P := P) stsColl _ w1 (hP _ rfl)))
        split
        · next e w3 heq3 =>
          exact Ext.trans h2 (Ext.of_eq heq3 (clientUpdate_ext stsColl _ w2 (hP _ rfl)))
        · next w3 heq3 =>
          exact Ext.trans h2 (Ext.of_eq heq3 (clientUpdate_ext stsColl _ w2 (hP _ rfl)))

theorem deletePXCPods_ext {P : Call → Prop} (hP : ∀ c, c.isTaskWork = true → P c)
    (env : Env) (cr : Cluster) (w : World) : Ext P w (deletePXCPods env cr w).2 := by
  unfold deletePXCPods
  split
  · next e w1 heq => exact Ext.of_eq heq (deleteStatefulSetPods_ext hP env .pxc w)
  · next w1 heq =>
    have h1 := Ext.of_eq heq (deleteStatefulSetPods_ext hP env .pxc w)
    split
    · split
      · exact Ext.trans h1 (wrapped_ext _ _ (fun w => callCollab_ext env .deletePITR w (hP _ rfl)) w1)
      · exact h1
    · exact h1

theorem deletePVCItems_ext {P : Call → Prop} (hP : ∀ c, c.isTaskWork = true → P c)
    (items : List PersistentVolumeClaim) (w : World) : Ext P w (deletePVCItems items w).2 := by
  induction items generalizing w with
  | nil => exact Ext.refl
  | cons pvc rest ih =>
    unfold deletePVCItems
    split
    · next e w1 heq => exact Ext.of_eq heq (clientDelete_ext pvcColl _ w (hP _ rfl))
    · next w1 heq =>
      exact Ext.trans (Ext.of_eq heq (clientDelete_ext pvcColl _ w (hP _ rfl))) (ih w1)

theorem deletePVC_ext {P : Call → Prop} (hP : ∀ c, c.isTaskWork = true → P c)
    (lbls : Labels) (w : World) : Ext P w (deletePVC lbls w).2 := by
  unfold deletePVC
  split
  · next e w1 heq => exact Ext.of_eq heq (clientList_ext pvcColl _ w (hP _ rfl))
  · next items w1 heq =>
    exact Ext.trans (Ext.of_eq heq (clientList_ext pvcColl _ w (hP _ rfl)))
      (deletePVCItems_ext hP items w1)

/-- The hypothesis on claim calls is only used when `delPVC` is set. -/
theorem deleteStatefulSet_ext {P : Call → Prop} (env : Env) (t : Tier) (delPVC : Bool)
    (hget : P (.get .statefulSet (env.appName t)))
    (hdel : P (.delete .statefulSet (env.appName t)))
    (hpvc : delPVC = true → ∀ c, c.isTaskWork = true → P c)
    (w : World) : Ext P w (deleteStatefulSet env t delPVC w).2 := by
  unfold deleteStatefulSet
  split
  · next e w1 heq =>
    have h1 := Ext.of_eq heq (clientGet_ext (P := P) stsColl _ w hget)
    split <;> exact h1
  · next x w1 heq =>
    have h1 := Ext.of_eq heq (clientGet_ext (P := P) stsColl _ w hget)
    split
    · next e w2 heq2 =>
      have h2 := Ext.trans h1 (Ext.of_eq heq2 (clientDelete_ext (P := P) stsColl _ w1 hdel))
      split
      · exact h2
      · split
        · next hd =>
          exact Ext.trans h2 (wrapped_ext _ _ (fun w => deletePVC_ext (hpvc hd) _ w) w2)
        · exact h2
    · next w2 heq2 =>
      have h2 := Ext.trans h1 (Ext.of_eq heq2 (clientDelete_ext (P := P) stsColl _ w1 hdel))
      split
      · next hd =>
        exact Ext.trans h2 (wrapped_ext _ _ (fun w => deletePVC_ext (hpvc hd) _ w) w2)
      · exact h2

theorem finalizerLoop_ext {P : Call → Prop} (hP : ∀ c, c.isTaskWork = true → P c)
    (hS : ∀ n, P (.stage (.finalizer n))) (env : Env) (o : Cluster) (l : List String)
    (err : Option Err) (fins : List String) (w : World) :
    Ext P w (finalizerLoop env o l err fins w).2.2 := by
  induction l generalizing err fins w with
  | nil => exact Ext.refl
  | cons fnlz rest ih =>
    unfold finalizerLoop
    have h0 : Ext P w (w.log (.stage (.finalizer fnlz))) := Ext.log (hS fnlz) Ext.refl
    have hstep : Ext P w
        (if fnlz = "delete-proxysql-pvc" then
            deleteStatefulSet env .proxysql true (w.log (.stage (.finalizer fnlz)))
          else if fnlz = "delete-pxc-pvc" then
            deleteStatefulSet env .pxc true (w.log (.stage (.finalizer fnlz)))
          else if fnlz = "delete-pxc-pods-in-order" then
            deletePXCPods env o (w.log (.stage (.finalizer fnlz)))
          else (err, w.log (.stage (.finalizer fnlz)))).2 := by
      split
      · exact Ext.trans h0 (deleteStatefulSet_ext env _ true (hP _ rfl) (hP _ rfl)
          (fun _ => hP) _)
      · split
        · exact Ext.trans h0 (deleteStatefulSet_ext env _ true (hP _ rfl) (hP _ rfl)
            (fun _ => hP) _)
        · split
          · exact Ext.trans h0 (deletePXCPods_ext hP env o _)
          · exact h0
    simp only []
    split
    · next e w1 heq => exact Ext.trans (Ext.of_eq heq hstep) (ih _ _ w1)
    · next w1 heq => exact Ext.trans (Ext.of_eq heq hstep) (ih _ _ w1)

theorem teardown_ext {P : Call → Prop} (hP : ∀ c, c.isTaskWork = true → P c)
    (hS : ∀ n, P (.stage (.finalizer n))) (hM : P (.stage .persistFinalizers))
    (hU : ∀ c, P (.update (.cluster c))) (env : Env) (o : Cluster)
    (err : Option Err) (w : World) : Ext P w (teardown env o err w).2 := by
  unfold teardown
  split
  next e fins w1 heq =>
  have h1 : Ext P w w1 := by
    have := finalizerLoop_ext hP hS env o o.finalizers err [] w
    rw [heq] at this
    exact this
  split
  next err2 w2 heq2 =>
  exact Ext.trans (Ext.log hM h1) (Ext.of_eq heq2 (clientUpdate_ext clusterColl _ _ (hU _)))

theorem resync_ext {P : Call → Prop} (hP : P .spawnResync) (cr : Cluster) (w : World) :
    Ext P w (resyncPXCUsersWithProxySQL cr w) := by
  unfold resyncPXCUsersWithProxySQL
  split
  · exact Ext.refl
  · split
    · exact Ext.refl
    · split
      · exact Ext.refl
      · split
        · exact Ext.log hP (Ext.of_trace rfl (Ext.refl : Ext P w w))
        · exact Ext.refl

theorem preBranch_ext {P : Call → Prop} (hP : ∀ c, c.isPreBranchWork = true → P c)
    (env : Env) (o : Cluster) (changed : Bool) (err : Option Err) (w : World) :
    Ext P w (preBranch env o changed err w).2 := by
  unfold preBranch
  refine next_ext _ _ (condStage_ext _ _ ?_) (next_ext _ _ (stepOuter_ext _ _ _ ?_)
    (next_ext _ _ (condStage_ext _ _ (stepOuter_ext _ _ _ ?_)) (next_ext _ _ ?_
    (next_ext _ _ (condStage_ext _ _ (stepOuter_ext _ _ _ ?_)) (condStage_ext _ _ ?_))))) err w
  · intro _ w; exact callCollab_ext env _ w (hP _ rfl)
  · intro w; exact callCollab_ext env _ w (hP _ rfl)
  · intro w; exact callCollab_ext env _ w (hP _ rfl)
  · intro _ w; exact resync_ext (hP _ rfl) o w
  · intro w; exact clientUpdate_ext clusterColl _ w (hP _ rfl)
  · intro _ w; exact callCollab_ext env _ w (hP _ rfl)


/-! ### The convergence pipeline -/

theorem isTaskWork_isBodyWork (c : Call) (h : c.isTaskWork = true) : c.isBodyWork = true := by
  cases c <;> simp_all [Call.isTaskWork, Call.isBodyWork]

theorem isPreBranchWork_isBodyWork (c : Call) (h : c.isPreBranchWork = true) :
    c.isBodyWork = true := by
  cases c <;> simp_all [Call.isPreBranchWork, Call.isBodyWork]

theorem createService_ext {P : Call → Prop} (hP : ∀ c, c.isBodyWork = true → P c)
    (env : Env) (svc : Service) (w : World) : Ext P w (createService env svc w).2 := by
  unfold createService
  split
  · next e w0 heq => exact Ext.of_eq heq (setControllerReference_ext env .cluster w)
  · next w0 heq =>
    have h0 : Ext P w w0 := Ext.of_eq heq (setControllerReference_ext env .cluster w)
    split
    · next e w1 heq1 =>
      have h1 := Ext.trans h0 (Ext.of_eq heq1 (clientGet_ext svcColl svc.name w0 (hP _ rfl)))
      split
      · split
        next err w2 heq2 =>
        exact Ext.trans h1 (Ext.of_eq heq2 (clientCreate_ext svcColl svc w1 (hP _ rfl)))
      · exact h1
    · next x w1 heq1 =>
      exact Ext.trans h0 (Ext.of_eq heq1 (clientGet_ext svcColl svc.name w0 (hP _ rfl)))

theorem createOrUpdateConfigmap_ext {P : Call → Prop} (hP : ∀ c, c.isBodyWork = true → P c)
    (configMap : ConfigMap) (w : World) : Ext P w (createOrUpdateConfigmap configMap w).2 := by
  unfold createOrUpdateConfigmap
  split
  · next e w1 heq =>
    have h1 : Ext P w w1 := Ext.of_eq heq (clientGet_ext cmColl configMap.name w (hP _ rfl))
    split
    · exact h1
    · exact Ext.trans h1 (clientCreate_ext cmColl configMap w1 (hP _ rfl))
  · next currMap w1 heq =>
    have h1 : Ext P w w1 := Ext.of_eq heq (clientGet_ext cmColl configMap.name w (hP _ rfl))
    split
    · exact Ext.trans h1 (clientUpdate_ext cmColl configMap w1 (hP _ rfl))
    · exact h1

theorem reconcilePDB_ext {P : Call → Prop} (hP : ∀ c, c.isBodyWork = true → P c)
    (env : Env) (spec : Option PodDisruptionBudgetSpec) (t : Tier) (w : World) :
    Ext P w (reconcilePDB env spec t w).2 := by
  unfold reconcilePDB
  split
  · exact Ext.refl
  · next sp =>
    simp only []
    split
    · next e w0 heq => exact Ext.of_eq heq (setControllerReference_ext env .statefulSet w)
    · next w0 heq =>
      have h0 : Ext P w w0 := Ext.of_eq heq (setControllerReference_ext env .statefulSet w)
      split
      · next e w1 heq1 =>
        have h1 := Ext.trans h0 (Ext.of_eq heq1 (clientGet_ext pdbColl _ w0 (hP _ rfl)))
        split
        · exact Ext.trans h1 (clientCreate_ext pdbColl _ w1 (hP _ rfl))
        · exact h1
      · next cpdb w1 heq1 =>
        have h1 := Ext.trans h0 (Ext.of_eq heq1 (clientGet_ext pdbColl _ w0 (hP _ rfl)))
        exact Ext.trans h1 (clientUpdate_ext pdbColl _ w1 (hP _ rfl))

theorem logCollectorConfigMap_ext {P : Call → Prop} (hP : ∀ c, c.isBodyWork = true → P c)
    (configMap : ConfigMap) (w : World) : Ext P w (logCollectorConfigMap configMap w).2 := by
  unfold logCollectorConfigMap
  split
  · next e w1 heq =>
    have h1 : Ext P w w1 := Ext.of_eq heq (clientCreate_ext cmColl configMap w (hP _ rfl))
    split
    · exact Ext.trans h1
        (wrapped_ext _ _ (fun w => clientUpdate_ext cmColl configMap w (hP _ rfl)) w1)
    · exact h1
  · next w1 heq => exact Ext.of_eq heq (clientCreate_ext cmColl configMap w (hP _ rfl))

theorem reconcileConfigMap_ext {P : Call → Prop} (hP : ∀ c, c.isBodyWork = true → P c)
    (env : Env) (cr : Cluster) (w : World) : Ext P w (reconcileConfigMap env cr w).2 := by
  unfold reconcileConfigMap
  refine andThen_ext _ _ ?_ (andThen_ext _ _ ?_ (andThen_ext _ _ ?_ (andThen_ext _ _ ?_ ?_))) w
  · refine onlyIf_ext _ _ (andThen_ext _ _ (wrapped_ext _ _ ?_)
      (andThen_ext _ _ (wrapped_ext _ _ ?_) (wrapped_ext _ _ ?_)))
    · intro w; exact callCollab_ext env _ w (hP _ rfl)
    · intro w; exact setControllerReference_ext env _ w
    · intro w; exact createOrUpdateConfigmap_ext hP _ w
  · refine onlyIf_ext _ _ (andThen_ext _ _ (wrapped_ext _ _ ?_) (wrapped_ext _ _ ?_))
    · intro w; exact setControllerReference_ext env _ w
    · intro w; exact createOrUpdateConfigmap_ext hP _ w
  · intro w
    cases cr.spec.proxysql with
    | none => exact Ext.refl
    | some p =>
      refine onlyIf_ext _ _ (andThen_ext _ _ (wrapped_ext _ _ ?_) (wrapped_ext _ _ ?_)) w
      · intro w; exact setControllerReference_ext env _ w
      · intro w; exact createOrUpdateConfigmap_ext hP _ w
  · intro w
    cases cr.spec.haproxy with
    | none => exact Ext.refl
    | some h =>
      refine onlyIf_ext _ _ (andThen_ext _ _ (wrapped_ext _ _ ?_) (wrapped_ext _ _ ?_)) w
      · intro w; exact setControllerReference_ext env _ w
      · intro w; exact createOrUpdateConfigmap_ext hP _ w
  · intro w
    cases cr.spec.logCollector with
    | none => exact Ext.refl
    | some lc =>
      refine onlyIf_ext _ _ (andThen_ext _ _ (wrapped_ext _ _ ?_) ?_) w
      · intro w; exact setControllerReference_ext env _ w
      · intro w; exact logCollectorConfigMap_ext hP _ w

theorem createWorkload_ext {P : Call → Prop} (hP : ∀ c, c.isBodyWork = true → P c)
    (set : StatefulSet) (msg : String) (w : World) : Ext P w (createWorkload set msg w).2 := by
  unfold createWorkload
  split
  · next e w1 heq =>
    have h1 : Ext P w w1 := Ext.of_eq heq (clientCreate_ext stsColl set w (hP _ rfl))
    split <;> exact h1
  · next w1 heq => exact Ext.of_eq heq (clientCreate_ext stsColl set w (hP _ rfl))

theorem budgetStep_ext {P : Call → Prop} (hP : ∀ c, c.isBodyWork = true → P c)
    (env : Env) (name : String) (spec : Option PodDisruptionBudgetSpec) (t : Tier)
    (getMsg : String) (w : World) : Ext P w (budgetStep env name spec t getMsg w).2 := by
  unfold budgetStep
  split
  · next x w1 heq =>
    have h1 : Ext P w w1 := Ext.of_eq heq (clientGet_ext stsColl name w (hP _ rfl))
    exact Ext.trans h1 (wrapped_ext _ _ (fun w => reconcilePDB_ext hP env spec t w) w1)
  · next e w1 heq =>
    have h1 : Ext P w w1 := Ext.of_eq heq (clientGet_ext stsColl name w (hP _ rfl))
    split <;> exact h1

theorem internalSecretHash_ext {P : Call → Prop} (hP : ∀ c, c.isBodyWork = true → P c)
    (env : Env) (w : World) : Ext P w (internalSecretHash env w).2 := by
  unfold internalSecretHash
  split
  · next e w1 heq =>
    have h1 : Ext P w w1 := Ext.of_eq heq (callCollab_ext env _ w (hP _ rfl))
    split <;> exact h1
  · next w1 heq => exact Ext.of_eq heq (callCollab_ext env _ w (hP _ rfl))

theorem deploy_ext {P : Call → Prop} (hP : ∀ c, c.isBodyWork = true → P c)
    (env : Env) (cr : Cluster) (w : World) : Ext P w (deploy env cr w).2 := by
  have hc : ∀ c w, Ext P w (callCollab env c w).2 := fun c w => callCollab_ext env c w (hP _ rfl)
  have hs : ∀ svc w, Ext P w (createService env svc w).2 := fun svc w =>
    createService_ext hP env svc w
  have hr : ∀ k w, Ext P w (setControllerReference env k w).2 := fun k w =>
    setControllerReference_ext env k w
  have hw : ∀ s m w, Ext P w (createWorkload s m w).2 := fun s m w => createWorkload_ext hP s m w
  have hb : ∀ n sp t m w, Ext P w (budgetStep env n sp t m w).2 := fun n sp t m w =>
    budgetStep_ext hP env n sp t m w
  unfold deploy
  refine andThen_ext _ _ (reconcileConfigMap_ext hP env cr) (andThen_ext _ _
    (wrapped_ext _ _ (hc _)) (andThen_ext _ _ (onlyIf_ext _ _ (hc _)) (andThen_ext _ _
    (wrapped_ext _ _ (hc _)) (andThen_ext _ _ (wrapped_ext _ _ (hc _)) (andThen_ext _ _
    (wrapped_ext _ _ (hc _)) (andThen_ext _ _ (internalSecretHash_ext hP env) (andThen_ext _ _
    (wrapped_ext _ _ (hc _)) (andThen_ext _ _ (hr _) (andThen_ext _ _ (hw _ _) (andThen_ext _ _
    (wrapped_ext _ _ (hs _)) (andThen_ext _ _ (wrapped_ext _ _ (hs _)) (andThen_ext _ _
    (hb _ _ _ _) (andThen_ext _ _ ?_ ?_))))))))))))) w
  · intro w
    cases cr.spec.haproxy with
    | none => exact Ext.refl
    | some h =>
      exact onlyIf_ext _ _ (andThen_ext _ _ (wrapped_ext _ _ (hc _)) (andThen_ext _ _ (hr _)
        (andThen_ext _ _ (hw _ _) (andThen_ext _ _ (wrapped_ext _ _ (hs _)) (andThen_ext _ _
        (wrapped_ext _ _ (hs _)) (hb _ _ _ _)))))) w
  · intro w
    cases cr.spec.proxysql with
    | none => exact Ext.refl
    | some p =>
      exact onlyIf_ext _ _ (andThen_ext _ _ (wrapped_ext _ _ (hc _)) (andThen_ext _ _ (hr _)
        (andThen_ext _ _ (hw _ _) (andThen_ext _ _ (wrapped_ext _ _ (hs _)) (andThen_ext _ _
        (wrapped_ext _ _ (hs _)) (hb _ _ _ _)))))) w

theorem deleteServices_ext {P : Call → Prop} (hget : ∀ n, P (.get .service n))
    (hdel : ∀ n, P (.delete .service n)) (svcs : List String) (w : World) :
    Ext P w (deleteServices svcs w).2 := by
  induction svcs generalizing w with
  | nil => exact Ext.refl
  | cons svcName rest ih =>
    unfold deleteServices
    split
    · next e w1 heq =>
      have h1 : Ext P w w1 := Ext.of_eq heq (clientGet_ext svcColl svcName w (hget _))
      split
      · exact h1
      · exact Ext.trans h1 (ih w1)
    · next svc w1 heq =>
      have h1 : Ext P w w1 := Ext.of_eq heq (clientGet_ext svcColl svcName w (hget _))
      split
      · next e w2 heq2 =>
        exact Ext.trans h1 (Ext.of_eq heq2 (clientDelete_ext svcColl _ w1 (hdel _)))
      · next w2 heq2 =>
        exact Ext.trans (Ext.trans h1
          (Ext.of_eq heq2 (clientDelete_ext svcColl _ w1 (hdel _)))) (ih w2)

theorem pxcServiceStep_ext {P : Call → Prop} (hP : ∀ c, c.isBodyWork = true → P c)
    (svc : Service) (err : Option Err) (w : World) : Ext P w (pxcServiceStep svc err w).2 := by
  unfold pxcServiceStep
  split
  · next e w1 heq => exact Ext.of_eq heq (clientGet_ext svcColl svc.name w (hP _ rfl))
  · next cur w1 heq =>
    have h1 : Ext P w w1 := Ext.of_eq heq (clientGet_ext svcColl svc.name w (hP _ rfl))
    split
    · exact h1
    · split
      · next e w2 heq2 =>
        exact Ext.trans h1 (Ext.of_eq heq2 (clientUpdate_ext svcColl _ w1 (hP _ rfl)))
      · next w2 heq2 =>
        exact Ext.trans h1 (Ext.of_eq heq2 (clientUpdate_ext svcColl _ w1 (hP _ rfl)))

theorem serviceStep_ext {P : Call → Prop} (hP : ∀ c, c.isBodyWork = true → P c)
    (name : String) (wanted : Service → Service) (getMsg updMsg : String) (w : World) :
    Ext P w (serviceStep name wanted getMsg updMsg w).2 := by
  unfold serviceStep
  split
  · next e w1 heq => exact Ext.of_eq heq (clientGet_ext svcColl name w (hP _ rfl))
  · next old w1 heq =>
    have h1 : Ext P w w1 := Ext.of_eq heq (clientGet_ext svcColl name w (hP _ rfl))
    simp only []
    split
    · exact Ext.trans h1
        (wrapped_ext _ _ (fun w => clientUpdate_ext svcColl _ w (hP _ rfl)) w1)
    · exact h1

theorem proxysqlServiceStep_ext {P : Call → Prop} (hP : ∀ c, c.isBodyWork = true → P c)
    (env : Env) (p : PodSpec) (w : World) : Ext P w (proxysqlServiceStep env p w).2 := by
  unfold proxysqlServiceStep
  split
  · next e w1 heq => exact Ext.of_eq heq (clientGet_ext svcColl _ w (hP _ rfl))
  · next cur w1 heq =>
    have h1 : Ext P w w1 := Ext.of_eq heq (clientGet_ext svcColl _ w (hP _ rfl))
    exact Ext.trans h1
      (wrapped_ext _ _ (fun w => clientUpdate_ext svcColl _ w (hP _ rfl)) w1)

theorem haproxyStage_ext {P : Call → Prop} (hP : ∀ c, c.isBodyWork = true → P c)
    (env : Env) (o : Cluster) (err : Option Err) (w : World) :
    Ext P w (haproxyStage env o err w).2 := by
  have hd : ∀ err w, Ext P w (haproxyDisabledStage env err w).2 := by
    intro err w
    unfold haproxyDisabledStage
    refine next_ext _ _ (mark_ext _ (hP _ rfl)) (next_ext _ _ (stepOuter_ext _ _ _ ?_)
      (stepOuter_ext _ _ _ ?_)) err w
    · intro w
      exact deleteStatefulSet_ext env _ false (hP _ rfl) (hP _ rfl)
        (fun h => absurd h (by decide)) w
    · intro w; exact deleteServices_ext (fun _ => hP _ rfl) (fun _ => hP _ rfl) _ w
  unfold haproxyStage
  cases o.spec.haproxy with
  | none => exact hd err w
  | some h =>
    by_cases he : h.enabled = true
    · simp only [he, if_true]
      unfold haproxyEnabledStage
      refine next_ext _ _ (mark_ext _ (hP _ rfl)) (next_ext _ _ (stepInner_ext _ _ _
        (wrapped_ext _ _ ?_)) (next_ext _ _ (stepInner_ext _ _ _ ?_)
        (stepInner_ext _ _ _ ?_))) err w
      · intro w; exact callCollab_ext env _ w (hP _ rfl)
      · intro w; exact serviceStep_ext hP _ _ _ _ w
      · intro w; exact serviceStep_ext hP _ _ _ _ w
    · simp only [he, if_false]
      exact hd err w

theorem proxysqlStage_ext {P : Call → Prop} (hP : ∀ c, c.isBodyWork = true → P c)
    (env : Env) (o : Cluster) (err : Option Err) (w : World) :
    Ext P w (proxysqlStage env o err w).2 := by
  have hd : ∀ err w, Ext P w (proxysqlDisabledStage env o err w).2 := by
    intro err w
    unfold proxysqlDisabledStage
    refine next_ext _ _ (mark_ext _ (hP _ rfl)) (next_ext _ _ (stepOuter_ext _ _ _ ?_)
      (stepOuter_ext _ _ _ ?_)) err w
    · intro w
      exact deleteStatefulSet_ext env _ _ (hP _ rfl) (hP _ rfl)
        (fun _ c hc => hP c (isTaskWork_isBodyWork c hc)) w
    · intro w; exact deleteServices_ext (fun _ => hP _ rfl) (fun _ => hP _ rfl) _ w
  unfold proxysqlStage
  cases o.spec.proxysql with
  | none => exact hd err w
  | some p =>
    by_cases he : p.enabled = true
    · simp only [he, if_true]
      unfold proxysqlEnabledStage
      refine next_ext _ _ (mark_ext _ (hP _ rfl)) (next_ext _ _ (stepOuter_ext _ _ _ ?_)
        (stepInner_ext _ _ _ ?_)) err w
      · intro w; exact callCollab_ext env _ w (hP _ rfl)
      · intro w; exact proxysqlServiceStep_ext hP env p w
    · simp only [he, if_false]
      exact hd err w

theorem convergence_ext {P : Call → Prop} (hP : ∀ c, c.isBodyWork = true → P c)
    (env : Env) (o : Cluster) (err : Option Err) (w : World) :
    Ext P w (convergence env o err w).2 := by
  have hc : ∀ c w, Ext P w (callCollab env c w).2 := fun c w => callCollab_ext env c w (hP _ rfl)
  have hm : ∀ s err w, Ext P w (mark s err w).2 := fun s err w => mark_ext s (hP _ rfl) err w
  unfold convergence
  exact next_ext _ _ (hm _) (next_ext _ _ (stepOuter_ext _ _ _ (deploy_ext hP env o))
    (next_ext _ _ (stepOuter_ext _ _ _ (hc _)) (next_ext _ _ (condStage_ext _ _
    (stepInner_ext _ _ _ (hc _))) (next_ext _ _ (hm _) (next_ext _ _ (stepOuter_ext _ _ _ (hc _))
    (next_ext _ _ (hm _) (next_ext _ _ (pxcServiceStep_ext hP _) (next_ext _ _
    (pxcServiceStep_ext hP _) (next_ext _ _ (haproxyStage_ext hP env o) (next_ext _ _
    (proxysqlStage_ext hP env o) (next_ext _ _ (hm _) (next_ext _ _ (stepOuter_ext _ _ _ (hc _))
    (next_ext _ _ (hm _) (next_ext _ _ (stepInner_ext _ _ _ (wrapped_ext _ _ (hc _)))
    (next_ext _ _ (hm _) (stepOuter_ext _ _ _ (hc _))))))))))))))))) err w

theorem reconcileBody_ext {P : Call → Prop} (hP : ∀ c, c.isBodyWork = true → P c)
    (env : Env) (o : Cluster) (changed : Bool) (w : World) :
    Ext P w (reconcileBody env o changed w).2 := by
  have h : Ext P w (next (preBranch env o changed)
      (if o.deletionTimestamp.isSome then teardown env o else convergence env o) none w).2 := by
    refine next_ext _ _ (preBranch_ext (fun c hc => hP c (isPreBranchWork_isBodyWork c hc)) env o
      changed) ?_ none w
    intro err w
    split
    · exact teardown_ext (fun c hc => hP c (isTaskWork_isBodyWork c hc)) (fun _ => hP _ rfl)
        (hP _ rfl) (fun _ => hP _ rfl) env o err w
    · exact convergence_ext hP env o err w
  unfold reconcileBody
  split
  · next x w1 heq => exact Ext.of_eq heq h
  · next e w1 heq => exact Ext.of_eq heq h


/-! ## The shape of a pass -/

theorem fetched_some (request : String) (w : World) (o : Cluster)
    (h : fetched request w = some o) :
    w.next = none ∧ clusterColl.lookup w.store request = some o := by
  unfold fetched at h
  unfold World.next
  cases hf : w.faults with
  | nil => rw [hf] at h; exact ⟨rfl, h⟩
  | cons f fs =>
    rw [hf] at h
    cases f with
    | none => exact ⟨rfl, h⟩
    | some e => simp at h

theorem statusClosure_eq (uerr errVar : Option Err) (w : World) :
    statusClosure uerr errVar w = w.log (.updateStatus errVar) := by
  unfold statusClosure
  cases uerr <;> rfl

theorem release_trace (request : String) (w : World) :
    (release request w).trace =
      w.trace ++ [.storeUpdateSync request updateDone, .unlock request] := by
  simp [release, World.log, World.withLockers]

theorem release_store (request : String) (w : World) : (release request w).store = w.store := rfl

theorem acquire_trace (request : String) (w : World) :
    (acquire request w).trace = w.trace ++ [.lock request] := rfl

/-- A pass whose entity is fetched, is not waiting for a token and passes
normalization consists of the body, the status closure and the release. -/
theorem Reconcile_after_defaults (env : Env) (uerr : Option Err) (request : String) (w : World)
    (o : Cluster) (hfetch : fetched request w = some o)
    (hwait : env.shouldWaitForTokenIssue o = false)
    (hcheck : (env.checkNSetDefaults o).2.2 = none) :
    Reconcile env uerr request w =
      { result := (reconcileBody env (env.checkNSetDefaults o).1 (env.checkNSetDefaults o).2.1
          ((acquire request w).step (.get .cluster request))).1.result,
        err := (reconcileBody env (env.checkNSetDefaults o).1 (env.checkNSetDefaults o).2.1
          ((acquire request w).step (.get .cluster request))).1.err,
        world := release request
          ((reconcileBody env (env.checkNSetDefaults o).1 (env.checkNSetDefaults o).2.1
            ((acquire request w).step (.get .cluster request))).2.log
            (.updateStatus (reconcileBody env (env.checkNSetDefaults o).1
              (env.checkNSetDefaults o).2.1
              ((acquire request w).step (.get .cluster request))).1.errVar)) } := by
  obtain ⟨hn, hl⟩ := fetched_some request w o hfetch
  have hn' : (acquire request w).next = none := hn
  have hl' : clusterColl.lookup (acquire request w).store request = some o := hl
  unfold Reconcile reconcileLocked
  rw [clientGet_eq, hn', hl']
  simp only [hwait, Bool.false_eq_true, if_false]
  rcases hc : env.checkNSetDefaults o with ⟨o1, changed, e⟩
  rw [hc] at hcheck
  simp only at hcheck
  subst hcheck
  simp only [statusClosure_eq]
  rfl

/-- C3, as stated, fails: when normalization rejects the spec, the pass returns
the error and the trace holds no call of the status hook. -/
theorem Reconcile_validation_hook_counterexample :
    (Reconcile { exampleEnv with checkNSetDefaults := fun o => (o, false, some (.other "invalid")) }
        none "ns/c1" (exampleWorld (exampleStore exampleCluster [] []) [])).err =
      some (.wrap (.other "invalid") "wrong PXC options") ∧
    (Reconcile { exampleEnv with checkNSetDefaults := fun o => (o, false, some (.other "invalid")) }
        none "ns/c1" (exampleWorld (exampleStore exampleCluster [] []) [])).world.trace.any
      Call.isStatusHook = false := by
  decide

/-- C3 (amended): when `CheckNSetDefaults` reports a validation failure,
`Reconcile` aborts the remaining stages and returns the error wrapped as
"wrong PXC options" with an empty result; the status hook is not invoked on
this path (it is registered only after normalization has succeeded): the only
calls of the pass are the lock, the fetch and the two deferred lock calls, and
the store is left as it was. -/
theorem Reconcile_validation_failure (env : Env) (uerr : Option Err) (request : String)
    (w : World) (o : Cluster) (e : Err) (hfetch : fetched request w = some o)
    (hwait : env.shouldWaitForTokenIssue o = false)
    (hcheck : (env.checkNSetDefaults o).2.2 = some e) :
    (Reconcile env uerr request w).result = emptyResult ∧
    (Reconcile env uerr request w).err = some (.wrap e "wrong PXC options") ∧
    (Reconcile env uerr request w).world.trace =
      w.trace ++ [.lock request, .get .cluster request, .storeUpdateSync request updateDone,
        .unlock request] ∧
    (Reconcile env uerr request w).world.store = w.store := by
  obtain ⟨hn, hl⟩ := fetched_some request w o hfetch
  have hn' : (acquire request w).next = none := hn
  have hl' : clusterColl.lookup (acquire request w).store request = some o := hl
  unfold Reconcile reconcileLocked
  rw [clientGet_eq, hn', hl']
  simp only [hwait, Bool.false_eq_true, if_false]
  rcases hc : env.checkNSetDefaults o with ⟨o1, changed, e1⟩
  rw [hc] at hcheck
  simp only at hcheck
  subst hcheck
  refine ⟨rfl, rfl, ?_, rfl⟩
  simp [release_trace, World.step, acquire_trace, clusterColl]

theorem Reconcile_validation_failure_witness :
    (Reconcile { exampleEnv with checkNSetDefaults := fun o => (o, false, some (.other "invalid")) }
        (some (.other "conflict")) "ns/c1"
        (exampleWorld (exampleStore exampleCluster [] []) [])).world.trace =
      [.lock "ns/c1", .get .cluster "ns/c1", .storeUpdateSync "ns/c1" updateDone,
        .unlock "ns/c1"] :=
  (Reconcile_validation_failure
    { exampleEnv with checkNSetDefaults := fun o => (o, false, some (.other "invalid")) }
    (some (.other "conflict")) "ns/c1" (exampleWorld (exampleStore exampleCluster [] []) [])
    exampleCluster (.other "invalid") (by decide) rfl rfl).2.2.1

/-- C4: for every pass whose entity is fetched, is not waiting for a token and
passes normalization, the trace gains exactly one call of the status hook,
whichever exit the pass takes afterwards, and what the hook returns changes
neither the result nor the error of `Reconcile`. -/
theorem Reconcile_status_hook_once (env : Env) (uerr uerr2 : Option Err) (request : String)
    (w : World) (o : Cluster) (hfetch : fetched request w = some o)
    (hwait : env.shouldWaitForTokenIssue o = false)
    (hcheck : (env.checkNSetDefaults o).2.2 = none) :
    (Reconcile env uerr request w).world.trace.countP Call.isStatusHook =
        w.trace.countP Call.isStatusHook + 1 ∧
      (Reconcile env uerr2 request w).result = (Reconcile env uerr request w).result ∧
      (Reconcile env uerr2 request w).err = (Reconcile env uerr request w).err := by
  rw [Reconcile_after_defaults env uerr request w o hfetch hwait hcheck,
    Reconcile_after_defaults env uerr2 request w o hfetch hwait hcheck]
  refine ⟨?_, rfl, rfl⟩
  obtain ⟨l, hl, hP⟩ := reconcileBody_ext (P := fun c => c.isBodyWork = true) (fun _ h => h) env
    (env.checkNSetDefaults o).1 (env.checkNSetDefaults o).2.1
    ((acquire request w).step (.get .cluster request))
  have hcount : l.countP Call.isStatusHook = 0 := by
    rw [List.countP_eq_zero]
    intro c hc
    have := hP c hc
    cases c <;> simp_all [Call.isBodyWork, Call.isStatusHook]
  rw [release_trace]
  simp only [World.log]
  rw [hl]
  simp [World.step, acquire_trace, List.countP_append, hcount, Call.isStatusHook,
    List.countP_cons]

theorem Reconcile_status_hook_once_witness :
    (Reconcile exampleEnv (some (.other "conflict")) "ns/c1"
        (exampleWorld (exampleStore exampleCluster [] []) [])).world.trace.countP
        Call.isStatusHook = 1 ∧
      (Reconcile exampleEnv none "ns/c1"
        (exampleWorld (exampleStore exampleCluster [] []) [])).err =
      (Reconcile exampleEnv (some (.other "conflict")) "ns/c1"
        (exampleWorld (exampleStore exampleCluster [] []) [])).err := by
  have h := Reconcile_status_hook_once exampleEnv (some (.other "conflict")) none "ns/c1"
    (exampleWorld (exampleStore exampleCluster [] []) []) exampleCluster (by decide) rfl rfl
  exact ⟨by simpa [exampleWorld] using h.1, h.2.2⟩


/-! ## The teardown branch -/

theorem clientUpdate_trace {α : Type} (c : Coll α) (x : α) (w : World) :
    (clientUpdate c x w).2.trace = w.trace ++ [.update (c.obj x)] := by
  rw [clientUpdate_eq]
  split
  · rfl
  · split <;> rfl

theorem isTeardownWork_not_convergence (c : Call) (h : c.isTeardownWork = true) :
    c.isConvergenceWork = false := by
  cases c with
  | get k n => cases k <;> simp_all [Call.isTeardownWork, Call.isPreBranchWork, Call.isTaskWork,
      Call.isConvergenceWork]
  | create o => simp_all [Call.isTeardownWork, Call.isPreBranchWork, Call.isTaskWork]
  | update o => cases o <;> simp_all [Call.isTeardownWork, Call.isPreBranchWork,
      Call.isTaskWork, Call.isConvergenceWork]
  | delete k n => cases k <;> simp_all [Call.isTeardownWork, Call.isPreBranchWork,
      Call.isTaskWork, Call.isConvergenceWork]
  | list k s => cases k <;> simp_all [Call.isTeardownWork, Call.isPreBranchWork,
      Call.isTaskWork, Call.isConvergenceWork]
  | collab x => cases x <;> simp_all [Call.isTeardownWork, Call.isPreBranchWork,
      Call.isTaskWork, Call.isConvergenceWork]
  | stage s => cases s <;> simp_all [Call.isTeardownWork, Call.isPreBranchWork,
      Call.isTaskWork, Call.isConvergenceWork]
  | sleep n => rfl
  | spawnResync => rfl
  | updateStatus e => rfl
  | lock k => rfl
  | unlock k => rfl
  | storeUpdateSync k v => rfl

theorem reconcileBody_teardown_ext (env : Env) (o : Cluster) (changed : Bool) (w : World)
    (hdel : o.deletionTimestamp.isSome = true) :
    Ext (fun c => c.isTeardownWork = true) w (reconcileBody env o changed w).2 := by
  have h : Ext (fun c => c.isTeardownWork = true) w (next (preBranch env o changed)
      (if o.deletionTimestamp.isSome then teardown env o else convergence env o) none w).2 := by
    refine next_ext _ _ (preBranch_ext ?_ env o changed) ?_ none w
    · intro c hc
      simp [Call.isTeardownWork, hc]
    · intro err w
      rw [if_pos hdel]
      refine teardown_ext ?_ ?_ ?_ ?_ env o err w
      · intro c hc
        simp [Call.isTeardownWork, hc]
      · intro n; rfl
      · rfl
      · intro c; rfl
  unfold reconcileBody
  split
  · next x w1 heq => exact Ext.of_eq heq h
  · next e w1 heq => exact Ext.of_eq heq h

/-- C5: for every pass whose entity, once fetched and normalized, carries the
deletion marker, none of the calls the pass adds to the trace is convergence
work (no stage of the convergence pipeline is reached, none of its
collaborators is called, nothing is created, no service, config map or
disruption budget is touched); and when the pass reaches the branch, what
follows is only the finalizer tasks, exactly one update of the entity carrying
the retained finalizers, the status hook and the release of the lock, with the
standard result. -/
theorem Reconcile_teardown_only (env : Env) (uerr : Option Err) (request : String) (w : World)
    (o : Cluster) (hfetch : fetched request w = some o)
    (hwait : env.shouldWaitForTokenIssue o = false)
    (hcheck : (env.checkNSetDefaults o).2.2 = none)
    (hdel : (env.checkNSetDefaults o).1.deletionTimestamp.isSome = true) :
    (∃ l, (Reconcile env uerr request w).world.trace = w.trace ++ l ∧
      ∀ c ∈ l, c.isConvergenceWork = false) ∧
    (∀ err1 w1,
      preBranch env (env.checkNSetDefaults o).1 (env.checkNSetDefaults o).2.1 none
        ((acquire request w).step (.get .cluster request)) = (.ok err1, w1) →
      ∃ tasks finalizers,
        (Reconcile env uerr request w).world.trace =
          w1.trace ++ tasks ++
            [.stage .persistFinalizers,
              .update (.cluster { (env.checkNSetDefaults o).1 with finalizers := finalizers }),
              .updateStatus (Reconcile env uerr request w).err,
              .storeUpdateSync request updateDone, .unlock request] ∧
        (∀ c ∈ tasks, c.isTaskWork = true ∨ ∃ n, c = .stage (.finalizer n)) ∧
        (Reconcile env uerr request w).result = rr) := by
  rw [Reconcile_after_defaults env uerr request w o hfetch hwait hcheck]
  constructor
  · obtain ⟨l, hl, hP⟩ := reconcileBody_teardown_ext env (env.checkNSetDefaults o).1
      (env.checkNSetDefaults o).2.1 ((acquire request w).step (.get .cluster request)) hdel
    refine ⟨[.lock request, .get .cluster request] ++ l ++
      [.updateStatus (reconcileBody env (env.checkNSetDefaults o).1
        (env.checkNSetDefaults o).2.1
        ((acquire request w).step (.get .cluster request))).1.errVar,
        .storeUpdateSync request updateDone, .unlock request], ?_, ?_⟩
    · rw [release_trace]
      simp only [World.log]
      rw [hl]
      simp [World.step, acquire_trace]
    · intro c hc
      simp only [List.mem_append, List.mem_cons, List.mem_singleton, List.not_mem_nil,
        or_false] at hc
      rcases hc with ((rfl | rfl) | hc) | rfl | rfl | rfl
      · rfl
      · rfl
      · exact isTeardownWork_not_convergence c (hP c hc)
      · rfl
      · rfl
      · rfl
  · intro err1 w1 hpre
    rcases hloop : finalizerLoop env (env.checkNSetDefaults o).1
      (env.checkNSetDefaults o).1.finalizers err1 [] w1 with ⟨e, fins, w2⟩
    have hbody : reconcileBody env (env.checkNSetDefaults o).1 (env.checkNSetDefaults o).2.1
        ((acquire request w).step (.get .cluster request)) =
        ({ result := rr,
           err := (clientUpdate clusterColl
             { (env.checkNSetDefaults o).1 with finalizers := fins }
             (w2.log (.stage .persistFinalizers))).1,
           errVar := (clientUpdate clusterColl
             { (env.checkNSetDefaults o).1 with finalizers := fins }
             (w2.log (.stage .persistFinalizers))).1 },
          (clientUpdate clusterColl { (env.checkNSetDefaults o).1 with finalizers := fins }
            (w2.log (.stage .persistFinalizers))).2) := by
      unfold reconcileBody next
      rw [hpre]
      simp only [hdel, if_true]
      unfold teardown
      rw [hloop]
    have hext := finalizerLoop_ext
      (P := fun c => c.isTaskWork = true ∨ ∃ n, c = .stage (.finalizer n))
      (fun c hc => Or.inl hc) (fun n => Or.inr ⟨n, rfl⟩) env (env.checkNSetDefaults o).1
      (env.checkNSetDefaults o).1.finalizers err1 [] w1
    rw [hloop] at hext
    obtain ⟨tasks, htr, htasks⟩ := hext
    refine ⟨tasks, fins, ?_, htasks, ?_⟩
    · rw [hbody, release_trace]
      simp only [World.log]
      rw [clientUpdate_trace]
      simp only at htr
      simp [htr, clusterColl, World.log]
    · rw [hbody]

theorem Reconcile_teardown_only_witness :
    ∃ l, (Reconcile exampleEnv none "ns/c1"
        (exampleWorld (exampleStore { exampleCluster with
          finalizers := ["delete-pxc-pods-in-order"], deletionTimestamp := some 1 }
          [pxcSet] [pxcPod "c1-pxc-0"]) [])).world.trace = [] ++ l ∧
      ∀ c ∈ l, c.isConvergenceWork = false :=
  (Reconcile_teardown_only exampleEnv none "ns/c1"
    (exampleWorld (exampleStore { exampleCluster with
      finalizers := ["delete-pxc-pods-in-order"], deletionTimestamp := some 1 }
      [pxcSet] [pxcPod "c1-pxc-0"]) [])
    { exampleCluster with finalizers := ["delete-pxc-pods-in-order"], deletionTimestamp := some 1 }
    (by decide) rfl rfl rfl).1


/-! ## Finalizer bookkeeping and the error handed to the status hook -/

/-- C1 on a failing input: with finalizers `delete-pxc-pvc` and an
unrecognised `example.com/hold`, and the lookup of the primary workload
failing, the only task that runs and fails is the one of `delete-pxc-pvc`, yet
the entity is persisted with both names: the variable `err` keeps the failure
of the previous round for a name that has no case. With the two names in the
other order the unrecognised name is dropped. -/
theorem teardown_keeps_unrecognised_after_failure :
    (Reconcile exampleEnv none "ns/c1"
        (exampleWorld (exampleStore (markedCluster ["delete-pxc-pvc", "example.com/hold"])
          [pxcSet] []) [none, some (.other "timeout")])).world.store.clusters.map
        Cluster.finalizers = [["delete-pxc-pvc", "example.com/hold"]] ∧
    (Reconcile exampleEnv none "ns/c1"
        (exampleWorld (exampleStore (markedCluster ["delete-pxc-pvc", "example.com/hold"])
          [pxcSet] []) [none, some (.other "timeout")])).world.trace =
      [.lock "ns/c1", .get .cluster "ns/c1", .collab .reconcileUsersSecret,
        .collab .reconcileUsers, .stage (.finalizer "delete-pxc-pvc"),
        .get .statefulSet "c1-pxc", .stage (.finalizer "example.com/hold"),
        .stage .persistFinalizers,
        .update (.cluster (markedCluster ["delete-pxc-pvc", "example.com/hold"])),
        .updateStatus none, .storeUpdateSync "ns/c1" 0, .unlock "ns/c1"] ∧
    (Reconcile exampleEnv none "ns/c1"
        (exampleWorld (exampleStore (markedCluster ["example.com/hold", "delete-pxc-pvc"])
          [pxcSet] []) [none, some (.other "timeout")])).world.store.clusters.map
        Cluster.finalizers = [["delete-pxc-pvc"]] := by
  decide

/-- C2 on a failing input: with HAProxy enabled and `updatePod` failing for
the HAProxy workload, `Reconcile` returns that error wrapped, and the status
hook is called with no error, because the error lives in a variable declared
inside the HAProxy block. When `updatePod` fails for the primary workload, the
same pattern outside such a block hands the error to the hook. -/
theorem Reconcile_shadowed_error_not_reported :
    (Reconcile (failingEnv (.updatePod .haproxy) (.other "rollout failed")) none "ns/c1"
        (exampleWorld (exampleStore haproxyCluster [] []) [])).err =
      some (.wrap (.other "rollout failed") "HAProxy upgrade error") ∧
    (Reconcile (failingEnv (.updatePod .haproxy) (.other "rollout failed")) none "ns/c1"
        (exampleWorld (exampleStore haproxyCluster [] []) [])).world.trace.filter
        Call.isStatusHook = [.updateStatus none] ∧
    (Reconcile (failingEnv (.updatePod .pxc) (.other "rollout failed")) none "ns/c1"
        (exampleWorld (exampleStore haproxyCluster [] []) [])).err =
      some (.wrap (.other "rollout failed") "pxc upgrade error") ∧
    (Reconcile (failingEnv (.updatePod .pxc) (.other "rollout failed")) none "ns/c1"
        (exampleWorld (exampleStore haproxyCluster [] []) [])).world.trace.filter
        Call.isStatusHook = [.updateStatus (some (.other "rollout failed"))] := by
  decide


/-! ## Disabled routing tiers -/

theorem wantsProxysqlPVC_iff (finalizers : List String) :
    wantsProxysqlPVC finalizers = true ↔ "delete-proxysql-pvc" ∈ finalizers := by
  induction finalizers with
  | nil => simp [wantsProxysqlPVC]
  | cons f rest ih =>
    unfold wantsProxysqlPVC
    by_cases h : f = "delete-proxysql-pvc"
    · simp [h]
    · have h' : ¬ "delete-proxysql-pvc" = f := fun e => h e.symm
      simp [h, h', ih]

theorem keeps_refl (w : World) : Keeps w w := ⟨fun h => h, rfl⟩

theorem keeps_trans {w w1 w2 : World} (h1 : Keeps w w1) (h2 : Keeps w1 w2) : Keeps w w2 :=
  ⟨fun h => h2.1 (h1.1 h), h2.2.trans h1.2⟩

theorem keeps_step (w : World) (c : Call) : Keeps w (w.step c) :=
  ⟨fun h => by simp [World.step, h], rfl⟩

theorem keeps_log (w : World) (c : Call) : Keeps w (w.log c) := ⟨fun h => h, rfl⟩

theorem clientGet_snd {α : Type} (c : Coll α) (n : String) (w : World) :
    (clientGet c n w).2 = w.step (.get c.kind n) := by
  rw [clientGet_eq]

theorem clientList_snd {α : Type} (c : Coll α) (sel : Labels) (w : World) :
    (clientList c sel w).2 = w.step (.list c.kind sel) := by
  rw [clientList_eq]

theorem clientDelete_keeps {α : Type} (c : Coll α)
    (hc : ∀ s l, (c.setItems s l).services = s.services) (n : String) (w : World) :
    Keeps w (clientDelete c n w).2 := by
  rw [clientDelete_eq]
  split
  · exact keeps_step w _
  · split
    · exact keeps_step w _
    · exact ⟨fun h => by simp [World.step, h], hc _ _⟩

theorem clientDelete_trace {α : Type} (c : Coll α) (n : String) (w : World) :
    (clientDelete c n w).2.trace = w.trace ++ [.delete c.kind n] := by
  rw [clientDelete_eq]
  split
  · rfl
  · split <;> rfl

theorem deletePVCItems_keeps (items : List PersistentVolumeClaim) (w : World) :
    Keeps w (deletePVCItems items w).2 := by
  induction items generalizing w with
  | nil => exact keeps_refl w
  | cons pvc rest ih =>
    unfold deletePVCItems
    have h1 := clientDelete_keeps pvcColl (fun _ _ => rfl) pvc.name w
    split
    · next e w1 heq => rw [heq] at h1; exact h1
    · next w1 heq => rw [heq] at h1; exact keeps_trans h1 (ih w1)

theorem deletePVC_keeps (lbls : Labels) (w : World) : Keeps w (deletePVC lbls w).2 := by
  unfold deletePVC
  have h1 : Keeps w (clientList pvcColl lbls w).2 := by
    rw [clientList_snd]; exact keeps_step w _
  split
  · next e w1 heq => rw [heq] at h1; exact h1
  · next items w1 heq => rw [heq] at h1; exact keeps_trans h1 (deletePVCItems_keeps items w1)

/-- The finalizer-independent reading of `deleteStatefulSet`: the workload is
looked up first, claims are touched only when `delPVC` is set, and without
injected failures a workload that is present is deleted. -/
theorem deleteStatefulSet_spec (env : Env) (t : Tier) (delPVC : Bool) (w : World) :
    Keeps w (deleteStatefulSet env t delPVC w).2 ∧
    ∃ l, (deleteStatefulSet env t delPVC w).2.trace =
        w.trace ++ (.get .statefulSet (env.appName t) :: l) ∧
      (delPVC = false → ∀ c ∈ l, c.isClaimCall = false) ∧
      (∀ c ∈ l, c.isTaskWork = true) ∧
      (w.faults = [] → stsColl.present w.store (env.appName t) = true →
        .delete .statefulSet (env.appName t) ∈ l) := by
  have hk1 : Keeps w (w.step (.get stsColl.kind (env.appName t))) := keeps_step w _
  -- the run after a lookup that ended the step
  have hstop : ∀ r : Option Err,
      (w.faults = [] → stsColl.present w.store (env.appName t) = true → False) →
      Keeps w ((r, w.step (.get stsColl.kind (env.appName t)))).2 ∧
      ∃ l, ((r, w.step (.get stsColl.kind (env.appName t)))).2.trace =
          w.trace ++ (.get .statefulSet (env.appName t) :: l) ∧
        (delPVC = false → ∀ c ∈ l, c.isClaimCall = false) ∧
        (∀ c ∈ l, c.isTaskWork = true) ∧
        (w.faults = [] → stsColl.present w.store (env.appName t) = true →
          .delete .statefulSet (env.appName t) ∈ l) := by
    intro r hno
    refine ⟨hk1, [], rfl, fun _ c hc => by simp at hc, fun c hc => by simp at hc, ?_⟩
    intro hf hp
    exact absurd (hno hf hp) id
  -- the run after the deletion of the workload
  have hgo : ∀ (r : Option Err × World) (w2 : World),
      Keeps w w2 →
      w2.trace = w.trace ++ [.get .statefulSet (env.appName t),
        .delete .statefulSet (env.appName t)] →
      (r = (r.1, w2) ∨ (delPVC = true ∧
        r = wrapped (deletePVC (env.appLabels t)) ("delete pvc: " ++ env.appName t) w2)) →
      Keeps w r.2 ∧
      ∃ l, r.2.trace = w.trace ++ (.get .statefulSet (env.appName t) :: l) ∧
        (delPVC = false → ∀ c ∈ l, c.isClaimCall = false) ∧
        (∀ c ∈ l, c.isTaskWork = true) ∧
        (w.faults = [] → stsColl.present w.store (env.appName t) = true →
          .delete .statefulSet (env.appName t) ∈ l) := by
    intro r w2 hk htr hr
    rcases hr with hr | ⟨hd, hr⟩
    · rw [hr]
      refine ⟨hk, [.delete .statefulSet (env.appName t)], by simpa using htr, ?_, ?_, ?_⟩
      · intro _ c hc
        simp only [List.mem_singleton] at hc
        subst hc; rfl
      · intro c hc
        simp only [List.mem_singleton] at hc
        subst hc; rfl
      · intro _ _; simp
    · rw [hr]
      unfold wrapped
      obtain ⟨l2, hl2, hP2⟩ := deletePVC_ext (P := fun c => c.isTaskWork = true)
        (fun _ h => h) (env.appLabels t) w2
      refine ⟨keeps_trans hk (deletePVC_keeps _ w2),
        .delete .statefulSet (env.appName t) :: l2, ?_, ?_, ?_, ?_⟩
      · show (deletePVC (env.appLabels t) w2).2.trace = _
        rw [hl2, htr]; simp
      · intro hfalse; rw [hd] at hfalse; exact absurd hfalse (by decide)
      · intro c hc
        rcases List.mem_cons.1 hc with rfl | hc
        · rfl
        · exact hP2 c hc
      · intro _ _; simp
  unfold deleteStatefulSet
  rw [clientGet_eq]
  cases hn : w.next with
  | some e =>
    have hno : w.faults = [] → stsColl.present w.store (env.appName t) = true → False := by
      intro hf _
      simp [World.next, hf] at hn
    simp only []
    split
    · exact hstop _ hno
    · exact hstop _ hno
  | none =>
    cases hlk : stsColl.lookup w.store (env.appName t) with
    | none =>
      have hno : w.faults = [] → stsColl.present w.store (env.appName t) = true → False := by
        intro _ hp
        simp [Coll.present, hlk] at hp
      simp only []
      split
      · exact hstop _ hno
      · exact hstop _ hno
    | some x =>
      simp only []
      have hk2 := keeps_trans hk1
        (clientDelete_keeps stsColl (fun _ _ => rfl) (env.appName t)
          (w.step (.get stsColl.kind (env.appName t))))
      have htr2 := clientDelete_trace stsColl (env.appName t)
        (w.step (.get stsColl.kind (env.appName t)))
      split
      · next e w2 heq2 =>
        rw [heq2] at hk2 htr2
        have htr2' : w2.trace = w.trace ++ [.get .statefulSet (env.appName t),
            .delete .statefulSet (env.appName t)] := by
          rw [htr2]; simp [World.step, stsColl]
        split
        · exact hgo _ w2 hk2 htr2' (Or.inl rfl)
        · split
          · next hd => exact hgo _ w2 hk2 htr2' (Or.inr ⟨hd, rfl⟩)
          · exact hgo _ w2 hk2 htr2' (Or.inl rfl)
      · next w2 heq2 =>
        rw [heq2] at hk2 htr2
        have htr2' : w2.trace = w.trace ++ [.get .statefulSet (env.appName t),
            .delete .statefulSet (env.appName t)] := by
          rw [htr2]; simp [World.step, stsColl]
        split
        · next hd => exact hgo _ w2 hk2 htr2' (Or.inr ⟨hd, rfl⟩)
        · exact hgo _ w2 hk2 htr2' (Or.inl rfl)

theorem lookup_filter_ne (s : Store) (l : List Service) (n m : String) (h : n ≠ m)
    (hl : l = s.services.filter (fun y => svcColl.nameOf y != m)) :
    svcColl.lookup (svcColl.setItems s l) n = svcColl.lookup s n := by
  subst hl
  show List.find? _ (List.filter _ s.services) = List.find? _ s.services
  induction s.services with
  | nil => rfl
  | cons y ys ih =>
    by_cases hy : svcColl.nameOf y = m
    · have hyn : (svcColl.nameOf y == n) = false := by
        rw [beq_eq_false_iff_ne]
        exact fun e => h (e.symm.trans hy)
      have hym : (svcColl.nameOf y != m) = false := by simp [hy]
      rw [List.filter_cons, hym, List.find?_cons, hyn]
      exact ih
    · have hym : (svcColl.nameOf y != m) = true := by simp [hy]
      rw [List.filter_cons, hym]
      simp only [if_true, List.find?_cons]
      cases svcColl.nameOf y == n
      · exact ih
      · rfl

/-- Without injected failures `deleteServices` succeeds, looks up every name
and deletes every service that is present. -/
theorem deleteServices_spec (svcs : List String) (w : World) (hf : w.faults = []) :
    (deleteServices svcs w).1 = none ∧
    ∃ l, (deleteServices svcs w).2.trace = w.trace ++ l ∧
      ∀ n ∈ svcs, .get .service n ∈ l ∧
        (svcColl.present w.store n = true → .delete .service n ∈ l) := by
  induction svcs generalizing w with
  | nil => exact ⟨rfl, [], by simp [deleteServices], by simp⟩
  | cons n1 rest ih =>
    have hn : w.next = none := by simp [World.next, hf]
    have hf1 : (w.step (.get svcColl.kind n1)).faults = [] := by simp [World.step, hf]
    have hn1 : (w.step (.get svcColl.kind n1)).next = none := by simp [World.next, hf1]
    unfold deleteServices
    rw [clientGet_eq, hn]
    cases hlk : svcColl.lookup w.store n1 with
    | none =>
      simp only [Err.isNotFound, Bool.not_true, Bool.false_eq_true, if_false]
      obtain ⟨hr, l, hl, hall⟩ := ih (w.step (.get svcColl.kind n1)) hf1
      refine ⟨hr, .get .service n1 :: l, ?_, ?_⟩
      · rw [hl]; simp [World.step, svcColl]
      · intro n hmem
        rcases List.mem_cons.1 hmem with rfl | hmem
        · refine ⟨by simp, ?_⟩
          intro hp
          simp [Coll.present, hlk] at hp
        · obtain ⟨h1, h2⟩ := hall n hmem
          exact ⟨List.mem_cons_of_mem _ h1, fun hp => List.mem_cons_of_mem _ (h2 hp)⟩
    | some svc =>
      have hname : svc.name = n1 := lookup_name svcColl _ _ _ hlk
      simp only []
      rw [clientDelete_eq, hn1]
      have hlk1 : svcColl.lookup (w.step (.get svcColl.kind n1)).store svc.name = some svc := by
        rw [hname]; exact hlk
      rw [hlk1]
      simp only []
      obtain ⟨hr, l, hl, hall⟩ := ih
        { w.step (.get svcColl.kind n1) |>.step (.delete svcColl.kind svc.name) with
          store := svcColl.setItems (w.step (.get svcColl.kind n1)).store
            ((svcColl.items (w.step (.get svcColl.kind n1)).store).filter
              (fun y => svcColl.nameOf y != svc.name)) }
        (by simp [World.step, hf])
      refine ⟨hr, .get .service n1 :: .delete .service n1 :: l, ?_, ?_⟩
      · rw [hl]; simp [World.step, svcColl, hname]
      · intro n hmem
        rcases List.mem_cons.1 hmem with rfl | hmem
        · exact ⟨by simp, fun _ => by simp⟩
        · obtain ⟨h1, h2⟩ := hall n hmem
          refine ⟨List.mem_cons_of_mem _ (List.mem_cons_of_mem _ h1), ?_⟩
          intro hp
          by_cases hnn : n = n1
          · subst hnn; simp
          · refine List.mem_cons_of_mem _ (List.mem_cons_of_mem _ (h2 ?_))
            have := lookup_filter_ne w.store _ n svc.name (by rw [hname]; exact hnn) rfl
            show (svcColl.lookup (svcColl.setItems w.store
              (w.store.services.filter (fun y => svcColl.nameOf y != svc.name))) n).isSome = true
            rw [this]
            exact hp

/-- The else-branch of a routing tier, whatever its result values and messages. -/
theorem disabled_shape (env : Env) (t : Tier) (delPVC : Bool) (svcs : List String)
    (r1 r2 : Result) (m1 m2 : Option String) (err : Option Err) (w : World) :
    RequestsDeletion env t delPVC svcs w
      (next (mark (.disabledTier t))
        (next (stepOuter (deleteStatefulSet env t delPVC) r1 m1)
          (stepOuter (deleteServices svcs) r2 m2)) err w) := by
  have hspecD := deleteStatefulSet_spec env t delPVC (w.log (.stage (.disabledTier t)))
  unfold RequestsDeletion next mark stepOuter
  simp only []
  rcases hd : deleteStatefulSet env t delPVC (w.log (.stage (.disabledTier t))) with ⟨rd, wd⟩
  rw [hd] at hspecD
  obtain ⟨hk, ld, hld, hclaim, _, hdel⟩ := hspecD
  simp only at hk hld
  have hsvc := deleteServices_ext (P := fun c => c.isClaimCall = false) (fun _ => rfl)
    (fun _ => rfl) svcs wd
  have hspec := deleteServices_spec svcs wd
  cases rd with
  | some e =>
    simp only []
    refine ⟨ld, ?_, hclaim, ?_⟩
    · rw [hld]; simp [World.log]
    · intro hf
      exact ⟨hdel hf, fun h => by simp at h⟩
  | none =>
    simp only []
    obtain ⟨ls, hls, hPs⟩ := hsvc
    rcases hs : deleteServices svcs wd with ⟨rs, ws⟩
    rw [hs] at hls hspec
    simp only at hls hspec
    have htr : ws.trace =
        w.trace ++ [.stage (.disabledTier t), .get .statefulSet (env.appName t)] ++
          (ld ++ ls) := by
      rw [hls, hld]; simp [World.log]
    have hclaim2 : delPVC = false → ∀ c ∈ ld ++ ls, c.isClaimCall = false := by
      intro hd c hc
      rcases List.mem_append.1 hc with h | h
      · exact hclaim hd c h
      · exact hPs c h
    have hrest : w.faults = [] →
        (stsColl.present w.store (env.appName t) = true →
          .delete .statefulSet (env.appName t) ∈ ld ++ ls) ∧
        (rs = none ∧ ∀ n ∈ svcs, .get .service n ∈ ld ++ ls ∧
          (svcColl.present w.store n = true → .delete .service n ∈ ld ++ ls)) := by
      intro hf
      refine ⟨fun hp => List.mem_append_left _ (hdel hf hp), ?_⟩
      obtain ⟨hr, l2, hl2, hall⟩ := hspec (hk.1 hf)
      have hl2' : l2 = ls := by
        rw [hls] at hl2
        exact (List.append_cancel_left hl2).symm
      subst hl2'
      refine ⟨hr, ?_⟩
      intro n hn
      obtain ⟨h1, h2⟩ := hall n hn
      refine ⟨List.mem_append_right _ h1, fun hp => List.mem_append_right _ (h2 ?_)⟩
      simp only [Coll.present, Coll.lookup, svcColl] at hp ⊢
      rw [show wd.store.services = w.store.services from hk.2]
      exact hp
    cases rs with
    | some e =>
      simp only []
      refine ⟨ld ++ ls, htr, hclaim2, ?_⟩
      intro hf
      obtain ⟨h1, h2, _⟩ := hrest hf
      exact absurd h2 (by simp)
    | none =>
      simp only []
      refine ⟨ld ++ ls, htr, hclaim2, ?_⟩
      intro hf
      obtain ⟨h1, _, h3⟩ := hrest hf
      exact ⟨h1, fun _ => ⟨trivial, h3⟩⟩

/-- C10, as stated, fails: ProxySQL is absent from the spec, but the pass ends
at the HAProxy stage (its `updatePod` fails), so the ProxySQL workload and
endpoint that exist are neither looked up nor deleted. -/
theorem disabled_tier_not_reached_counterexample :
    (Reconcile (failingEnv (.updatePod .haproxy) (.other "rollout failed")) none "ns/c1"
        (exampleWorld
          { exampleStore haproxyCluster
              [{ name := "c1-proxysql", replicas := some 3, templateAnnotations := none }] [] with
            services := [exampleService "c1-proxysql" [barePort "mysql" 3306]] } [])).err =
      some (.wrap (.other "rollout failed") "HAProxy upgrade error") ∧
    (Reconcile (failingEnv (.updatePod .haproxy) (.other "rollout failed")) none "ns/c1"
        (exampleWorld
          { exampleStore haproxyCluster
              [{ name := "c1-proxysql", replicas := some 3, templateAnnotations := none }] [] with
            services := [exampleService "c1-proxysql" [barePort "mysql" 3306]] } [])).world.trace.all
      (fun c => c != .get .statefulSet "c1-proxysql" && c != .delete .statefulSet "c1-proxysql" &&
        c != .delete .service "c1-proxysql" && c != .stage (.disabledTier .proxysql)) = true ∧
    haproxyCluster.spec.proxysql = none ∧ haproxyCluster.deletionTimestamp = none := by
  decide

/-- The statement of a routing tier that is disabled or absent in the spec,
run from any world: it looks up the workload and, when no store call fails,
deletes it if it is present; when that step returns no error it looks up both
endpoints and deletes each one that is present; claims are touched only when
the storage finalizer is listed. -/
theorem disabled_stage_requests_deletion (env : Env) (o : Cluster) (err : Option Err)
    (w : World) :
    (tierEnabled o.spec.haproxy = false →
      RequestsDeletion env .haproxy false [env.haproxyServiceName, env.haproxyReplicasName] w
        (haproxyStage env o err w)) ∧
    (tierEnabled o.spec.proxysql = false →
      RequestsDeletion env .proxysql (wantsProxysqlPVC o.finalizers)
        [env.proxysqlServiceName, env.proxysqlUnreadyName] w (proxysqlStage env o err w)) ∧
    (wantsProxysqlPVC o.finalizers = true ↔ "delete-proxysql-pvc" ∈ o.finalizers) := by
  refine ⟨?_, ?_, wantsProxysqlPVC_iff o.finalizers⟩
  · intro h
    have hs : haproxyStage env o = haproxyDisabledStage env := by
      unfold haproxyStage
      unfold tierEnabled at h
      cases hh : o.spec.haproxy with
      | none => rfl
      | some p =>
        rw [hh] at h
        simp only at h
        simp [h]
    rw [hs]
    exact disabled_shape env .haproxy false _ _ _ _ _ err w
  · intro h
    have hs : proxysqlStage env o = proxysqlDisabledStage env o := by
      unfold proxysqlStage
      unfold tierEnabled at h
      cases hh : o.spec.proxysql with
      | none => rfl
      | some p =>
        rw [hh] at h
        simp only at h
        simp [h]
    rw [hs]
    exact disabled_shape env .proxysql _ _ _ _ _ _ err w

theorem next_assoc (a b c : StageFn) : next (next a b) c = next a (next b c) := by
  funext err w
  unfold next
  cases a err w with
  | mk r w1 =>
    cases r with
    | error x => rfl
    | ok e1 => rfl

theorem body_split (env : Env) (o : Cluster) (changed : Bool) :
    next (preBranch env o changed) (convergence env o) =
      next (untilHaproxy env o changed)
        (next (haproxyStage env o) (next (proxysqlStage env o) (afterProxysql env))) := by
  simp only [untilHaproxy, convergence, afterProxysql, next_assoc]

theorem afterProxysql_ext {P : Call → Prop} (hP : ∀ c, c.isBodyWork = true → P c)
    (env : Env) (err : Option Err) (w : World) : Ext P w (afterProxysql env err w).2 := by
  have hc : ∀ c w, Ext P w (callCollab env c w).2 := fun c w => callCollab_ext env c w (hP _ rfl)
  have hm : ∀ s err w, Ext P w (mark s err w).2 := fun s err w => mark_ext s (hP _ rfl) err w
  unfold afterProxysql
  exact next_ext _ _ (hm _) (next_ext _ _ (stepOuter_ext _ _ _ (hc _))
    (next_ext _ _ (hm _) (next_ext _ _ (stepInner_ext _ _ _ (wrapped_ext _ _ (hc _)))
    (next_ext _ _ (hm _) (stepOuter_ext _ _ _ (hc _)))))) err w

/-- A pass that gets past normalization for an entity not marked for deletion
and whose statements `before` return without leaving `Reconcile` goes on with
the statement `stage`: the trace of the pass continues the trace `stage` leaves. -/
theorem pass_reaches (env : Env) (uerr : Option Err) (request : String) (w : World)
    (o o1 : Cluster) (changed : Bool) (hfetch : fetched request w = some o)
    (hwait : env.shouldWaitForTokenIssue o = false)
    (hcheck : env.checkNSetDefaults o = (o1, changed, none))
    (hdel : o1.deletionTimestamp = none)
    (before stage rest : StageFn)
    (hsplit : next (preBranch env o1 changed) (convergence env o1) =
      next before (next stage rest))
    (hrest : ∀ err w, Ext (fun _ => True) w (rest err w).2)
    (e1 : Option Err) (w1 : World)
    (hbefore : before none ((acquire request w).step (.get .cluster request)) = (.ok e1, w1)) :
    ∃ l, (Reconcile env uerr request w).world.trace = (stage e1 w1).2.trace ++ l := by
  have hbody : ∃ l, (reconcileBody env o1 changed
      ((acquire request w).step (.get .cluster request))).2.trace =
        (stage e1 w1).2.trace ++ l := by
    unfold reconcileBody
    rw [hdel]
    simp only [Option.isSome_none, Bool.false_eq_true, if_false]
    rw [hsplit]
    have hrun : next before (next stage rest) none
        ((acquire request w).step (.get .cluster request)) = next stage rest e1 w1 := by
      conv_lhs => unfold next
      rw [hbefore]
      rfl
    rw [hrun]
    unfold next
    cases hs : stage e1 w1 with
    | mk r w2 =>
      cases r with
      | error x => exact ⟨[], by simp⟩
      | ok e2 =>
        obtain ⟨l, hl, -⟩ := hrest e2 w2
        simp only []
        cases hr : rest e2 w2 with
        | mk r3 w3 =>
          rw [hr] at hl
          cases r3 <;> exact ⟨l, hl⟩
  obtain ⟨l, hl⟩ := hbody
  rw [Reconcile_after_defaults env uerr request w o hfetch hwait (by rw [hcheck])]
  rw [hcheck]
  simp only []
  rw [release_trace]
  simp only [World.log]
  rw [hl]
  exact ⟨l ++ ([.updateStatus (reconcileBody env o1 changed
    ((acquire request w).step (.get .cluster request))).1.errVar] ++
    [.storeUpdateSync request updateDone, .unlock request]), by
      simp only [List.append_assoc]⟩

/-- C10 (amended): for every entity not marked for deletion and each routing
tier that is disabled or absent in the spec, a pass of `Reconcile` in which
every earlier statement succeeds goes on with the tier's statement: the pass
looks up the tier's workload and, when no store call fails, deletes it if it
is present; when that step returns no error the pass looks up both endpoints
of the tier and deletes each one that is present. Persistent volume claims are
touched by that statement only if the storage finalizer is among the
finalizers: never for HAProxy, and for ProxySQL the flag `deletePVC` is true
exactly when `delete-proxysql-pvc` is listed. -/
theorem Reconcile_disabled_tier (env : Env) (uerr : Option Err) (request : String) (w : World)
    (o o1 : Cluster) (changed : Bool) (hfetch : fetched request w = some o)
    (hwait : env.shouldWaitForTokenIssue o = false)
    (hcheck : env.checkNSetDefaults o = (o1, changed, none))
    (hdel : o1.deletionTimestamp = none) :
    (tierEnabled o1.spec.haproxy = false → ∀ e1 w1,
      untilHaproxy env o1 changed none ((acquire request w).step (.get .cluster request)) =
        (.ok e1, w1) →
      RequestsDeletion env .haproxy false [env.haproxyServiceName, env.haproxyReplicasName] w1
        (haproxyStage env o1 e1 w1) ∧
      ∃ l, (Reconcile env uerr request w).world.trace =
        (haproxyStage env o1 e1 w1).2.trace ++ l) ∧
    (tierEnabled o1.spec.proxysql = false → ∀ e1 w1,
      untilProxysql env o1 changed none ((acquire request w).step (.get .cluster request)) =
        (.ok e1, w1) →
      RequestsDeletion env .proxysql (wantsProxysqlPVC o1.finalizers)
        [env.proxysqlServiceName, env.proxysqlUnreadyName] w1 (proxysqlStage env o1 e1 w1) ∧
      ∃ l, (Reconcile env uerr request w).world.trace =
        (proxysqlStage env o1 e1 w1).2.trace ++ l) ∧
    (wantsProxysqlPVC o1.finalizers = true ↔ "delete-proxysql-pvc" ∈ o1.finalizers) := by
  have htrue : ∀ c : Call, c.isBodyWork = true → (fun _ : Call => True) c := fun _ _ => trivial
  refine ⟨?_, ?_, wantsProxysqlPVC_iff o1.finalizers⟩
  · intro hoff e1 w1 hbefore
    refine ⟨(disabled_stage_requests_deletion env o1 e1 w1).1 hoff, ?_⟩
    exact pass_reaches env uerr request w o o1 changed hfetch hwait hcheck hdel
      (untilHaproxy env o1 changed) (haproxyStage env o1)
      (next (proxysqlStage env o1) (afterProxysql env)) (body_split env o1 changed)
      (fun err w => next_ext _ _ (proxysqlStage_ext htrue env o1) (afterProxysql_ext htrue env)
        err w)
      e1 w1 hbefore
  · intro hoff e1 w1 hbefore
    refine ⟨(disabled_stage_requests_deletion env o1 e1 w1).2.1 hoff, ?_⟩
    exact pass_reaches env uerr request w o o1 changed hfetch hwait hcheck hdel
      (untilProxysql env o1 changed) (proxysqlStage env o1) (afterProxysql env)
      (by rw [body_split, untilProxysql, next_assoc])
      (afterProxysql_ext htrue env) e1 w1 hbefore

theorem Reconcile_disabled_tier_witness :
    (RequestsDeletion exampleEnv .haproxy false
        [exampleEnv.haproxyServiceName, exampleEnv.haproxyReplicasName]
        (untilHaproxy exampleEnv exampleCluster false none
          ((acquire "ns/c1" leftoverWorld).step (.get .cluster "ns/c1"))).2
        (haproxyStage exampleEnv exampleCluster none
          (untilHaproxy exampleEnv exampleCluster false none
            ((acquire "ns/c1" leftoverWorld).step (.get .cluster "ns/c1"))).2) ∧
      ∃ l, (Reconcile exampleEnv none "ns/c1" leftoverWorld).world.trace =
        (haproxyStage exampleEnv exampleCluster none
          (untilHaproxy exampleEnv exampleCluster false none
            ((acquire "ns/c1" leftoverWorld).step (.get .cluster "ns/c1"))).2).2.trace ++ l) ∧
    (∃ l, (Reconcile exampleEnv none "ns/c1" leftoverWorld).world.trace =
        (proxysqlStage exampleEnv exampleCluster none
          (untilProxysql exampleEnv exampleCluster false none
            ((acquire "ns/c1" leftoverWorld).step (.get .cluster "ns/c1"))).2).2.trace ++ l) ∧
    (Reconcile exampleEnv none "ns/c1" leftoverWorld).err = none ∧
    Call.delete .statefulSet "c1-haproxy" ∈
      (Reconcile exampleEnv none "ns/c1" leftoverWorld).world.trace ∧
    Call.delete .service "c1-proxysql" ∈
      (Reconcile exampleEnv none "ns/c1" leftoverWorld).world.trace :=
  have h := Reconcile_disabled_tier exampleEnv none "ns/c1" leftoverWorld exampleCluster
    exampleCluster false (by decide) rfl rfl rfl
  ⟨h.1 rfl none _ rfl, (h.2.1 rfl none _ rfl).2, by decide, by decide, by decide⟩


/-! ## Repeated passes -/

/-- C8, as stated, fails: a first pass converges the example entity, a second
pass over the unchanged spec and store also succeeds and leaves the store as
it is, and still issues a `Create` for the primary workload and an `Update`
for its disruption budget. -/
theorem second_pass_writes_counterexample :
    firstPass.err = none ∧ secondPass.err = none ∧
    secondPass.world.store = firstPass.world.store ∧
    secondPass.world.trace.filter Call.isChildWrite =
      [.create (.statefulSet (nodeSet exampleEnv)),
        .update (.pdb { name := "c1-pxc",
                        spec := { minAvailable := none, maxUnavailable := some (intstrFromInt 1),
                                  selector := [] } })] := by
  decide

theorem World.step_calm (w : World) (c : Call) (h : w.faults = []) :
    w.step c = w.move [c] w.store := by
  cases w
  simp_all [World.step, World.move]

theorem World.move_move (w : World) (l1 l2 : List Call) (s1 s2 : Store) :
    (w.move l1 s1).move l2 s2 = w.move (l1 ++ l2) s2 := by
  simp [World.move, List.append_assoc]

theorem World.move_nil (w : World) (s : Store) (h : w.store = s) : w.move [] s = w := by
  cases w
  simp_all [World.move]

theorem World.next_calm (w : World) (h : w.faults = []) : w.next = none := by
  simp [World.next, h]

theorem get_found {α : Type} (c : Coll α) (n : String) (w : World) (x : α)
    (hf : w.faults = []) (hl : c.lookup w.store n = some x) :
    clientGet c n w = (.ok x, w.move [.get c.kind n] w.store) := by
  rw [clientGet_eq, World.next_calm w hf, hl, World.step_calm w _ hf]

theorem get_missing {α : Type} (c : Coll α) (n : String) (w : World)
    (hf : w.faults = []) (hl : c.lookup w.store n = none) :
    clientGet c n w = (.error (.notFound n), w.move [.get c.kind n] w.store) := by
  rw [clientGet_eq, World.next_calm w hf, hl, World.step_calm w _ hf]

theorem create_exists {α : Type} (c : Coll α) (x : α) (w : World)
    (hf : w.faults = []) (hl : c.present w.store (c.nameOf x) = true) :
    clientCreate c x w =
      (some (.alreadyExists (c.nameOf x)), w.move [.create (c.obj x)] w.store) := by
  rw [clientCreate_eq, World.next_calm w hf, World.step_calm w _ hf]
  unfold Coll.present at hl
  cases h : c.lookup w.store (c.nameOf x) with
  | none => rw [h] at hl; simp at hl
  | some y => rfl

theorem update_present {α : Type} (c : Coll α) (x : α) (w : World)
    (hf : w.faults = []) (hl : c.present w.store (c.nameOf x) = true) :
    clientUpdate c x w =
      (none, w.move [.update (c.obj x)] (c.setItems w.store
        ((c.items w.store).map (fun y => if c.nameOf y = c.nameOf x then x else y)))) := by
  rw [clientUpdate_eq, World.next_calm w hf, World.step_calm w _ hf]
  unfold Coll.present at hl
  cases h : c.lookup w.store (c.nameOf x) with
  | none => rw [h] at hl; simp at hl
  | some y => rfl

theorem holds_present {α : Type} [DecidableEq α] (c : Coll α) (s : Store) (x : α)
    (h : c.holds s x = true) : c.present s (c.nameOf x) = true := by
  unfold Coll.holds at h
  simp only [Bool.and_eq_true, List.any_eq_true] at h
  obtain ⟨⟨y, hy, hn⟩, _⟩ := h
  unfold Coll.present Coll.lookup
  rw [List.find?_isSome]
  exact ⟨y, hy, hn⟩

theorem holds_lookup {α : Type} [DecidableEq α] (c : Coll α) (s : Store) (x : α)
    (h : c.holds s x = true) : c.lookup s (c.nameOf x) = some x := by
  have hp := holds_present c s x h
  unfold Coll.present at hp
  cases hl : c.lookup s (c.nameOf x) with
  | none => rw [hl] at hp; simp at hp
  | some y =>
    have hy := lookup_mem c s _ y hl
    have hn := lookup_name c s _ y hl
    unfold Coll.holds at h
    simp only [Bool.and_eq_true, List.all_eq_true] at h
    have := h.2 y hy
    simp [hn] at this
    rw [this]

theorem holds_map {α : Type} [DecidableEq α] (c : Coll α) (s : Store) (x : α)
    (h : c.holds s x = true) :
    (c.items s).map (fun y => if c.nameOf y = c.nameOf x then x else y) = c.items s := by
  unfold Coll.holds at h
  simp only [Bool.and_eq_true, List.all_eq_true] at h
  have hall := h.2
  conv => rhs; rw [← List.map_id (c.items s)]
  apply List.map_congr_left
  intro y hy
  by_cases hn : c.nameOf y = c.nameOf x
  · have := hall y hy
    simp [hn] at this
    simp [hn, this]
  · simp [hn]

theorem update_held {α : Type} [DecidableEq α] (c : Coll α) (x : α) (w : World)
    (hlaw : ∀ s, c.setItems s (c.items s) = s)
    (hf : w.faults = []) (hh : c.holds w.store x = true) :
    clientUpdate c x w = (none, w.move [.update (c.obj x)] w.store) := by
  rw [update_present c x w hf (holds_present c _ x hh), holds_map c _ x hh, hlaw]

/-! ### Composition -/

theorem RunsF.skip (s : Store) : RunsF s (fun w => (none, w)) [] s := by
  intro w _ hs
  exact ⟨[], by rw [World.move_nil w s hs], rfl⟩

theorem RunsF.andThen {s s1 s2 : Store} {a b : World → Option Err × World} {W1 W2 : List Call}
    (ha : RunsF s a W1 s1) (hb : RunsF s1 b W2 s2) : RunsF s (andThen a b) (W1 ++ W2) s2 := by
  intro w hf hs
  obtain ⟨l1, e1, f1⟩ := ha w hf hs
  obtain ⟨l2, e2, f2⟩ := hb (w.move l1 s1) hf rfl
  refine ⟨l1 ++ l2, ?_, by rw [List.filter_append, f1, f2]⟩
  unfold PXC.andThen
  rw [e1]
  simp only []
  rw [e2, World.move_move]

theorem RunsF.wrapped {s s1 : Store} {a : World → Option Err × World} {W : List Call}
    (msg : String) (ha : RunsF s a W s1) : RunsF s (wrapped a msg) W s1 := by
  intro w hf hs
  obtain ⟨l1, e1, f1⟩ := ha w hf hs
  refine ⟨l1, ?_, f1⟩
  unfold PXC.wrapped
  rw [e1]
  rfl

theorem RunsF.onlyIf {s : Store} {a : World → Option Err × World} {W : List Call}
    (c : Bool) (ha : c = true → RunsF s a W s) :
    RunsF s (onlyIf c a) (if c = true then W else []) s := by
  intro w hf hs
  unfold PXC.onlyIf
  cases c with
  | true => simpa using ha rfl w hf hs
  | false => simpa using RunsF.skip s w hf hs

theorem RunsF.congr {s s1 : Store} {a : World → Option Err × World} {W W2 : List Call}
    (h : W = W2) (ha : RunsF s a W s1) : RunsF s a W2 s1 := h ▸ ha

theorem RunsF.same {s : Store} {a b : World → Option Err × World} {W1 W2 : List Call}
    (ha : RunsF s a W1 s) (hb : RunsF s b W2 s) : RunsF s (PXC.andThen a b) (W1 ++ W2) s :=
  RunsF.andThen ha hb

theorem RunsF.collab (env : Env) (hok : ∀ c, env.outcome c = none) (s : Store) (c : Collab) :
    RunsF s (callCollab env c) [] s := by
  intro w _ hs
  refine ⟨[.collab c], ?_, rfl⟩
  unfold callCollab
  rw [hok c]
  cases w
  simp_all [World.log, World.move]

theorem RunsF.ownerRef (env : Env) (hown : ∀ k, env.ownerRef k = none) (s : Store) (k : Kind) :
    RunsF s (setControllerReference env k) [] s := by
  intro w _ hs
  refine ⟨[], ?_, rfl⟩
  unfold setControllerReference
  rw [hown k, World.move_nil w s hs]


/-! ### The helpers of `deploy` on a converged store -/

theorem present_lookup {α : Type} (c : Coll α) (s : Store) (n : String)
    (h : c.present s n = true) : ∃ x, c.lookup s n = some x := by
  unfold Coll.present at h
  cases hl : c.lookup s n with
  | none => rw [hl] at h; simp at h
  | some x => exact ⟨x, rfl⟩

theorem createOrUpdateConfigmap_runs (s : Store) (cm : ConfigMap)
    (h : (match cmColl.lookup s cm.name with
      | some c => c.data == cm.data
      | none => false) = true) :
    RunsF s (createOrUpdateConfigmap cm) [] s := by
  intro w hf hs
  subst hs
  cases hl : cmColl.lookup w.store cm.name with
  | none => rw [hl] at h; simp at h
  | some c =>
    rw [hl] at h
    have h2 : (c.data == cm.data) = true := h
    refine ⟨[.get .configMap cm.name], ?_, rfl⟩
    unfold createOrUpdateConfigmap
    rw [get_found cmColl cm.name w c hf hl]
    simp only [h2, Bool.not_true, Bool.false_eq_true, if_false]
    rfl

theorem logCollectorConfigMap_runs (s : Store) (cm : ConfigMap)
    (h : cmColl.holds s cm = true) :
    RunsF s (logCollectorConfigMap cm)
      [.create (.configMap cm), .update (.configMap cm)] s := by
  intro w hf hs
  subst hs
  refine ⟨[.create (.configMap cm), .update (.configMap cm)], ?_, rfl⟩
  unfold logCollectorConfigMap
  rw [create_exists cmColl cm w hf (holds_present cmColl _ cm h)]
  simp only [Err.isAlreadyExists, if_true]
  unfold wrapped
  rw [update_held cmColl cm (w.move [.create (cmColl.obj cm)] w.store) (fun _ => rfl) hf h,
    World.move_move]
  rfl

theorem createService_runs (env : Env) (hown : ∀ k, env.ownerRef k = none) (s : Store)
    (svc : Service) (h : svcColl.present s svc.name = true) :
    RunsF s (createService env svc) [] s := by
  intro w hf hs
  subst hs
  obtain ⟨x, hl⟩ := present_lookup svcColl _ _ h
  refine ⟨[.get .service svc.name], ?_, rfl⟩
  unfold createService setControllerReference
  rw [hown]
  simp only []
  rw [get_found svcColl svc.name w x hf hl]
  rfl

theorem createWorkload_runs (s : Store) (set : StatefulSet) (msg : String)
    (h : stsColl.present s set.name = true) :
    RunsF s (createWorkload set msg) [.create (.statefulSet set)] s := by
  intro w hf hs
  subst hs
  refine ⟨[.create (.statefulSet set)], ?_, rfl⟩
  unfold createWorkload
  rw [create_exists stsColl set w hf h]
  rfl

theorem reconcilePDB_runs (env : Env) (hown : ∀ k, env.ownerRef k = none) (s : Store)
    (spec : Option PodDisruptionBudgetSpec) (t : Tier) (h : budgetHeld env s spec t = true) :
    RunsF s (reconcilePDB env spec t) (budgetWrites env spec t) s := by
  intro w hf hs
  subst hs
  cases spec with
  | none => exact ⟨[], by rw [World.move_nil w _ rfl]; rfl, rfl⟩
  | some sp =>
    have hh : pdbColl.holds w.store (env.podDisruptionBudget sp t) = true := h
    have hl : pdbColl.lookup w.store (env.podDisruptionBudget sp t).name =
        some (env.podDisruptionBudget sp t) := holds_lookup pdbColl _ _ hh
    have heta : PodDisruptionBudget.mk (env.podDisruptionBudget sp t).name
        (env.podDisruptionBudget sp t).spec = env.podDisruptionBudget sp t := rfl
    refine ⟨[.get .pdb (env.podDisruptionBudget sp t).name,
      .update (.pdb (env.podDisruptionBudget sp t))], ?_, rfl⟩
    unfold reconcilePDB setControllerReference
    simp only []
    rw [hown]
    simp only []
    rw [get_found pdbColl _ w _ hf hl]
    simp only []
    rw [heta, update_held pdbColl _ (w.move [.get pdbColl.kind (env.podDisruptionBudget sp t).name]
      w.store) (fun _ => rfl) hf hh, World.move_move]
    rfl

theorem budgetStep_runs (env : Env) (hown : ∀ k, env.ownerRef k = none) (s : Store)
    (name : String) (spec : Option PodDisruptionBudgetSpec) (t : Tier) (msg : String)
    (hp : stsColl.present s name = true) (h : budgetHeld env s spec t = true) :
    RunsF s (budgetStep env name spec t msg) (budgetWrites env spec t) s := by
  intro w hf hs
  subst hs
  obtain ⟨x, hl⟩ := present_lookup stsColl _ _ hp
  obtain ⟨l, e, f⟩ := RunsF.wrapped ("PodDisruptionBudget for " ++ name)
    (reconcilePDB_runs env hown w.store spec t h)
    (w.move [.get stsColl.kind name] w.store) hf rfl
  refine ⟨[.get .statefulSet name] ++ l, ?_, ?_⟩
  · unfold budgetStep
    rw [get_found stsColl name w x hf hl]
    simp only []
    rw [e, World.move_move]
    rfl
  · rw [List.filter_append, f]
    rfl

theorem internalSecretHash_runs (env : Env) (hok : ∀ c, env.outcome c = none) (s : Store) :
    RunsF s (internalSecretHash env) [] s := by
  intro w hf hs
  obtain ⟨l, e, f⟩ := RunsF.collab env hok s (.getSecretHash .sslInternal) w hf hs
  refine ⟨l, ?_, f⟩
  unfold internalSecretHash
  rw [e]

theorem configBlock_runs (env : Env) (hown : ∀ k, env.ownerRef k = none) (s : Store)
    (msg1 msg2 : String) (cm : ConfigMap)
    (h : (match cmColl.lookup s cm.name with
      | some c => c.data == cm.data
      | none => false) = true) :
    RunsF s (andThen (wrapped (setControllerReference env .cluster) msg1)
      (wrapped (createOrUpdateConfigmap cm) msg2)) [] s :=
  RunsF.andThen (RunsF.wrapped _ (RunsF.ownerRef env hown s _))
    (RunsF.wrapped _ (createOrUpdateConfigmap_runs s cm h))

theorem reconcileConfigMap_runs (env : Env) (hok : ∀ c, env.outcome c = none)
    (hown : ∀ k, env.ownerRef k = none) (s : Store) (cr : Cluster)
    (hw : ∀ cm ∈ wantedConfigMaps env cr,
      (match cmColl.lookup s cm.name with
        | some c => c.data == cm.data
        | none => false) = true)
    (hlc : ∀ cm ∈ logCollectorMaps env cr, cmColl.holds s cm = true) :
    RunsF s (reconcileConfigMap env cr)
      ((logCollectorMaps env cr).flatMap
        (fun cm => [Call.create (.configMap cm), Call.update (.configMap cm)])) s := by
  unfold reconcileConfigMap
  have b1 := RunsF.onlyIf (s := s)
    (decide (env.compareVersionWith "1.3.0" ≥ 0) &&
      (memoryOf cr.spec.pxc.resources PodResources.limits != "" ||
        memoryOf cr.spec.pxc.resources PodResources.requests != ""))
    (fun hc => RunsF.andThen (RunsF.wrapped "new auto-config map"
        (RunsF.collab env hok s .newAutoTuneConfigMap))
      (configBlock_runs env hown s "set auto-config controller ref" "auto-config config map"
        (env.newAutoTuneConfigMap ("auto-" ++
          labelGet (env.appLabels .pxc) "app.kubernetes.io/instance" ++ "-" ++
          labelGet (env.appLabels .pxc) "app.kubernetes.io/component"))
        (hw _ (by simp [wantedConfigMaps, hc]))))
  have b2 := RunsF.onlyIf (s := s) (cr.spec.pxc.configuration != "")
    (fun hc => configBlock_runs env hown s "set controller ref" "pxc config map"
      (env.newConfigMap (labelGet (env.appLabels .pxc) "app.kubernetes.io/instance" ++ "-" ++
        labelGet (env.appLabels .pxc) "app.kubernetes.io/component") "init.cnf"
        cr.spec.pxc.configuration)
      (hw _ (by simp [wantedConfigMaps, hc])))
  refine RunsF.congr (W := [] ++ ([] ++ ([] ++ ([] ++ (logCollectorMaps env cr).flatMap
    (fun cm => [Call.create (.configMap cm), Call.update (.configMap cm)]))))) (by simp) ?_
  refine RunsF.same (RunsF.congr ?_ b1) (RunsF.same (RunsF.congr ?_ b2)
    (RunsF.same ?_ (RunsF.same ?_ ?_)))
  · simp
  · simp
  · cases hp : cr.spec.proxysql with
    | none => exact RunsF.skip s
    | some p =>
      refine RunsF.congr ?_ (RunsF.onlyIf (p.enabled && p.configuration != "")
        (fun hc => configBlock_runs env hown s "set controller ref ProxySQL"
          "proxysql config map" _ (hw _ (by simp [wantedConfigMaps, hp, hc]))))
      simp
  · cases hp : cr.spec.haproxy with
    | none => exact RunsF.skip s
    | some p =>
      refine RunsF.congr ?_ (RunsF.onlyIf (p.enabled && p.configuration != "")
        (fun hc => configBlock_runs env hown s "set controller ref HAProxy"
          "haproxy config map" _ (hw _ (by simp [wantedConfigMaps, hp, hc]))))
      simp
  · cases hp : cr.spec.logCollector with
    | none =>
      rw [show logCollectorMaps env cr = [] by simp [logCollectorMaps, hp]]
      exact RunsF.skip s
    | some lc =>
      by_cases hc : (lc.configuration != "" && decide (env.compareVersionWith "1.7.0" ≥ 0)) = true
      · have hm : logCollectorMaps env cr =
            [env.newConfigMap (labelGet (env.appLabels .pxc) "app.kubernetes.io/instance" ++
              "-logcollector") "fluentbit_custom.conf" lc.configuration] := by
          simp only [logCollectorMaps, hp, hc, if_true]
        refine RunsF.congr ?_ (RunsF.onlyIf _ (fun _ => RunsF.andThen
          (RunsF.wrapped "set controller ref LogCollector" (RunsF.ownerRef env hown s .cluster))
          (logCollectorConfigMap_runs s _ (hlc _ (by rw [hm]; simp)))))
        rw [hm]
        simp [hc]
      · have hm : logCollectorMaps env cr = [] := by
          unfold logCollectorMaps
          rw [hp]
          exact if_neg hc
        rw [hm]
        refine RunsF.congr ?_ (RunsF.onlyIf (W := []) _ (fun h => absurd h hc))
        simp


/-! ### `deploy` on a converged store -/

theorem tierBlock_runs (env : Env) (hok : ∀ c, env.outcome c = none)
    (hown : ∀ k, env.ownerRef k = none) (s : Store) (c : Collab) (set : StatefulSet)
    (svc1 svc2 : Service) (spec : Option PodDisruptionBudgetSpec) (t : Tier)
    (m1 m2 m3 m4 m5 : String) (h : tierDeployed env s set svc1 svc2 spec t = true) :
    RunsF s (andThen (wrapped (callCollab env c) m1)
      (andThen (setControllerReference env .cluster)
      (andThen (createWorkload set m2)
      (andThen (wrapped (createService env svc1) m3)
      (andThen (wrapped (createService env svc2) m4)
        (budgetStep env set.name spec t m5))))))
      ([.create (.statefulSet set)] ++ budgetWrites env spec t) s := by
  simp only [tierDeployed, Bool.and_eq_true] at h
  obtain ⟨⟨⟨h1, h2⟩, h3⟩, h4⟩ := h
  refine RunsF.congr ?_ (RunsF.andThen (RunsF.wrapped m1 (RunsF.collab env hok s c))
    (RunsF.andThen (RunsF.ownerRef env hown s .cluster)
    (RunsF.andThen (createWorkload_runs s set m2 h1)
    (RunsF.andThen (RunsF.wrapped m3 (createService_runs env hown s svc1 h2))
    (RunsF.andThen (RunsF.wrapped m4 (createService_runs env hown s svc2 h3))
      (budgetStep_runs env hown s set.name spec t m5 h1 h4))))))
  simp

theorem converged_maps (env : Env) (cr : Cluster) (s : Store) (hc : converged env cr s = true) :
    (∀ cm ∈ wantedConfigMaps env cr,
      (match cmColl.lookup s cm.name with
        | some c => c.data == cm.data
        | none => false) = true) ∧
    (∀ cm ∈ logCollectorMaps env cr, cmColl.holds s cm = true) := by
  simp only [converged, Bool.and_eq_true, List.all_eq_true] at hc
  exact ⟨hc.1.1.1.1.1.1, hc.1.1.1.1.1.2⟩

theorem converged_pxc (env : Env) (cr : Cluster) (s : Store) (hc : converged env cr s = true) :
    tierDeployed env s (nodeSet env) env.newServicePXCUnready env.newServicePXC
      cr.spec.pxc.podDisruptionBudget .pxc = true ∧
    portsHeld s env.newServicePXC = true ∧ portsHeld s env.newServicePXCUnready = true := by
  simp only [converged, Bool.and_eq_true, List.all_eq_true] at hc
  exact ⟨hc.1.1.1.1.2, hc.1.1.1.2, hc.1.1.2⟩

theorem converged_haproxy (env : Env) (cr : Cluster) (s : Store)
    (hc : converged env cr s = true) :
    (match cr.spec.haproxy with
      | some h =>
        if h.enabled then
          tierDeployed env s (haProxySet env) env.newServiceHAProxy env.newServiceHAProxyReplicas
              h.podDisruptionBudget .haproxy &&
            serviceHeld s env.haproxyServiceName (newHAProxyService env h) &&
            serviceHeld s env.haproxyReplicasName (newHAProxyServiceReplicas h)
        else tierRemoved env s .haproxy env.haproxyServiceName env.haproxyReplicasName
      | none => tierRemoved env s .haproxy env.haproxyServiceName env.haproxyReplicasName) =
      true := by
  simp only [converged, Bool.and_eq_true, List.all_eq_true] at hc
  exact hc.1.2

theorem converged_proxysql (env : Env) (cr : Cluster) (s : Store)
    (hc : converged env cr s = true) :
    (match cr.spec.proxysql with
      | some p =>
        if p.enabled then
          tierDeployed env s (proxySet env) env.newServiceProxySQL env.newServiceProxySQLUnready
            p.podDisruptionBudget .proxysql
        else tierRemoved env s .proxysql env.proxysqlServiceName env.proxysqlUnreadyName
      | none => tierRemoved env s .proxysql env.proxysqlServiceName env.proxysqlUnreadyName) =
      true := by
  simp only [converged, Bool.and_eq_true, List.all_eq_true] at hc
  exact hc.2

theorem deploy_runs (env : Env) (hok : ∀ c, env.outcome c = none)
    (hown : ∀ k, env.ownerRef k = none) (s : Store) (cr : Cluster)
    (hc : converged env cr s = true) :
    RunsF s (deploy env cr)
      ((logCollectorMaps env cr).flatMap
          (fun cm => [Call.create (.configMap cm), Call.update (.configMap cm)]) ++
        ([.create (.statefulSet (nodeSet env))] ++
          budgetWrites env cr.spec.pxc.podDisruptionBudget .pxc) ++
        tierWrites env cr.spec.haproxy (haProxySet env) .haproxy ++
        tierWrites env cr.spec.proxysql (proxySet env) .proxysql) s := by
  obtain ⟨hw, hlc⟩ := converged_maps env cr s hc
  obtain ⟨hpxc, -, -⟩ := converged_pxc env cr s hc
  have hha := converged_haproxy env cr s hc
  have hps := converged_proxysql env cr s hc
  have hpxc2 := hpxc
  simp only [tierDeployed, Bool.and_eq_true] at hpxc2
  obtain ⟨⟨⟨h1, h2⟩, h3⟩, h4⟩ := hpxc2
  unfold deploy
  refine RunsF.congr (W := (logCollectorMaps env cr).flatMap
      (fun cm => [Call.create (.configMap cm), Call.update (.configMap cm)]) ++
    ([] ++ ([] ++ ([] ++ ([] ++ ([] ++ ([] ++ ([] ++ ([] ++
    ([.create (.statefulSet (nodeSet env))] ++ ([] ++ ([] ++
    (budgetWrites env cr.spec.pxc.podDisruptionBudget .pxc ++
    (tierWrites env cr.spec.haproxy (haProxySet env) .haproxy ++
      tierWrites env cr.spec.proxysql (proxySet env) .proxysql))))))))))))))
    (by simp) ?_
  refine RunsF.same (reconcileConfigMap_runs env hok hown s cr hw hlc)
    (RunsF.same (RunsF.wrapped _ (RunsF.collab env hok s _))
    (RunsF.same (RunsF.congr ?_ (RunsF.onlyIf (W := []) _ (fun _ => RunsF.collab env hok s _)))
    (RunsF.same (RunsF.wrapped _ (RunsF.collab env hok s _))
    (RunsF.same (RunsF.wrapped _ (RunsF.collab env hok s _))
    (RunsF.same (RunsF.wrapped _ (RunsF.collab env hok s _))
    (RunsF.same (internalSecretHash_runs env hok s)
    (RunsF.same (RunsF.wrapped _ (RunsF.collab env hok s _))
    (RunsF.same (RunsF.ownerRef env hown s _)
    (RunsF.same (createWorkload_runs s _ _ h1)
    (RunsF.same (RunsF.wrapped _ (createService_runs env hown s _ h2))
    (RunsF.same (RunsF.wrapped _ (createService_runs env hown s _ h3))
    (RunsF.same (budgetStep_runs env hown s _ _ _ _ h1 h4)
    (RunsF.same ?_ ?_)))))))))))))
  · simp
  · cases hsp : cr.spec.haproxy with
    | none => exact RunsF.skip s
    | some h =>
      rw [hsp] at hha
      simp only [tierWrites]
      refine RunsF.onlyIf h.enabled (fun he => tierBlock_runs env hok hown s _ _ _ _ _ _ _ _ _ _ _ ?_)
      simp only [he, if_true, Bool.and_eq_true] at hha
      exact hha.1.1
  · cases hsp : cr.spec.proxysql with
    | none => exact RunsF.skip s
    | some p =>
      rw [hsp] at hps
      simp only [tierWrites]
      refine RunsF.onlyIf p.enabled (fun he => tierBlock_runs env hok hown s _ _ _ _ _ _ _ _ _ _ _ ?_)
      simp only [he, if_true] at hps
      exact hps


/-! ### The statements of `Reconcile` on a converged store -/

theorem RunsS.next {s s1 s2 : Store} {a b : StageFn} {W1 W2 : List Call}
    (ha : RunsS s a W1 s1) (hb : RunsS s1 b W2 s2) : RunsS s (PXC.next a b) (W1 ++ W2) s2 := by
  intro err w hf hs
  obtain ⟨l1, e1, w1, h1, hf1, hs1, ht1, f1⟩ := ha err w hf hs
  obtain ⟨l2, e2, w2, h2, hf2, hs2, ht2, f2⟩ := hb e1 w1 hf1 hs1
  refine ⟨l1 ++ l2, e2, w2, ?_, hf2, hs2, ?_, by rw [List.filter_append, f1, f2]⟩
  · unfold PXC.next
    rw [h1]
    exact h2
  · rw [ht2, ht1, List.append_assoc]

theorem RunsS.first {s s2 : Store} {a b : StageFn} {W1 W2 : List Call}
    (ha : RunsS s a W1 s) (hb : RunsS s b W2 s2) : RunsS s (PXC.next a b) (W1 ++ W2) s2 :=
  RunsS.next ha hb

theorem RunsS.mark (s : Store) (st : Stage) : RunsS s (PXC.mark st) [] s := by
  intro err w hf hs
  exact ⟨[.stage st], err, w.log (.stage st), rfl, hf, hs, rfl, rfl⟩

theorem RunsS.stepOuter {s s1 : Store} {a : World → Option Err × World} {W : List Call}
    (res : Result) (msg : Option String) (ha : RunsF s a W s1) :
    RunsS s (PXC.stepOuter a res msg) W s1 := by
  intro err w hf hs
  obtain ⟨l, e, f⟩ := ha w hf hs
  refine ⟨l, none, w.move l s1, ?_, hf, rfl, rfl, f⟩
  unfold PXC.stepOuter
  rw [e]

theorem RunsS.stepInner {s s1 : Store} {a : World → Option Err × World} {W : List Call}
    (res : Result) (msg : Option String) (ha : RunsF s a W s1) :
    RunsS s (PXC.stepInner a res msg) W s1 := by
  intro err w hf hs
  obtain ⟨l, e, f⟩ := ha w hf hs
  refine ⟨l, err, w.move l s1, ?_, hf, rfl, rfl, f⟩
  unfold PXC.stepInner
  rw [e]

theorem RunsS.condStage {s : Store} {a : StageFn} (c : Bool) (ha : c = true → RunsS s a [] s) :
    RunsS s (PXC.condStage c a) [] s := by
  intro err w hf hs
  unfold PXC.condStage
  cases c with
  | true => simpa using ha rfl err w hf hs
  | false => exact ⟨[], err, w, rfl, hf, hs, (List.append_nil _).symm, rfl⟩

theorem RunsS.writes {s s1 : Store} {a : StageFn} {W W2 : List Call}
    (h : W = W2) (ha : RunsS s a W s1) : RunsS s a W2 s1 := h ▸ ha

theorem absent_lookup {α : Type} (c : Coll α) (s : Store) (n : String)
    (h : c.present s n = false) : c.lookup s n = none := by
  unfold Coll.present at h
  cases hl : c.lookup s n with
  | none => rfl
  | some x => rw [hl] at h; simp at h

theorem pxcServiceStep_runs (s : Store) (svc : Service) (h : portsHeld s svc = true) :
    RunsS s (pxcServiceStep svc) [] s := by
  intro err w hf hs
  subst hs
  unfold portsHeld at h
  cases hl : svcColl.lookup w.store svc.name with
  | none => rw [hl] at h; simp at h
  | some cur =>
    rw [hl] at h
    have h2 : (cur.spec.ports == svc.spec.ports) = true := h
    refine ⟨[.get .service svc.name], none, w.move [.get .service svc.name] w.store, ?_,
      hf, rfl, rfl, rfl⟩
    unfold pxcServiceStep
    rw [get_found svcColl svc.name w cur hf hl]
    simp only [h2, if_true]
    rfl

theorem needsUpdate_false (old new : Service)
    (hnames : (old.spec.ports.elems.map ServicePort.name).Nodup)
    (ht : old.spec.type = new.spec.type)
    (hp : List.Perm (old.spec.ports.elems.map portKey) (new.spec.ports.elems.map portKey))
    (he : old.spec.externalTrafficPolicy = new.spec.externalTrafficPolicy)
    (hr : old.spec.loadBalancerSourceRanges = new.spec.loadBalancerSourceRanges)
    (ha : old.annotations = new.annotations) (hl : old.labels = new.labels)
    (hs : old.spec.selector = new.spec.selector) :
    isServiceNeedsToUpdate old new = false := by
  have hports := (isServicesPortsEqual_iff_perm old.spec.ports.elems new.spec.ports.elems
    hnames).2 hp
  unfold isServiceNeedsToUpdate isServicesSpecEqual
  simp [ht, hports, he, hr, ha, hl, hs]

theorem serviceStep_runs (s : Store) (name : String) (wanted : Service → Service)
    (m1 m2 : String) (h : serviceHeld s name wanted = true) :
    RunsF s (serviceStep name wanted m1 m2) [] s := by
  intro w hf hs
  subst hs
  unfold serviceHeld at h
  cases hl : svcColl.lookup w.store name with
  | none => rw [hl] at h; simp at h
  | some old =>
    rw [hl] at h
    simp only [Bool.and_eq_true, decide_eq_true_eq] at h
    obtain ⟨⟨⟨⟨⟨⟨⟨g1, g2⟩, g3⟩, g4⟩, g5⟩, g6⟩, g7⟩, g8⟩ := h
    have h2 : isServiceNeedsToUpdate old (wanted old) = false :=
      needsUpdate_false old (wanted old) g1 g2 g3 g4 g5 g6 g7 g8
    refine ⟨[.get .service name], ?_, rfl⟩
    unfold serviceStep
    rw [get_found svcColl name w old hf hl]
    simp only [h2, Bool.false_eq_true, if_false]
    rfl

theorem deleteStatefulSet_absent (env : Env) (s : Store) (t : Tier) (delPVC : Bool)
    (h : stsColl.present s (env.appName t) = false) :
    RunsF s (deleteStatefulSet env t delPVC) [] s := by
  intro w hf hs
  subst hs
  refine ⟨[.get .statefulSet (env.appName t)], ?_, rfl⟩
  unfold deleteStatefulSet
  rw [get_missing stsColl _ w hf (absent_lookup stsColl _ _ h)]
  rfl

theorem deleteServices_absent (s : Store) (names : List String)
    (h : ∀ n ∈ names, svcColl.present s n = false) :
    RunsF s (deleteServices names) [] s := by
  induction names with
  | nil => exact RunsF.skip s
  | cons n rest ih =>
    intro w hf hs
    subst hs
    obtain ⟨l, e, f⟩ := ih (fun m hm => h m (List.mem_cons_of_mem _ hm))
      (w.move [.get svcColl.kind n] w.store) hf rfl
    refine ⟨[.get .service n] ++ l, ?_, ?_⟩
    · unfold deleteServices
      rw [get_missing svcColl n w hf (absent_lookup svcColl _ _ (h n (List.mem_cons_self _ _)))]
      simp only [Err.isNotFound, Bool.not_true, Bool.false_eq_true, if_false]
      rw [e, World.move_move]
      rfl
    · rw [List.filter_append, f]
      rfl

theorem disabledTier_parts (env : Env) (s : Store) (t : Tier) (n1 n2 : String)
    (h : tierRemoved env s t n1 n2 = true) :
    stsColl.present s (env.appName t) = false ∧
      ∀ n ∈ [n1, n2], svcColl.present s n = false := by
  simp only [tierRemoved, Bool.and_eq_true, Bool.not_eq_true'] at h
  refine ⟨h.1.1, ?_⟩
  intro n hn
  simp only [List.mem_cons, List.mem_singleton, List.not_mem_nil, or_false] at hn
  rcases hn with hn | hn
  · rw [hn]; exact h.1.2
  · rw [hn]; exact h.2

theorem haproxyDisabledStage_runs (env : Env) (s : Store)
    (h : tierRemoved env s .haproxy env.haproxyServiceName env.haproxyReplicasName = true) :
    RunsS s (haproxyDisabledStage env) [] s := by
  obtain ⟨h1, h2⟩ := disabledTier_parts env s _ _ _ h
  unfold haproxyDisabledStage
  exact RunsS.writes (by simp) (RunsS.next (RunsS.mark s _)
    (RunsS.next (RunsS.stepOuter _ _ (deleteStatefulSet_absent env s .haproxy false h1))
      (RunsS.stepOuter _ _ (deleteServices_absent s _ h2))))

theorem proxysqlDisabledStage_runs (env : Env) (o : Cluster) (s : Store)
    (h : tierRemoved env s .proxysql env.proxysqlServiceName env.proxysqlUnreadyName = true) :
    RunsS s (proxysqlDisabledStage env o) [] s := by
  obtain ⟨h1, h2⟩ := disabledTier_parts env s _ _ _ h
  unfold proxysqlDisabledStage
  exact RunsS.writes (by simp) (RunsS.next (RunsS.mark s _)
    (RunsS.next (RunsS.stepOuter _ _ (deleteStatefulSet_absent env s .proxysql _ h1))
      (RunsS.stepOuter _ _ (deleteServices_absent s _ h2))))

theorem haproxyEnabledStage_runs (env : Env) (hok : ∀ c, env.outcome c = none) (s : Store)
    (h : PodSpec)
    (h1 : serviceHeld s env.haproxyServiceName (newHAProxyService env h) = true)
    (h2 : serviceHeld s env.haproxyReplicasName (newHAProxyServiceReplicas h) = true) :
    RunsS s (haproxyEnabledStage env h) [] s := by
  unfold haproxyEnabledStage
  exact RunsS.writes (by simp) (RunsS.next (RunsS.mark s _)
    (RunsS.next (RunsS.stepInner _ _ (RunsF.wrapped _ (RunsF.collab env hok s _)))
    (RunsS.next (RunsS.stepInner _ _ (serviceStep_runs s _ _ _ _ h1))
      (RunsS.stepInner _ _ (serviceStep_runs s _ _ _ _ h2)))))

theorem haproxyStage_runs (env : Env) (hok : ∀ c, env.outcome c = none) (s : Store)
    (o : Cluster) (hc : converged env o s = true) :
    RunsS s (haproxyStage env o) [] s := by
  have hha := converged_haproxy env o s hc
  unfold haproxyStage
  cases hsp : o.spec.haproxy with
  | none =>
    rw [hsp] at hha
    exact haproxyDisabledStage_runs env s hha
  | some h =>
    rw [hsp] at hha
    by_cases he : h.enabled = true
    · simp only [he, if_true, Bool.and_eq_true] at hha ⊢
      exact haproxyEnabledStage_runs env hok s h hha.1.2 hha.2
    · simp only [he, if_false, Bool.false_eq_true] at hha ⊢
      exact haproxyDisabledStage_runs env s hha

theorem proxysqlServiceStep_runs (env : Env) (s : Store) (p : PodSpec) (cur : Service)
    (hl : svcColl.lookup s env.newServiceProxySQL.name = some cur) :
    RunsF s (proxysqlServiceStep env p) [.update (.service (proxysqlService env p cur))]
      (svcColl.setItems s ((svcColl.items s).map
        (fun y => if y.name = cur.name then proxysqlService env p cur else y))) := by
  intro w hf hs
  subst hs
  refine ⟨[.get .service env.newServiceProxySQL.name,
    .update (.service (proxysqlService env p cur))], ?_, rfl⟩
  have hn : cur.name = env.newServiceProxySQL.name := lookup_name svcColl _ _ cur hl
  have hp : svcColl.present (w.move [.get svcColl.kind env.newServiceProxySQL.name] w.store).store
      (svcColl.nameOf (proxysqlService env p cur)) = true := by
    show (svcColl.lookup w.store cur.name).isSome = true
    rw [hn, hl]
    rfl
  unfold proxysqlServiceStep
  rw [get_found svcColl _ w cur hf hl]
  simp only []
  unfold wrapped
  rw [update_present svcColl (proxysqlService env p cur)
    (w.move [.get svcColl.kind env.newServiceProxySQL.name] w.store) hf hp, World.move_move]
  rfl

theorem proxysqlStage_runs (env : Env) (hok : ∀ c, env.outcome c = none) (s : Store)
    (o : Cluster) (hc : converged env o s = true) :
    ∃ s1, RunsS s (proxysqlStage env o) (proxysqlWrites env o s) s1 := by
  have hps := converged_proxysql env o s hc
  unfold proxysqlStage proxysqlWrites
  cases hsp : o.spec.proxysql with
  | none =>
    rw [hsp] at hps
    exact ⟨s, proxysqlDisabledStage_runs env o s hps⟩
  | some p =>
    rw [hsp] at hps
    by_cases he : p.enabled = true
    · simp only [he, if_true] at hps ⊢
      simp only [tierDeployed, Bool.and_eq_true] at hps
      obtain ⟨cur, hl⟩ := present_lookup svcColl _ _ hps.1.1.2
      rw [hl]
      refine ⟨svcColl.setItems s ((svcColl.items s).map
        (fun y => if y.name = cur.name then proxysqlService env p cur else y)), ?_⟩
      unfold proxysqlEnabledStage
      exact RunsS.writes (by simp) (RunsS.next (RunsS.mark s _)
        (RunsS.next (RunsS.stepOuter _ _ (RunsF.collab env hok s _))
          (RunsS.stepInner _ _ (proxysqlServiceStep_runs env s p cur hl))))
    · simp only [he, if_false, Bool.false_eq_true] at hps ⊢
      exact ⟨s, proxysqlDisabledStage_runs env o s hps⟩


theorem convergence_runs (env : Env) (hok : ∀ c, env.outcome c = none)
    (hown : ∀ k, env.ownerRef k = none) (s : Store) (o : Cluster)
    (hc : converged env o s = true) :
    ∃ s1, RunsS s (convergence env o) (convergedWrites env o s) s1 := by
  obtain ⟨s1, hp⟩ := proxysqlStage_runs env hok s o hc
  obtain ⟨-, hp1, hp2⟩ := converged_pxc env o s hc
  refine ⟨s1, ?_⟩
  unfold convergence
  refine RunsS.writes ?_ (RunsS.first (RunsS.mark s _)
    (RunsS.first (RunsS.stepOuter _ _ (deploy_runs env hok hown s o hc))
    (RunsS.first (RunsS.stepOuter _ _ (RunsF.collab env hok s _))
    (RunsS.first (RunsS.condStage _ (fun _ => RunsS.stepInner _ _ (RunsF.collab env hok s _)))
    (RunsS.first (RunsS.mark s _)
    (RunsS.first (RunsS.stepOuter _ _ (RunsF.collab env hok s _))
    (RunsS.first (RunsS.mark s _)
    (RunsS.first (pxcServiceStep_runs s _ hp1)
    (RunsS.first (pxcServiceStep_runs s _ hp2)
    (RunsS.first (haproxyStage_runs env hok s o hc)
    (RunsS.next hp
    (RunsS.first (RunsS.mark s1 _)
    (RunsS.first (RunsS.stepOuter _ _ (RunsF.collab env hok s1 _))
    (RunsS.first (RunsS.mark s1 _)
    (RunsS.first (RunsS.stepInner _ _ (RunsF.wrapped _ (RunsF.collab env hok s1 _)))
    (RunsS.first (RunsS.mark s1 _)
      (RunsS.stepOuter _ _ (RunsF.collab env hok s1 _))))))))))))))))))
  simp [convergedWrites]

theorem collabStage_runs (env : Env) (hok : ∀ c, env.outcome c = none) (s : Store) (c : Collab) :
    RunsS s (fun _ w => match callCollab env c w with
      | (err, w1) => (.ok err, w1)) [] s := by
  intro err w hf hs
  obtain ⟨l, e, f⟩ := RunsF.collab env hok s c w hf hs
  refine ⟨l, none, w.move l s, ?_, hf, rfl, rfl, f⟩
  show (match callCollab env c w with
    | (err, w1) => (Except.ok err, w1)) = _
  rw [e]

theorem collabIgnored_runs (env : Env) (hok : ∀ c, env.outcome c = none) (s : Store)
    (c : Collab) :
    RunsS s (fun err w => match callCollab env c w with
      | (_, w1) => (.ok err, w1)) [] s := by
  intro err w hf hs
  obtain ⟨l, e, f⟩ := RunsF.collab env hok s c w hf hs
  refine ⟨l, err, w.move l s, ?_, hf, rfl, rfl, f⟩
  show (match callCollab env c w with
    | (_, w1) => (Except.ok err, w1)) = _
  rw [e]

theorem resync_runs (s : Store) (o : Cluster) :
    RunsS s (fun err w => (.ok err, resyncPXCUsersWithProxySQL o w)) [] s := by
  intro err w hf hs
  have key : (resyncPXCUsersWithProxySQL o w).faults = [] ∧
      (resyncPXCUsersWithProxySQL o w).store = s ∧
      ∃ l, (resyncPXCUsersWithProxySQL o w).trace = w.trace ++ l ∧
        l.filter Call.isChildWrite = [] := by
    unfold resyncPXCUsersWithProxySQL
    cases o.spec.proxysql with
    | none => exact ⟨hf, hs, [], (List.append_nil _).symm, rfl⟩
    | some p =>
      simp only []
      split
      · exact ⟨hf, hs, [], (List.append_nil _).symm, rfl⟩
      · split
        · exact ⟨hf, hs, [], (List.append_nil _).symm, rfl⟩
        · split
          · exact ⟨hf, hs, [.spawnResync], rfl, rfl⟩
          · exact ⟨hf, hs, [], (List.append_nil _).symm, rfl⟩
  obtain ⟨h1, h2, l, h3, h4⟩ := key
  exact ⟨l, err, _, rfl, h1, h2, h3, h4⟩

theorem preBranch_runs (env : Env) (hok : ∀ c, env.outcome c = none) (s : Store) (o : Cluster) :
    RunsS s (preBranch env o false) [] s := by
  unfold preBranch
  exact RunsS.writes (by simp) (RunsS.first
    (RunsS.condStage _ (fun _ => collabStage_runs env hok s _))
    (RunsS.first (RunsS.stepOuter _ _ (RunsF.collab env hok s _))
    (RunsS.first (RunsS.condStage _ (fun _ => RunsS.stepOuter _ _ (RunsF.collab env hok s _)))
    (RunsS.first (resync_runs s o)
    (RunsS.first (RunsS.condStage false (fun h => absurd h (by decide)))
      (RunsS.condStage _ (fun _ => collabIgnored_runs env hok s _)))))))

theorem reconcileBody_runs (env : Env) (hok : ∀ c, env.outcome c = none)
    (hown : ∀ k, env.ownerRef k = none) (o : Cluster) (w : World)
    (hf : w.faults = []) (hdel : o.deletionTimestamp = none)
    (hc : converged env o w.store = true) :
    ∃ l e w1, reconcileBody env o false w = ({ result := rr, err := none, errVar := e }, w1) ∧
      w1.trace = w.trace ++ l ∧ l.filter Call.isChildWrite = convergedWrites env o w.store := by
  obtain ⟨s1, hconv⟩ := convergence_runs env hok hown w.store o hc
  obtain ⟨l, e, w1, h1, -, -, ht, f⟩ :=
    RunsS.first (preBranch_runs env hok w.store o) hconv none w hf rfl
  refine ⟨l, e, w1, ?_, ht, by simpa using f⟩
  unfold reconcileBody
  rw [hdel]
  simp only [Option.isSome_none, Bool.false_eq_true, if_false]
  rw [h1]


/-- Every child write of a pass of `Reconcile` over a converged store, in order. -/
theorem converged_pass_child_writes (env : Env) (uerr : Option Err) (request : String)
    (w : World) (o o1 : Cluster)
    (hok : ∀ c, env.outcome c = none) (hown : ∀ k, env.ownerRef k = none)
    (hf : w.faults = [])
    (hfetch : fetched request w = some o)
    (hwait : env.shouldWaitForTokenIssue o = false)
    (hcheck : env.checkNSetDefaults o = (o1, false, none))
    (hdel : o1.deletionTimestamp = none)
    (hc : converged env o1 w.store = true) :
    (Reconcile env uerr request w).err = none ∧
    (Reconcile env uerr request w).result = rr ∧
    ∃ l, (Reconcile env uerr request w).world.trace = w.trace ++ l ∧
      l.filter Call.isChildWrite = convergedWrites env o1 w.store := by
  have hf0 : (acquire request w).faults = [] := hf
  have hc0 : converged env o1
      ((acquire request w).move [.get .cluster request] (acquire request w).store).store =
        true := hc
  obtain ⟨l, e, w1, hb, ht, hw⟩ := reconcileBody_runs env hok hown o1
    ((acquire request w).move [.get .cluster request] (acquire request w).store) hf0 hdel hc0
  rw [Reconcile_after_defaults env uerr request w o hfetch hwait (by rw [hcheck])]
  rw [hcheck]
  simp only []
  rw [World.step_calm (acquire request w) _ hf0, hb]
  refine ⟨rfl, rfl, [.lock request, .get .cluster request] ++ l ++
    [.updateStatus e, .storeUpdateSync request updateDone, .unlock request], ?_, ?_⟩
  · rw [release_trace]
    simp only [World.log]
    rw [ht]
    simp [World.move, acquire_trace]
  · rw [List.filter_append, List.filter_append, hw]
    simp [Call.isChildWrite]
    rfl

theorem budgetWrites_kept (env : Env) (cr : Cluster) (spec : Option PodDisruptionBudgetSpec)
    (t : Tier) :
    (budgetWrites env spec t).filter (fun c => !c.isLeftOut env cr) = budgetWrites env spec t := by
  cases spec <;> simp [budgetWrites, Call.isLeftOut]

theorem tierWrites_kept (env : Env) (cr : Cluster) (p : Option PodSpec) (set : StatefulSet)
    (t : Tier) :
    (tierWrites env p set t).filter (fun c => !c.isLeftOut env cr) = tierWrites env p set t := by
  cases p with
  | none => simp [tierWrites]
  | some h =>
    unfold tierWrites
    by_cases he : h.enabled = true
    · simp only [he, if_true, List.filter_append, budgetWrites_kept]
      simp [Call.isLeftOut]
    · simp [he]

theorem logCollector_leftOut (env : Env) (cr : Cluster) :
    ((logCollectorMaps env cr).flatMap
      (fun cm => [Call.create (.configMap cm), Call.update (.configMap cm)])).filter
        (fun c => !c.isLeftOut env cr) = [] := by
  rw [List.filter_eq_nil_iff]
  intro c hc
  rw [List.mem_flatMap] at hc
  obtain ⟨cm, hcm, hc⟩ := hc
  simp only [List.mem_cons, List.mem_singleton, List.not_mem_nil, or_false] at hc
  rcases hc with hc | hc <;> simp [hc, Call.isLeftOut, hcm]

theorem proxysqlWrites_leftOut (env : Env) (cr : Cluster) (s : Store) :
    (proxysqlWrites env cr s).filter (fun c => !c.isLeftOut env cr) = [] := by
  unfold proxysqlWrites
  cases cr.spec.proxysql with
  | none => rfl
  | some p =>
    by_cases he : p.enabled = true
    · simp only [he, if_true]
      cases hl : svcColl.lookup s env.newServiceProxySQL.name with
      | none => rfl
      | some cur =>
        have hn : cur.name = env.newServiceProxySQL.name := lookup_name svcColl _ _ cur hl
        have hn2 : (proxysqlService env p cur).name = env.newServiceProxySQL.name := hn
        simp [Call.isLeftOut, hn2]
    · simp [he]

theorem convergedWrites_kept (env : Env) (cr : Cluster) (s : Store) :
    (convergedWrites env cr s).filter (fun c => !c.isLeftOut env cr) = deployWrites env cr := by
  unfold convergedWrites deployWrites
  simp only [List.filter_append, logCollector_leftOut, proxysqlWrites_leftOut, budgetWrites_kept,
    tierWrites_kept, List.nil_append, List.append_nil]
  simp [Call.isLeftOut]

/-- C8 (amended): a pass of `Reconcile` over an entity that is not marked for
deletion, whose normalization changes nothing, on a store that holds every
child resource as the pass wants it, with every collaborator succeeding and no
store call failing, returns no error and the standard requeue. Leaving aside
the writes on the log-collector config map and on the ProxySQL service, the
`Create` and `Update` calls it issues on child resources are exactly
`deployWrites`: a `Create` of the workload of every enabled tier, which the
store answers with already-exists, and an `Update` of every configured
disruption budget. No other config map and no PXC or HAProxy service is
created or updated. -/
theorem Reconcile_second_pass_writes (env : Env) (uerr : Option Err) (request : String)
    (w : World) (o o1 : Cluster)
    (hok : ∀ c, env.outcome c = none) (hown : ∀ k, env.ownerRef k = none)
    (hf : w.faults = [])
    (hfetch : fetched request w = some o)
    (hwait : env.shouldWaitForTokenIssue o = false)
    (hcheck : env.checkNSetDefaults o = (o1, false, none))
    (hdel : o1.deletionTimestamp = none)
    (hc : converged env o1 w.store = true) :
    (Reconcile env uerr request w).err = none ∧
    (Reconcile env uerr request w).result = rr ∧
    ∃ l, (Reconcile env uerr request w).world.trace = w.trace ++ l ∧
      l.filter (fun c => c.isChildWrite && !c.isLeftOut env o1) = deployWrites env o1 := by
  obtain ⟨h1, h2, l, hl, hw⟩ := converged_pass_child_writes env uerr request w o o1 hok hown hf
    hfetch hwait hcheck hdel hc
  refine ⟨h1, h2, l, hl, ?_⟩
  have hsplit : l.filter (fun c => c.isChildWrite && !c.isLeftOut env o1) =
      (l.filter Call.isChildWrite).filter (fun c => !c.isLeftOut env o1) := by
    rw [List.filter_filter]
    congr 1
    funext c
    exact Bool.and_comm _ _
  rw [hsplit, hw, convergedWrites_kept]

theorem Reconcile_second_pass_writes_witness :
    converged exampleEnv haproxyBudgetCluster haproxyFirstPass.world.store = true ∧
    tierEnabled haproxyBudgetCluster.spec.haproxy = true ∧
    (Reconcile exampleEnv none "ns/c1" { haproxyFirstPass.world with trace := [] }).err = none ∧
    (∃ l, (Reconcile exampleEnv none "ns/c1"
          { haproxyFirstPass.world with trace := [] }).world.trace = [] ++ l ∧
      l.filter (fun c => c.isChildWrite && !c.isLeftOut exampleEnv haproxyBudgetCluster) =
        deployWrites exampleEnv haproxyBudgetCluster) ∧
    converged exampleEnv proxysqlCluster proxysqlFirstPass.world.store = true ∧
    (Reconcile exampleEnv none "ns/c1" { proxysqlFirstPass.world with trace := [] }).err = none ∧
    (svcColl.lookup haproxyFirstPass.world.store "c1-haproxy-replicas").map
      (fun old => isServiceNeedsToUpdate old
        (newHAProxyServiceReplicas (examplePodSpec true) old)) = some false :=
  have h1 := Reconcile_second_pass_writes exampleEnv none "ns/c1"
    { haproxyFirstPass.world with trace := [] } haproxyBudgetCluster haproxyBudgetCluster
    (fun _ => rfl) (fun _ => rfl) (by decide) (by decide) rfl rfl rfl (by decide)
  have h2 := Reconcile_second_pass_writes exampleEnv none "ns/c1"
    { proxysqlFirstPass.world with trace := [] } proxysqlCluster proxysqlCluster
    (fun _ => rfl) (fun _ => rfl) (by decide) (by decide) rfl rfl rfl (by decide)
  ⟨by decide, rfl, h1.1, h1.2.2, by decide, h2.1, by decide⟩


/-! ## The config map helper -/

theorem clientCreate_trace {α : Type} (c : Coll α) (x : α) (w : World) :
    (clientCreate c x w).2.trace = w.trace ++ [.create (c.obj x)] := by
  rw [clientCreate_eq]
  split
  · rfl
  · split <;> rfl

/-- C16: `createOrUpdateConfigmap` looks the map up once and then
* issues one `Create` and no `Update` when the map is absent (or the lookup
  reports not-found),
* issues one `Update` and no `Create` when the stored map has other `Data`,
* issues nothing and returns `nil` when the stored map has equal `Data`,
* issues nothing and returns the lookup error, wrapped with
  "get current configmap", when the lookup fails otherwise. -/
theorem createOrUpdateConfigmap_writes (cm : ConfigMap) (w : World) :
    (w.next = none → cmColl.lookup w.store cm.name = none →
      (createOrUpdateConfigmap cm w).2.trace =
        w.trace ++ [.get .configMap cm.name, .create (.configMap cm)]) ∧
    (∀ e, w.next = some e → e.isNotFound = true →
      (createOrUpdateConfigmap cm w).2.trace =
        w.trace ++ [.get .configMap cm.name, .create (.configMap cm)]) ∧
    (∀ cur, w.next = none → cmColl.lookup w.store cm.name = some cur → cur.data ≠ cm.data →
      (createOrUpdateConfigmap cm w).2.trace =
        w.trace ++ [.get .configMap cm.name, .update (.configMap cm)]) ∧
    (∀ cur, w.next = none → cmColl.lookup w.store cm.name = some cur → cur.data = cm.data →
      (createOrUpdateConfigmap cm w).1 = none ∧
      (createOrUpdateConfigmap cm w).2.trace = w.trace ++ [.get .configMap cm.name] ∧
      (createOrUpdateConfigmap cm w).2.store = w.store) ∧
    (∀ e, w.next = some e → e.isNotFound = false →
      (createOrUpdateConfigmap cm w).1 = some (.wrap e "get current configmap") ∧
      (createOrUpdateConfigmap cm w).2.trace = w.trace ++ [.get .configMap cm.name] ∧
      (createOrUpdateConfigmap cm w).2.store = w.store) := by
  unfold createOrUpdateConfigmap
  rw [clientGet_eq]
  refine ⟨?_, ?_, ?_, ?_, ?_⟩
  · intro hn hl
    rw [hn, hl]
    simp only [Err.isNotFound, Bool.not_true, Bool.false_eq_true, if_false]
    rw [clientCreate_trace]
    simp [World.step, cmColl]
  · intro e hn he
    rw [hn]
    simp only [he, Bool.not_true, Bool.false_eq_true, if_false]
    rw [clientCreate_trace]
    simp [World.step, cmColl]
  · intro cur hn hl hd
    rw [hn, hl]
    have hb : (cur.data == cm.data) = false := by simpa using hd
    simp only [hb, Bool.not_false, if_true]
    rw [clientUpdate_trace]
    simp [World.step, cmColl]
  · intro cur hn hl hd
    rw [hn, hl]
    have hb : (cur.data == cm.data) = true := by simpa using hd
    simp only [hb, Bool.not_true, Bool.false_eq_true, if_false]
    simp [World.step, cmColl]
  · intro e hn he
    rw [hn]
    simp only [he, Bool.not_false, if_true]
    simp [World.step, cmColl, wrap]

theorem createOrUpdateConfigmap_writes_witness :
    (createOrUpdateConfigmap (exampleMap "a") (exampleWorld (mapStore []) [])).2.trace =
      [] ++ [.get .configMap "c1-pxc", .create (.configMap (exampleMap "a"))] ∧
    (createOrUpdateConfigmap (exampleMap "a")
        (exampleWorld (mapStore [exampleMap "b"]) [])).2.trace =
      [] ++ [.get .configMap "c1-pxc", .update (.configMap (exampleMap "a"))] ∧
    (createOrUpdateConfigmap (exampleMap "a")
        (exampleWorld (mapStore [exampleMap "a"]) [])).2.trace =
      [] ++ [.get .configMap "c1-pxc"] ∧
    (createOrUpdateConfigmap (exampleMap "a")
        (exampleWorld (mapStore []) [some (.other "timeout")])).1 =
      some (.wrap (.other "timeout") "get current configmap") :=
  ⟨(createOrUpdateConfigmap_writes (exampleMap "a") (exampleWorld (mapStore []) [])).1 rfl rfl,
    (createOrUpdateConfigmap_writes (exampleMap "a")
      (exampleWorld (mapStore [exampleMap "b"]) [])).2.2.1 (exampleMap "b") rfl rfl (by decide),
    ((createOrUpdateConfigmap_writes (exampleMap "a")
      (exampleWorld (mapStore [exampleMap "a"]) [])).2.2.2.1 (exampleMap "a") rfl rfl rfl).2.1,
    ((createOrUpdateConfigmap_writes (exampleMap "a")
      (exampleWorld (mapStore []) [some (.other "timeout")])).2.2.2.2
        (.other "timeout") rfl rfl).1⟩


/-! ## The fetch stage and the precondition gate -/

/-- C17: when loading the entity fails with `e`, `Reconcile` ends at the fetch
stage: for a not-found error it returns no error (and the standard result),
for any other error it returns that error unchanged (and an empty result); in
both cases the pass makes no call besides the lock, the lookup and the two
deferred lock calls (no further store call, no status hook, no stage) and
leaves the store as it was. -/
theorem Reconcile_fetch_failure (env : Env) (uerr : Option Err) (request : String)
    (w : World) (e : Err)
    (h : (clientGet clusterColl request (acquire request w)).1 = .error e) :
    (e.isNotFound = true →
      (Reconcile env uerr request w).err = none ∧ (Reconcile env uerr request w).result = rr) ∧
    (e.isNotFound = false →
      (Reconcile env uerr request w).err = some e ∧
      (Reconcile env uerr request w).result = emptyResult) ∧
    (Reconcile env uerr request w).world.trace =
      w.trace ++ [.lock request, .get .cluster request, .storeUpdateSync request updateDone,
        .unlock request] ∧
    (Reconcile env uerr request w).world.store = w.store := by
  have hsnd := clientGet_snd clusterColl request (acquire request w)
  unfold Reconcile reconcileLocked
  cases hr : clientGet clusterColl request (acquire request w) with
  | mk r w1 =>
    rw [hr] at h hsnd
    simp only at h hsnd
    subst h
    subst hsnd
    simp only []
    by_cases hnf : e.isNotFound = true
    · rw [if_pos hnf]
      refine ⟨fun _ => ⟨rfl, rfl⟩, fun hc => absurd (hnf.symm.trans hc) (by decide), ?_, rfl⟩
      simp [release_trace, World.step, acquire_trace, clusterColl]
    · have hnf2 : e.isNotFound = false := by simpa using hnf
      rw [if_neg hnf]
      refine ⟨fun hc => absurd hc hnf, fun _ => ⟨rfl, rfl⟩, ?_, rfl⟩
      simp [release_trace, World.step, acquire_trace, clusterColl]

theorem Reconcile_fetch_failure_witness :
    (Reconcile exampleEnv none "ns/c1"
        (exampleWorld (exampleStore exampleCluster [] []) [some (.other "timeout")])).err =
      some (.other "timeout") ∧
    (Reconcile exampleEnv none "ns/c2"
        (exampleWorld (exampleStore exampleCluster [] []) [])).err = none ∧
    (Reconcile exampleEnv none "ns/c2"
        (exampleWorld (exampleStore exampleCluster [] []) [])).world.trace =
      [] ++ [.lock "ns/c2", .get .cluster "ns/c2", .storeUpdateSync "ns/c2" updateDone,
        .unlock "ns/c2"] :=
  ⟨((Reconcile_fetch_failure exampleEnv none "ns/c1"
      (exampleWorld (exampleStore exampleCluster [] []) [some (.other "timeout")])
      (.other "timeout") rfl).2.1 rfl).1,
    ((Reconcile_fetch_failure exampleEnv none "ns/c2"
      (exampleWorld (exampleStore exampleCluster [] []) []) (.notFound "ns/c2") rfl).1 rfl).1,
    (Reconcile_fetch_failure exampleEnv none "ns/c2"
      (exampleWorld (exampleStore exampleCluster [] []) []) (.notFound "ns/c2") rfl).2.2.1⟩

/-- C12, as stated, fails: a pass over an entity that waits for its token and
a successful pass request the same delay, so the first is not strictly
shorter. -/
theorem gate_delay_not_shorter_counterexample :
    gatePass.err = none ∧ firstPass.err = none ∧
    gatePass.result.requeueAfter = firstPass.result.requeueAfter ∧
    ¬ gatePass.result.requeueAfter < firstPass.result.requeueAfter := by
  decide

/-- C12 (amended): for every entity that waits for the token, `Reconcile`
skips all remaining stages: it returns no error, its only calls are the lock,
the lookup of the entity and the two deferred lock calls (no store write, no
status hook), the store is left as it was, and the result it returns is the
same `rr` a successful pass returns, a revisit after 5 seconds. -/
theorem Reconcile_gate_skip (env : Env) (uerr : Option Err) (request : String)
    (w : World) (o : Cluster) (hfetch : fetched request w = some o)
    (hwait : env.shouldWaitForTokenIssue o = true) :
    (Reconcile env uerr request w).err = none ∧
    (Reconcile env uerr request w).result = rr ∧
    (Reconcile env uerr request w).result.requeueAfter = 5 * second ∧
    (Reconcile env uerr request w).world.trace =
      w.trace ++ [.lock request, .get .cluster request, .storeUpdateSync request updateDone,
        .unlock request] ∧
    (Reconcile env uerr request w).world.store = w.store := by
  obtain ⟨hn, hl⟩ := fetched_some request w o hfetch
  have hn2 : (acquire request w).next = none := hn
  have hl2 : clusterColl.lookup (acquire request w).store request = some o := hl
  unfold Reconcile reconcileLocked
  rw [clientGet_eq, hn2, hl2]
  simp only []
  rw [if_pos hwait]
  refine ⟨rfl, rfl, rfl, ?_, rfl⟩
  simp [release_trace, World.step, acquire_trace, clusterColl]

theorem Reconcile_gate_skip_witness :
    gatePass.err = none ∧ gatePass.result = rr ∧
    gatePass.world.trace =
      [] ++ [.lock "ns/c1", .get .cluster "ns/c1", .storeUpdateSync "ns/c1" updateDone,
        .unlock "ns/c1"] :=
  have h := Reconcile_gate_skip waitingEnv none "ns/c1"
    (exampleWorld (exampleStore exampleCluster [] []) []) exampleCluster (by decide) rfl
  ⟨h.1, h.2.1, h.2.2.2.1⟩


/-! ## The revisit interval -/

theorem exitOk_next (a b : StageFn) (ha : ExitOk a) (hb : ExitOk b) : ExitOk (next a b) := by
  intro err w x w1 h
  unfold next at h
  cases hr : a err w with
  | mk r w2 =>
    rw [hr] at h
    cases r with
    | error y =>
      simp only [Prod.mk.injEq, Except.error.injEq] at h
      obtain ⟨h1, h2⟩ := h
      subst h1
      exact ha err w y w2 hr
    | ok e1 => exact hb e1 w2 x w1 h

theorem exitOk_condStage (c : Bool) (a : StageFn) (ha : ExitOk a) : ExitOk (condStage c a) := by
  intro err w x w1 h
  unfold condStage at h
  cases c with
  | true => exact ha err w x w1 (by simpa using h)
  | false => simp at h

theorem exitOk_mark (s : Stage) : ExitOk (mark s) := by
  intro err w x w1 h
  simp [mark] at h

theorem wrap_some_ne_none (e : Err) (msg : Option String) :
    (match msg with
      | some m => wrap (some e) m
      | none => some e) ≠ none := by
  cases msg <;> simp [wrap]

theorem exitOk_stepOuter (a : World → Option Err × World) (res : Result) (msg : Option String) :
    ExitOk (stepOuter a res msg) := by
  intro err w x w1 h hx
  unfold stepOuter at h
  cases hr : a w with
  | mk r w2 =>
    rw [hr] at h
    cases r with
    | none => simp at h
    | some e =>
      simp only [Prod.mk.injEq, Except.error.injEq] at h
      obtain ⟨h1, _⟩ := h
      subst h1
      exact absurd hx (wrap_some_ne_none e msg)

theorem exitOk_stepInner (a : World → Option Err × World) (res : Result) (msg : Option String) :
    ExitOk (stepInner a res msg) := by
  intro err w x w1 h hx
  unfold stepInner at h
  cases hr : a w with
  | mk r w2 =>
    rw [hr] at h
    cases r with
    | none => simp at h
    | some e =>
      simp only [Prod.mk.injEq, Except.error.injEq] at h
      obtain ⟨h1, _⟩ := h
      subst h1
      exact absurd hx (wrap_some_ne_none e msg)

theorem exitOk_pxcServiceStep (svc : Service) : ExitOk (pxcServiceStep svc) := by
  intro err w x w1 h hx
  unfold pxcServiceStep at h
  cases hr : clientGet svcColl svc.name w with
  | mk r w2 =>
    rw [hr] at h
    cases r with
    | error e =>
      simp only [Prod.mk.injEq, Except.error.injEq] at h
      obtain ⟨h1, _⟩ := h
      subst h1
      simp [wrap] at hx
    | ok cur =>
      simp only at h
      split at h
      · simp at h
      · cases hu : clientUpdate svcColl
            { cur with spec := { cur.spec with ports := svc.spec.ports } } w2 with
        | mk r2 w3 =>
          rw [hu] at h
          cases r2 with
          | none => simp at h
          | some e =>
            simp only [Prod.mk.injEq, Except.error.injEq] at h
            obtain ⟨h1, _⟩ := h
            subst h1
            simp [wrap] at hx

theorem exitOk_teardown (env : Env) (o : Cluster) : ExitOk (teardown env o) := by
  intro err w x w1 h _
  unfold teardown at h
  simp only [Prod.mk.injEq, Except.error.injEq] at h
  obtain ⟨h1, _⟩ := h
  subst h1
  rfl

theorem exitOk_haproxyStage (env : Env) (o : Cluster) : ExitOk (haproxyStage env o) := by
  have hd : ExitOk (haproxyDisabledStage env) :=
    exitOk_next _ _ (exitOk_mark _) (exitOk_next _ _ (exitOk_stepOuter _ _ _)
      (exitOk_stepOuter _ _ _))
  unfold haproxyStage
  cases o.spec.haproxy with
  | none => exact hd
  | some h =>
    by_cases he : h.enabled = true
    · simp only [he, if_true]
      exact exitOk_next _ _ (exitOk_mark _) (exitOk_next _ _ (exitOk_stepInner _ _ _)
        (exitOk_next _ _ (exitOk_stepInner _ _ _) (exitOk_stepInner _ _ _)))
    · simp only [he, if_false, Bool.false_eq_true]
      exact hd

theorem exitOk_proxysqlStage (env : Env) (o : Cluster) : ExitOk (proxysqlStage env o) := by
  have hd : ExitOk (proxysqlDisabledStage env o) :=
    exitOk_next _ _ (exitOk_mark _) (exitOk_next _ _ (exitOk_stepOuter _ _ _)
      (exitOk_stepOuter _ _ _))
  unfold proxysqlStage
  cases o.spec.proxysql with
  | none => exact hd
  | some p =>
    by_cases he : p.enabled = true
    · simp only [he, if_true]
      exact exitOk_next _ _ (exitOk_mark _) (exitOk_next _ _ (exitOk_stepOuter _ _ _)
        (exitOk_stepInner _ _ _))
    · simp only [he, if_false, Bool.false_eq_true]
      exact hd

theorem exitOk_convergence (env : Env) (o : Cluster) : ExitOk (convergence env o) := by
  unfold convergence
  exact exitOk_next _ _ (exitOk_mark _)
    (exitOk_next _ _ (exitOk_stepOuter _ _ _)
    (exitOk_next _ _ (exitOk_stepOuter _ _ _)
    (exitOk_next _ _ (exitOk_condStage _ _ (exitOk_stepInner _ _ _))
    (exitOk_next _ _ (exitOk_mark _)
    (exitOk_next _ _ (exitOk_stepOuter _ _ _)
    (exitOk_next _ _ (exitOk_mark _)
    (exitOk_next _ _ (exitOk_pxcServiceStep _)
    (exitOk_next _ _ (exitOk_pxcServiceStep _)
    (exitOk_next _ _ (exitOk_haproxyStage env o)
    (exitOk_next _ _ (exitOk_proxysqlStage env o)
    (exitOk_next _ _ (exitOk_mark _)
    (exitOk_next _ _ (exitOk_stepOuter _ _ _)
    (exitOk_next _ _ (exitOk_mark _)
    (exitOk_next _ _ (exitOk_stepInner _ _ _)
    (exitOk_next _ _ (exitOk_mark _) (exitOk_stepOuter _ _ _))))))))))))))))

theorem exitOk_never (a : StageFn) (h : ∀ err w, ∃ e w1, a err w = (.ok e, w1)) : ExitOk a := by
  intro err w x w1 hx
  obtain ⟨e, w2, he⟩ := h err w
  rw [he] at hx
  simp at hx

theorem exitOk_preBranch (env : Env) (o : Cluster) (changed : Bool) :
    ExitOk (preBranch env o changed) := by
  unfold preBranch
  exact exitOk_next _ _ (exitOk_condStage _ _ (exitOk_never _ (fun _ _ => ⟨_, _, rfl⟩)))
    (exitOk_next _ _ (exitOk_stepOuter _ _ _)
    (exitOk_next _ _ (exitOk_condStage _ _ (exitOk_stepOuter _ _ _))
    (exitOk_next _ _ (exitOk_never _ (fun _ _ => ⟨_, _, rfl⟩))
    (exitOk_next _ _ (exitOk_condStage _ _ (exitOk_stepOuter _ _ _))
      (exitOk_condStage _ _ (exitOk_never _ (fun _ _ => ⟨_, _, rfl⟩)))))))

theorem reconcileBody_exit (env : Env) (o : Cluster) (changed : Bool) (w : World)
    (h : (reconcileBody env o changed w).1.err = none) :
    (reconcileBody env o changed w).1.result = rr := by
  have hall : ExitOk (next (preBranch env o changed)
      (if o.deletionTimestamp.isSome then teardown env o else convergence env o)) := by
    refine exitOk_next _ _ (exitOk_preBranch env o changed) ?_
    split
    · exact exitOk_teardown env o
    · exact exitOk_convergence env o
  unfold reconcileBody at h ⊢
  cases hr : next (preBranch env o changed)
      (if o.deletionTimestamp.isSome then teardown env o else convergence env o) none w with
  | mk r w1 =>
    rw [hr] at h
    cases r with
    | error x => exact hall none w x w1 hr h
    | ok e => rfl

/-- C13: every pass of `Reconcile` that returns no error returns the result
`rr`, which requests a revisit after exactly 5 seconds (`RequeueAfter` is
`5 * time.Second`, `Requeue` is not set). -/
theorem Reconcile_success_interval (env : Env) (uerr : Option Err) (request : String)
    (w : World) (h : (Reconcile env uerr request w).err = none) :
    (Reconcile env uerr request w).result = rr ∧
    (Reconcile env uerr request w).result.requeueAfter = 5 * second ∧
    (Reconcile env uerr request w).result.requeue = false := by
  have key : (Reconcile env uerr request w).result = rr := by
    unfold Reconcile reconcileLocked at h ⊢
    cases hr : clientGet clusterColl request (acquire request w) with
    | mk r w1 =>
      rw [hr] at h
      cases r with
      | error e =>
        simp only at h ⊢
        by_cases hnf : e.isNotFound = true
        · rw [if_pos hnf]
        · rw [if_neg hnf] at h
          simp at h
      | ok o =>
        simp only at h ⊢
        by_cases hwait : env.shouldWaitForTokenIssue o = true
        · rw [if_pos hwait]
        · rw [if_neg hwait] at h ⊢
          rcases hc : env.checkNSetDefaults o with ⟨o1, changed, e⟩
          rw [hc] at h
          cases e with
          | some e1 => simp [wrap] at h
          | none => exact reconcileBody_exit env o1 changed w1 h
  rw [key]
  exact ⟨rfl, rfl, rfl⟩

theorem Reconcile_success_interval_witness :
    firstPass.err = none ∧ firstPass.result.requeueAfter = 5 * second ∧
    gatePass.result.requeueAfter = 5 * second :=
  ⟨by decide,
    (Reconcile_success_interval exampleEnv none "ns/c1"
      (exampleWorld (exampleStore budgetCluster [] []) []) (by decide)).2.1,
    (Reconcile_success_interval waitingEnv none "ns/c1"
      (exampleWorld (exampleStore exampleCluster [] []) []) (by decide)).2.1⟩


/-! ## The finalizer list written back by teardown -/

theorem finalizerLoop_cons (env : Env) (o : Cluster) (fnlz : String) (rest : List String)
    (err : Option Err) (acc : List String) (w : World) :
    finalizerLoop env o (fnlz :: rest) err acc w =
      match finalizerTask env o fnlz err (w.log (.stage (.finalizer fnlz))) with
      | (some e, w1) => finalizerLoop env o rest (some e) (acc ++ [fnlz]) w1
      | (none, w1) => finalizerLoop env o rest none acc w1 := by
  conv_lhs => unfold finalizerLoop
  unfold finalizerTask
  rfl

theorem keptFinalizers_sublist (names : List String) (rounds : List (Option Err)) :
    (keptFinalizers names rounds).Sublist names := by
  induction names generalizing rounds with
  | nil => simp [keptFinalizers]
  | cons n rest ih =>
    cases rounds with
    | nil => simp [keptFinalizers]
    | cons r rs =>
      have h := ih rs
      unfold keptFinalizers at h ⊢
      cases r with
      | none => simpa using List.Sublist.cons n h
      | some e => simpa using List.Sublist.cons₂ n h

theorem keptFinalizers_nil (names : List String) (rounds : List (Option Err))
    (h : ∀ e ∈ rounds, e = none) : keptFinalizers names rounds = [] := by
  unfold keptFinalizers
  rw [List.map_eq_nil_iff, List.filter_eq_nil_iff]
  intro p hp
  have := h p.2 (List.of_mem_zip hp).2
  simp [this]

theorem finalizerLoop_kept (env : Env) (o : Cluster) (names : List String) (err : Option Err)
    (acc : List String) (w : World) :
    (finalizerLoop env o names err acc w).2.1 =
      acc ++ keptFinalizers names (finalizerRounds env o names err w) := by
  induction names generalizing err acc w with
  | nil => simp [finalizerLoop, keptFinalizers]
  | cons fnlz rest ih =>
    rw [finalizerLoop_cons]
    unfold finalizerRounds
    cases hr : finalizerTask env o fnlz err (w.log (.stage (.finalizer fnlz))) with
    | mk r w1 =>
      cases r with
      | none =>
        simp only []
        rw [ih]
        simp [keptFinalizers]
      | some e =>
        simp only []
        rw [ih]
        simp [keptFinalizers]

theorem finalizerTask_recognised (env : Env) (o : Cluster) (fnlz : String)
    (e1 e2 : Option Err) (w : World) (h : recognisedFinalizer fnlz = true) :
    finalizerTask env o fnlz e1 w = finalizerTask env o fnlz e2 w := by
  unfold finalizerTask
  unfold recognisedFinalizer at h
  simp only [Bool.or_eq_true, decide_eq_true_eq] at h
  rcases h with (h | h) | h <;> simp [h]

/-- C19: the teardown branch writes the entity back with the finalizers
`keptFinalizers`, the names whose round of the loop ended with a non-nil
`err`: the update of the entity is the last call of the branch; the written
list is an order-preserving sublist of the original list (nothing is added,
duplicated or reordered); for a name with a case the value of its round is the
result of its task whatever `err` was before; and when the names all have a
case and every round ends with `nil`, the written list is empty. -/
theorem teardown_written_sublist (env : Env) (o : Cluster) (err : Option Err) (w : World) :
    (∃ l, (teardown env o err w).2.trace =
      w.trace ++ l ++ [.stage .persistFinalizers,
        .update (.cluster { o with
          finalizers := keptFinalizers o.finalizers
            (finalizerRounds env o o.finalizers err w) })]) ∧
    (keptFinalizers o.finalizers (finalizerRounds env o o.finalizers err w)).Sublist
      o.finalizers ∧
    (∀ fnlz e1 e2 w1, recognisedFinalizer fnlz = true →
      finalizerTask env o fnlz e1 w1 = finalizerTask env o fnlz e2 w1) ∧
    ((∀ n ∈ o.finalizers, recognisedFinalizer n = true) →
      (∀ e ∈ finalizerRounds env o o.finalizers err w, e = none) →
      keptFinalizers o.finalizers (finalizerRounds env o o.finalizers err w) = []) := by
  refine ⟨?_, keptFinalizers_sublist _ _, fun fnlz e1 e2 w1 h =>
    finalizerTask_recognised env o fnlz e1 e2 w1 h, fun _ h => keptFinalizers_nil _ _ h⟩
  have hk := finalizerLoop_kept env o o.finalizers err [] w
  obtain ⟨l, hl, -⟩ := finalizerLoop_ext (P := fun _ => True) (fun _ _ => trivial)
    (fun _ => trivial) env o o.finalizers err [] w
  unfold teardown
  rcases hloop : finalizerLoop env o o.finalizers err [] w with ⟨e, fins, w1⟩
  rw [hloop] at hk hl
  simp only [List.nil_append] at hk hl
  subst hk
  refine ⟨l, ?_⟩
  simp only []
  rw [clientUpdate_trace]
  simp [World.log, hl, clusterColl]

theorem teardown_written_sublist_witness :
    (∀ n ∈ (markedCluster ["delete-pxc-pvc", "delete-proxysql-pvc"]).finalizers,
      recognisedFinalizer n = true) ∧
    keptFinalizers (markedCluster ["delete-pxc-pvc", "delete-proxysql-pvc"]).finalizers
      (finalizerRounds exampleEnv (markedCluster ["delete-pxc-pvc", "delete-proxysql-pvc"])
        (markedCluster ["delete-pxc-pvc", "delete-proxysql-pvc"]).finalizers none
        storageTeardownWorld) = [] :=
  ⟨by decide,
    (teardown_written_sublist exampleEnv (markedCluster ["delete-pxc-pvc", "delete-proxysql-pvc"])
      none storageTeardownWorld).2.2.2 (by decide) (by decide)⟩


/-! ## Storage finalizers -/

/-- C11 on a failing input: the entity is marked for deletion with the
finalizer `delete-pxc-pvc`, the primary workload and one claim of the tier
exist. In a first pass the workload is deleted and the listing of the claims
fails, so the finalizer is kept. In the next pass the lookup of the workload
reports not-found, `deleteStatefulSet` returns `nil` at once, and the entity
is written back without the finalizer: no call on a claim is made and the
claim is still stored. -/
theorem storage_finalizer_dropped_with_claims :
    claimPass1.world.store.clusters.map Cluster.finalizers = [["delete-pxc-pvc"]] ∧
    claimPass1.world.store.statefulSets = [] ∧
    claimPass1.world.store.pvcs = [pxcClaim] ∧
    claimPass2.err = none ∧
    claimPass2.world.trace =
      [.lock "ns/c1", .get .cluster "ns/c1", .collab .reconcileUsersSecret,
        .collab .reconcileUsers, .stage (.finalizer "delete-pxc-pvc"),
        .get .statefulSet "c1-pxc", .stage .persistFinalizers,
        .update (.cluster (markedCluster [])),
        .updateStatus none, .storeUpdateSync "ns/c1" 0, .unlock "ns/c1"] ∧
    claimPass2.world.store.clusters.map Cluster.finalizers = [[]] ∧
    claimPass2.world.store.pvcs = [pxcClaim] := by
  decide

theorem deletePVCItems_success (items : List PersistentVolumeClaim) (w : World)
    (h : (deletePVCItems items w).1 = none) :
    (deletePVCItems items w).2.trace =
      w.trace ++ items.map (fun p => Call.delete .pvc p.name) := by
  induction items generalizing w with
  | nil => simp [deletePVCItems]
  | cons pvc rest ih =>
    unfold deletePVCItems at h ⊢
    have ht := clientDelete_trace pvcColl pvc.name w
    cases hd : clientDelete pvcColl pvc.name w with
    | mk r w1 =>
      rw [hd] at h ht
      cases r with
      | some e => simp [wrap] at h
      | none =>
        simp only at h ht ⊢
        rw [ih w1 h, ht]
        simp [pvcColl]

theorem wrapped_none (a : World → Option Err × World) (msg : String) (w : World)
    (h : (wrapped a msg w).1 = none) : (a w).1 = none ∧ (wrapped a msg w).2 = (a w).2 := by
  unfold wrapped at h ⊢
  cases hr : a w with
  | mk r w1 =>
    rw [hr] at h
    cases r with
    | none => exact ⟨rfl, rfl⟩
    | some e => simp [wrap] at h

theorem deletePVC_success (lbls : Labels) (w : World) (h : (deletePVC lbls w).1 = none) :
    (deletePVC lbls w).2.trace =
      w.trace ++ [.list .pvc lbls] ++
        ((w.store.pvcs.filter (fun p => matchesSelector lbls p.labels)).map
          (fun p => Call.delete .pvc p.name)) := by
  unfold deletePVC at h ⊢
  rw [clientList_eq] at h ⊢
  cases hn : w.next with
  | some e =>
    rw [hn] at h
    simp [wrap] at h
  | none =>
    rw [hn] at h
    simp only at h ⊢
    rw [deletePVCItems_success _ _ h]
    simp [World.step, pvcColl]

theorem clientDelete_sts_pvcs (n : String) (w : World) :
    (clientDelete stsColl n w).2.store.pvcs = w.store.pvcs := by
  rw [clientDelete_eq]
  split
  · rfl
  · split <;> rfl

/-- What the storage task does when it finds the workload and returns `nil`:
it has issued a delete for the workload, listed the claims with the labels of
the tier and issued a delete for every claim that carries them. -/
theorem deleteStatefulSet_found_success (env : Env) (t : Tier) (w : World) (set : StatefulSet)
    (hget : (clientGet stsColl (env.appName t) w).1 = .ok set)
    (h : (deleteStatefulSet env t true w).1 = none) :
    (deleteStatefulSet env t true w).2.trace =
      w.trace ++ [.get .statefulSet (env.appName t), .delete .statefulSet (env.appName t),
        .list .pvc (env.appLabels t)] ++
        ((w.store.pvcs.filter (fun p => matchesSelector (env.appLabels t) p.labels)).map
          (fun p => Call.delete .pvc p.name)) := by
  have hsnd := clientGet_snd stsColl (env.appName t) w
  unfold deleteStatefulSet at h ⊢
  cases hr : clientGet stsColl (env.appName t) w with
  | mk r w1 =>
    rw [hr] at hget hsnd h
    simp only at hget hsnd
    subst hget
    subst hsnd
    simp only at h ⊢
    have ht := clientDelete_trace stsColl (env.appName t) (w.step (.get stsColl.kind (env.appName t)))
    have hp := clientDelete_sts_pvcs (env.appName t) (w.step (.get stsColl.kind (env.appName t)))
    cases hd : clientDelete stsColl (env.appName t)
        (w.step (.get stsColl.kind (env.appName t))) with
    | mk r2 w2 =>
      rw [hd] at h ht hp
      simp only at ht hp
      have key : ∀ (hw : (wrapped (deletePVC (env.appLabels t))
          ("delete pvc: " ++ env.appName t) w2).1 = none),
          (wrapped (deletePVC (env.appLabels t)) ("delete pvc: " ++ env.appName t) w2).2.trace =
            w.trace ++ [.get .statefulSet (env.appName t),
              .delete .statefulSet (env.appName t), .list .pvc (env.appLabels t)] ++
            ((w.store.pvcs.filter (fun p => matchesSelector (env.appLabels t) p.labels)).map
              (fun p => Call.delete .pvc p.name)) := by
        intro hw
        obtain ⟨h1, h2⟩ := wrapped_none _ _ _ hw
        rw [h2, deletePVC_success _ _ h1, ht, hp]
        simp [World.step, stsColl]
      cases r2 with
      | none =>
        simp only [if_true] at h ⊢
        exact key h
      | some e =>
        simp only at h ⊢
        by_cases hnf : e.isNotFound = true
        · simp only [hnf, Bool.not_true, Bool.false_eq_true, if_false, if_true] at h ⊢
          exact key h
        · have hnf2 : e.isNotFound = false := by simpa using hnf
          simp [hnf2, wrap] at h


/-! ## The guard of the user resync -/

/-- C14, as stated, fails: the guard flag belongs to the reconciler, not to an
entity. After a request for `ns/c1` has started a goroutine, a request for the
other entity `ns/c2` (ProxySQL enabled, ready) is dropped: it starts nothing
and leaves the world as it is, although the only goroutine in flight was
started for `ns/c1`. -/
theorem resync_dropped_for_other_entity_counterexample :
    (proxyCluster "c1").key ≠ (proxyCluster "c2").key ∧
    tierEnabled (proxyCluster "c2").spec.proxysql = true ∧
    (proxyCluster "c2").status.status = appStateReady ∧
    (resyncPXCUsersWithProxySQL (proxyCluster "c1") twoEntities).trace = [.spawnResync] ∧
    resyncPXCUsersWithProxySQL (proxyCluster "c2")
        (resyncPXCUsersWithProxySQL (proxyCluster "c1") twoEntities) =
      resyncPXCUsersWithProxySQL (proxyCluster "c1") twoEntities := by
  decide

theorem resync_ready (cr : Cluster) (w : World)
    (hp : tierEnabled cr.spec.proxysql = true) (hready : cr.status.status = appStateReady) :
    resyncPXCUsersWithProxySQL cr w =
      if w.syncUsersState = stateFree then
        ({ w with syncUsersState := stateLocked }).log .spawnResync
      else w := by
  unfold resyncPXCUsersWithProxySQL
  unfold tierEnabled at hp
  cases hs : cr.spec.proxysql with
  | none => rw [hs] at hp; simp at hp
  | some p =>
    rw [hs] at hp
    simp only at hp ⊢
    simp [hp, hready]

theorem resync_invariant (cr : Cluster) (w : World) (h : ResyncInvariant w) :
    ResyncInvariant (resyncPXCUsersWithProxySQL cr w) := by
  unfold resyncPXCUsersWithProxySQL
  cases cr.spec.proxysql with
  | none => exact h
  | some p =>
    simp only []
    split
    · exact h
    · split
      · exact h
      · split
        · next hfree =>
          rcases h with ⟨_, hc⟩ | ⟨hl, _⟩
          · right
            refine ⟨rfl, ?_⟩
            simp [spawned, finished, World.log] at hc ⊢
            omega
          · rw [hfree] at hl
            exact absurd hl (by decide)
        · exact h

theorem goroutine_invariant (env : Env) (w : World) (h : ResyncInvariant w)
    (hin : 0 < inFlight w) : ResyncInvariant (resyncGoroutine env w) := by
  unfold inFlight at hin
  rcases h with ⟨_, hc⟩ | ⟨_, hc⟩
  · omega
  · left
    refine ⟨rfl, ?_⟩
    simp [resyncGoroutine, callCollab, spawned, finished, World.log] at hc ⊢
    omega

theorem runResync_invariant (env : Env) (events : List ResyncEvent) (w : World)
    (h : ResyncInvariant w) : ResyncInvariant (runResync env events w) := by
  induction events generalizing w with
  | nil => exact h
  | cons ev rest ih =>
    cases ev with
    | request cr => exact ih _ (resync_invariant cr w h)
    | finish =>
      unfold runResync
      split
      · next hin => exact ih _ (goroutine_invariant env w h hin)
      · exact ih _ h

theorem invariant_inFlight (w : World) (h : ResyncInvariant w) :
    (w.syncUsersState = stateFree ↔ inFlight w = 0) ∧
    (w.syncUsersState = stateLocked ↔ inFlight w = 1) ∧ inFlight w ≤ 1 := by
  unfold inFlight
  rcases h with ⟨hs, hc⟩ | ⟨hs, hc⟩
  · rw [hs, hc]
    refine ⟨by simp, ?_, by simp⟩
    simp
    decide
  · rw [hs, hc]
    refine ⟨?_, by simp, by simp⟩
    simp
    decide

/-- C14 (amended): the guard is one flag of the reconciler. From any state in
which the flag tells whether a goroutine is in flight (as in a fresh
reconciler), a request for an entity with ProxySQL enabled and status ready is
dropped, leaving the world as it is, if and only if a resync is in flight,
whichever entity it was started for; otherwise it sets the flag and starts one
goroutine. After any schedule of requests (for any entities) and goroutine
ends, the flag still tells whether a goroutine is in flight, and at most one
is in flight. -/
theorem resync_guard (env : Env) (cr : Cluster) (events : List ResyncEvent) (w : World)
    (hp : tierEnabled cr.spec.proxysql = true) (hready : cr.status.status = appStateReady)
    (hinv : ResyncInvariant w) :
    (resyncPXCUsersWithProxySQL cr w = w ↔ inFlight w = 1) ∧
    (inFlight w = 0 →
      resyncPXCUsersWithProxySQL cr w =
        ({ w with syncUsersState := stateLocked }).log .spawnResync) ∧
    ResyncInvariant (runResync env events w) ∧
    inFlight (runResync env events w) ≤ 1 := by
  obtain ⟨hfree, hlocked, hle⟩ := invariant_inFlight w hinv
  refine ⟨?_, ?_, runResync_invariant env events w hinv,
    (invariant_inFlight _ (runResync_invariant env events w hinv)).2.2⟩
  · rw [resync_ready cr w hp hready]
    by_cases hs : w.syncUsersState = stateFree
    · rw [if_pos hs]
      have h0 := hfree.1 hs
      constructor
      · intro heq
        have := congrArg (fun x => x.trace.length) heq
        simp [World.log] at this
      · intro h1
        omega
    · rw [if_neg hs]
      constructor
      · intro _
        have : inFlight w ≠ 0 := fun h0 => hs (hfree.2 h0)
        omega
      · intro _
        rfl
  · intro h0
    rw [resync_ready cr w hp hready, if_pos (hfree.2 h0)]

theorem resync_guard_witness :
    ResyncInvariant twoEntities ∧
    resyncPXCUsersWithProxySQL (proxyCluster "c1") twoEntities =
      ({ twoEntities with syncUsersState := stateLocked }).log .spawnResync ∧
    inFlight (runResync exampleEnv
      [.request (proxyCluster "c1"), .request (proxyCluster "c2"), .finish,
        .request (proxyCluster "c2")] twoEntities) ≤ 1 :=
  have h0 : ResyncInvariant twoEntities := Or.inl ⟨rfl, rfl⟩
  ⟨h0,
    (resync_guard exampleEnv (proxyCluster "c1") [] twoEntities rfl rfl h0).2.1 (by decide),
    (resync_guard exampleEnv (proxyCluster "c1")
      [.request (proxyCluster "c1"), .request (proxyCluster "c2"), .finish,
        .request (proxyCluster "c2")] twoEntities rfl rfl h0).2.2.2⟩


/-! ## The lock registry during a pass -/

theorem same_refl {w : World} : Same w w := rfl

theorem same_trans {w w1 w2 : World} (h1 : Same w w1) (h2 : Same w1 w2) : Same w w2 :=
  Eq.trans h2 h1

theorem same_step {w w1 : World} {c : Call} (h1 : Same w w1) : Same w (w1.step c) := h1

theorem same_log {w w1 : World} {c : Call} (h1 : Same w w1) : Same w (w1.log c) := h1

theorem same_withStore {w w1 : World} {s : Store} (h1 : Same w w1) :
    Same w { w1 with store := s } := h1

theorem same_of_eq {β : Type} {w w1 : World} {x : β × World} {r : β}
    (heq : x = (r, w1)) (hf : Same w x.2) : Same w w1 := by
  subst heq
  exact hf

theorem clientGet_same {α : Type} (c : Coll α) (n : String) (w : World) :
    Same w (clientGet c n w).2 := by
  rw [clientGet_eq]
  exact same_step same_refl

theorem clientList_same {α : Type} (c : Coll α) (sel : Labels) (w : World) :
    Same w (clientList c sel w).2 := by
  rw [clientList_eq]
  exact same_step same_refl

theorem clientCreate_same {α : Type} (c : Coll α) (x : α) (w : World) :
    Same w (clientCreate c x w).2 := by
  rw [clientCreate_eq]
  split
  · exact same_step same_refl
  · split
    · exact same_step same_refl
    · exact same_withStore (same_step same_refl)

theorem clientUpdate_same {α : Type} (c : Coll α) (x : α) (w : World) :
    Same w (clientUpdate c x w).2 := by
  rw [clientUpdate_eq]
  split
  · exact same_step same_refl
  · split
    · exact same_step same_refl
    · exact same_withStore (same_step same_refl)

theorem clientDelete_same {α : Type} (c : Coll α) (n : String) (w : World) :
    Same w (clientDelete c n w).2 := by
  rw [clientDelete_eq]
  split
  · exact same_step same_refl
  · split
    · exact same_step same_refl
    · exact same_withStore (same_step same_refl)

theorem callCollab_same (env : Env) (c : Collab) (w : World) :
    Same w (callCollab env c w).2 :=
  same_log same_refl

theorem setControllerReference_same (env : Env) (k : Kind) (w : World) :
    Same w (setControllerReference env k w).2 := same_refl

theorem andThen_same (a b : World → Option Err × World)
    (ha : ∀ w, Same w (a w).2) (hb : ∀ w, Same w (b w).2) (w : World) :
    Same w (andThen a b w).2 := by
  unfold andThen
  have h1 := ha w
  cases hr : a w with
  | mk r w1 =>
    rw [hr] at h1
    cases r with
    | some e => exact h1
    | none => exact same_trans h1 (hb w1)

theorem wrapped_same (a : World → Option Err × World) (msg : String)
    (ha : ∀ w, Same w (a w).2) (w : World) : Same w (wrapped a msg w).2 := by
  unfold wrapped
  exact ha w

theorem onlyIf_same (c : Bool) (a : World → Option Err × World)
    (ha : ∀ w, Same w (a w).2) (w : World) : Same w (onlyIf c a w).2 := by
  unfold onlyIf
  split
  · exact ha w
  · exact same_refl

theorem next_same (a b : StageFn)
    (ha : ∀ err w, Same w (a err w).2) (hb : ∀ err w, Same w (b err w).2)
    (err : Option Err) (w : World) : Same w (next a b err w).2 := by
  unfold next
  have h1 := ha err w
  cases hr : a err w with
  | mk r w1 =>
    rw [hr] at h1
    cases r with
    | error x => exact h1
    | ok e1 => exact same_trans h1 (hb e1 w1)

theorem condStage_same (c : Bool) (a : StageFn)
    (ha : ∀ err w, Same w (a err w).2) (err : Option Err) (w : World) :
    Same w (condStage c a err w).2 := by
  unfold condStage
  split
  · exact ha err w
  · exact same_refl

theorem mark_same (s : Stage) (err : Option Err) (w : World) :
    Same w (mark s err w).2 :=
  same_log same_refl

theorem stepOuter_same (a : World → Option Err × World) (res : Result)
    (msg : Option String) (ha : ∀ w, Same w (a w).2) (err : Option Err) (w : World) :
    Same w (stepOuter a res msg err w).2 := by
  unfold stepOuter
  have h1 := ha w
  cases hr : a w with
  | mk r w1 =>
    rw [hr] at h1
    cases r <;> exact h1

theorem stepInner_same (a : World → Option Err × World) (res : Result)
    (msg : Option String) (ha : ∀ w, Same w (a w).2) (err : Option Err) (w : World) :
    Same w (stepInner a res msg err w).2 := by
  unfold stepInner
  have h1 := ha w
  cases hr : a w with
  | mk r w1 =>
    rw [hr] at h1
    cases r <;> exact h1


/-! ### The finalizer tasks -/

theorem deleteStatefulSetPods_same (env : Env) (t : Tier) (w : World) :
    Same w (deleteStatefulSetPods env t w).2 := by
  unfold deleteStatefulSetPods
  split
  · next e w1 heq => exact same_of_eq heq (clientList_same podColl _ w)
  · next items w1 heq =>
    have h1 := same_of_eq heq (clientList_same podColl _ w)
    split
    · exact same_log h1
    · split
      · next e w2 heq2 =>
        exact same_trans h1 (same_of_eq heq2 (clientGet_same stsColl _ w1))
      · next cSet w2 heq2 =>
        have h2 := same_trans h1 (same_of_eq heq2 (clientGet_same stsColl _ w1))
        split
        · next e w3 heq3 =>
          exact same_trans h2 (same_of_eq heq3 (clientUpdate_same stsColl _ w2))
        · next w3 heq3 =>
          exact same_trans h2 (same_of_eq heq3 (clientUpdate_same stsColl _ w2))

theorem deletePXCPods_same (env : Env) (cr : Cluster) (w : World) :
    Same w (deletePXCPods env cr w).2 := by
  unfold deletePXCPods
  split
  · next e w1 heq => exact same_of_eq heq (deleteStatefulSetPods_same env .pxc w)
  · next w1 heq =>
    have h1 := same_of_eq heq (deleteStatefulSetPods_same env .pxc w)
    split
    · split
      · exact same_trans h1 (wrapped_same _ _ (fun w => callCollab_same env .deletePITR w) w1)
      · exact h1
    · exact h1

theorem deletePVCItems_same (items : List PersistentVolumeClaim) (w : World) :
    Same w (deletePVCItems items w).2 := by
  induction items generalizing w with
  | nil => exact same_refl
  | cons pvc rest ih =>
    unfold deletePVCItems
    split
    · next e w1 heq => exact same_of_eq heq (clientDelete_same pvcColl _ w)
    · next w1 heq =>
      exact same_trans (same_of_eq heq (clientDelete_same pvcColl _ w)) (ih w1)

theorem deletePVC_same (lbls : Labels) (w : World) : Same w (deletePVC lbls w).2 := by
  unfold deletePVC
  split
  · next e w1 heq => exact same_of_eq heq (clientList_same pvcColl _ w)
  · next items w1 heq =>
    exact same_trans (same_of_eq heq (clientList_same pvcColl _ w))
      (deletePVCItems_same items w1)

theorem deleteStatefulSet_same (env : Env) (t : Tier) (delPVC : Bool)
    (w : World) : Same w (deleteStatefulSet env t delPVC w).2 := by
  unfold deleteStatefulSet
  split
  · next e w1 heq =>
    have h1 := same_of_eq heq (clientGet_same stsColl _ w)
    split <;> exact h1
  · next x w1 heq =>
    have h1 := same_of_eq heq (clientGet_same stsColl _ w)
    split
    · next e w2 heq2 =>
      have h2 := same_trans h1 (same_of_eq heq2 (clientDelete_same stsColl _ w1))
      split
      · exact h2
      · split
        · next hd =>
          exact same_trans h2 (wrapped_same _ _ (fun w => deletePVC_same _ w) w2)
        · exact h2
    · next w2 heq2 =>
      have h2 := same_trans h1 (same_of_eq heq2 (clientDelete_same stsColl _ w1))
      split
      · next hd =>
        exact same_trans h2 (wrapped_same _ _ (fun w => deletePVC_same _ w) w2)
      · exact h2

theorem finalizerLoop_same (env : Env) (o : Cluster) (l : List String)
    (err : Option Err) (fins : List String) (w : World) :
    Same w (finalizerLoop env o l err fins w).2.2 := by
  induction l generalizing err fins w with
  | nil => exact same_refl
  | cons fnlz rest ih =>
    unfold finalizerLoop
    have h0 : Same w (w.log (.stage (.finalizer fnlz))) := same_log same_refl
    have hstep : Same w
        (if fnlz = "delete-proxysql-pvc" then
            deleteStatefulSet env .proxysql true (w.log (.stage (.finalizer fnlz)))
          else if fnlz = "delete-pxc-pvc" then
            deleteStatefulSet env .pxc true (w.log (.stage (.finalizer fnlz)))
          else if fnlz = "delete-pxc-pods-in-order" then
            deletePXCPods env o (w.log (.stage (.finalizer fnlz)))
          else (err, w.log (.stage (.finalizer fnlz)))).2 := by
      split
      · exact same_trans h0 (deleteStatefulSet_same env _ true _)
      · split
        · exact same_trans h0 (deleteStatefulSet_same env _ true _)
        · split
          · exact same_trans h0 (deletePXCPods_same env o _)
          · exact h0
    simp only []
    split
    · next e w1 heq => exact same_trans (same_of_eq heq hstep) (ih _ _ w1)
    · next w1 heq => exact same_trans (same_of_eq heq hstep) (ih _ _ w1)

theorem teardown_same (env : Env) (o : Cluster)
    (err : Option Err) (w : World) : Same w (teardown env o err w).2 := by
  unfold teardown
  split
  next e fins w1 heq =>
  have h1 : Same w w1 := by
    have := finalizerLoop_same env o o.finalizers err [] w
    rw [heq] at this
    exact this
  split
  next err2 w2 heq2 =>
  exact same_trans (same_log h1) (same_of_eq heq2 (clientUpdate_same clusterColl _ _))

theorem resync_same (cr : Cluster) (w : World) :
    Same w (resyncPXCUsersWithProxySQL cr w) := by
  unfold resyncPXCUsersWithProxySQL
  split
  · exact same_refl
  · split
    · exact same_refl
    · split
      · exact same_refl
      · split
        · exact rfl
        · exact same_refl

theorem preBranch_same (env : Env) (o : Cluster) (changed : Bool) (err : Option Err) (w : World) :
    Same w (preBranch env o changed err w).2 := by
  unfold preBranch
  refine next_same _ _ (condStage_same _ _ ?_) (next_same _ _ (stepOuter_same _ _ _ ?_)
    (next_same _ _ (condStage_same _ _ (stepOuter_same _ _ _ ?_)) (next_same _ _ ?_
    (next_same _ _ (condStage_same _ _ (stepOuter_same _ _ _ ?_)) (condStage_same _ _ ?_))))) err w
  · intro _ w; exact callCollab_same env _ w
  · intro w; exact callCollab_same env _ w
  · intro w; exact callCollab_same env _ w
  · intro _ w; exact resync_same o w
  · intro w; exact clientUpdate_same clusterColl _ w
  · intro _ w; exact callCollab_same env _ w


/-! ### The convergence pipeline -/

theorem createService_same (env : Env) (svc : Service) (w : World) :
    Same w (createService env svc w).2 := by
  unfold createService
  split
  · next e w0 heq => exact same_of_eq heq (setControllerReference_same env .cluster w)
  · next w0 heq =>
    have h0 : Same w w0 := same_of_eq heq (setControllerReference_same env .cluster w)
    split
    · next e w1 heq1 =>
      have h1 := same_trans h0 (same_of_eq heq1 (clientGet_same svcColl svc.name w0))
      split
      · split
        next err w2 heq2 =>
        exact same_trans h1 (same_of_eq heq2 (clientCreate_same svcColl svc w1))
      · exact h1
    · next x w1 heq1 =>
      exact same_trans h0 (same_of_eq heq1 (clientGet_same svcColl svc.name w0))

theorem createOrUpdateConfigmap_same (configMap : ConfigMap) (w : World) :
    Same w (createOrUpdateConfigmap configMap w).2 := by
  unfold createOrUpdateConfigmap
  split
  · next e w1 heq =>
    have h1 : Same w w1 := same_of_eq heq (clientGet_same cmColl configMap.name w)
    split
    · exact h1
    · exact same_trans h1 (clientCreate_same cmColl configMap w1)
  · next currMap w1 heq =>
    have h1 : Same w w1 := same_of_eq heq (clientGet_same cmColl configMap.name w)
    split
    · exact same_trans h1 (clientUpdate_same cmColl configMap w1)
    · exact h1

theorem reconcilePDB_same (env : Env) (spec : Option PodDisruptionBudgetSpec) (t : Tier) (w : World) :
    Same w (reconcilePDB env spec t w).2 := by
  unfold reconcilePDB
  split
  · exact same_refl
  · next sp =>
    simp only []
    split
    · next e w0 heq => exact same_of_eq heq (setControllerReference_same env .statefulSet w)
    · next w0 heq =>
      have h0 : Same w w0 := same_of_eq heq (setControllerReference_same env .statefulSet w)
      split
      · next e w1 heq1 =>
        have h1 := same_trans h0 (same_of_eq heq1 (clientGet_same pdbColl _ w0))
        split
        · exact same_trans h1 (clientCreate_same pdbColl _ w1)
        · exact h1
      · next cpdb w1 heq1 =>
        have h1 := same_trans h0 (same_of_eq heq1 (clientGet_same pdbColl _ w0))
        exact same_trans h1 (clientUpdate_same pdbColl _ w1)

theorem logCollectorConfigMap_same (configMap : ConfigMap) (w : World) :
    Same w (logCollectorConfigMap configMap w).2 := by
  unfold logCollectorConfigMap
  split
  · next e w1 heq =>
    have h1 : Same w w1 := same_of_eq heq (clientCreate_same cmColl configMap w)
    split
    · exact same_trans h1
        (wrapped_same _ _ (fun w => clientUpdate_same cmColl configMap w) w1)
    · exact h1
  · next w1 heq => exact same_of_eq heq (clientCreate_same cmColl configMap w)

theorem reconcileConfigMap_same (env : Env) (cr : Cluster) (w : World) :
    Same w (reconcileConfigMap env cr w).2 := by
  unfold reconcileConfigMap
  refine andThen_same _ _ ?_ (andThen_same _ _ ?_ (andThen_same _ _ ?_ (andThen_same _ _ ?_ ?_))) w
  · refine onlyIf_same _ _ (andThen_same _ _ (wrapped_same _ _ ?_)
      (andThen_same _ _ (wrapped_same _ _ ?_) (wrapped_same _ _ ?_)))
    · intro w; exact callCollab_same env _ w
    · intro w; exact setControllerReference_same env _ w
    · intro w; exact createOrUpdateConfigmap_same _ w
  · refine onlyIf_same _ _ (andThen_same _ _ (wrapped_same _ _ ?_) (wrapped_same _ _ ?_))
    · intro w; exact setControllerReference_same env _ w
    · intro w; exact createOrUpdateConfigmap_same _ w
  · intro w
    cases cr.spec.proxysql with
    | none => exact same_refl
    | some p =>
      refine onlyIf_same _ _ (andThen_same _ _ (wrapped_same _ _ ?_) (wrapped_same _ _ ?_)) w
      · intro w; exact setControllerReference_same env _ w
      · intro w; exact createOrUpdateConfigmap_same _ w
  · intro w
    cases cr.spec.haproxy with
    | none => exact same_refl
    | some h =>
      refine onlyIf_same _ _ (andThen_same _ _ (wrapped_same _ _ ?_) (wrapped_same _ _ ?_)) w
      · intro w; exact setControllerReference_same env _ w
      · intro w; exact createOrUpdateConfigmap_same _ w
  · intro w
    cases cr.spec.logCollector with
    | none => exact same_refl
    | some lc =>
      refine onlyIf_same _ _ (andThen_same _ _ (wrapped_same _ _ ?_) ?_) w
      · intro w; exact setControllerReference_same env _ w
      · intro w; exact logCollectorConfigMap_same _ w

theorem createWorkload_same (set : StatefulSet) (msg : String) (w : World) :
    Same w (createWorkload set msg w).2 := by
  unfold createWorkload
  split
  · next e w1 heq =>
    have h1 : Same w w1 := same_of_eq heq (clientCreate_same stsColl set w)
    split <;> exact h1
  · next w1 heq => exact same_of_eq heq (clientCreate_same stsColl set w)

theorem budgetStep_same (env : Env) (name : String) (spec : Option PodDisruptionBudgetSpec) (t : Tier)
    (getMsg : String) (w : World) : Same w (budgetStep env name spec t getMsg w).2 := by
  unfold budgetStep
  split
  · next x w1 heq =>
    have h1 : Same w w1 := same_of_eq heq (clientGet_same stsColl name w)
    exact same_trans h1 (wrapped_same _ _ (fun w => reconcilePDB_same env spec t w) w1)
  · next e w1 heq =>
    have h1 : Same w w1 := same_of_eq heq (clientGet_same stsColl name w)
    split <;> exact h1

theorem internalSecretHash_same (env : Env) (w : World) : Same w (internalSecretHash env w).2 := by
  unfold internalSecretHash
  split
  · next e w1 heq =>
    have h1 : Same w w1 := same_of_eq heq (callCollab_same env _ w)
    split <;> exact h1
  · next w1 heq => exact same_of_eq heq (callCollab_same env _ w)

theorem deploy_same (env : Env) (cr : Cluster) (w : World) : Same w (deploy env cr w).2 := by
  have hc : ∀ c w, Same w (callCollab env c w).2 := fun c w => callCollab_same env c w
  have hs : ∀ svc w, Same w (createService env svc w).2 := fun svc w =>
    createService_same env svc w
  have hr : ∀ k w, Same w (setControllerReference env k w).2 := fun k w =>
    setControllerReference_same env k w
  have hw : ∀ s m w, Same w (createWorkload s m w).2 := fun s m w => createWorkload_same s m w
  have hb : ∀ n sp t m w, Same w (budgetStep env n sp t m w).2 := fun n sp t m w =>
    budgetStep_same env n sp t m w
  unfold deploy
  refine andThen_same _ _ (reconcileConfigMap_same env cr) (andThen_same _ _
    (wrapped_same _ _ (hc _)) (andThen_same _ _ (onlyIf_same _ _ (hc _)) (andThen_same _ _
    (wrapped_same _ _ (hc _)) (andThen_same _ _ (wrapped_same _ _ (hc _)) (andThen_same _ _
    (wrapped_same _ _ (hc _)) (andThen_same _ _ (internalSecretHash_same env) (andThen_same _ _
    (wrapped_same _ _ (hc _)) (andThen_same _ _ (hr _) (andThen_same _ _ (hw _ _) (andThen_same _ _
    (wrapped_same _ _ (hs _)) (andThen_same _ _ (wrapped_same _ _ (hs _)) (andThen_same _ _
    (hb _ _ _ _) (andThen_same _ _ ?_ ?_))))))))))))) w
  · intro w
    cases cr.spec.haproxy with
    | none => exact same_refl
    | some h =>
      exact onlyIf_same _ _ (andThen_same _ _ (wrapped_same _ _ (hc _)) (andThen_same _ _ (hr _)
        (andThen_same _ _ (hw _ _) (andThen_same _ _ (wrapped_same _ _ (hs _)) (andThen_same _ _
        (wrapped_same _ _ (hs _)) (hb _ _ _ _)))))) w
  · intro w
    cases cr.spec.proxysql with
    | none => exact same_refl
    | some p =>
      exact onlyIf_same _ _ (andThen_same _ _ (wrapped_same _ _ (hc _)) (andThen_same _ _ (hr _)
        (andThen_same _ _ (hw _ _) (andThen_same _ _ (wrapped_same _ _ (hs _)) (andThen_same _ _
        (wrapped_same _ _ (hs _)) (hb _ _ _ _)))))) w

theorem deleteServices_same (svcs : List String) (w : World) :
    Same w (deleteServices svcs w).2 := by
  induction svcs generalizing w with
  | nil => exact same_refl
  | cons svcName rest ih =>
    unfold deleteServices
    split
    · next e w1 heq =>
      have h1 : Same w w1 := same_of_eq heq (clientGet_same svcColl svcName w)
      split
      · exact h1
      · exact same_trans h1 (ih w1)
    · next svc w1 heq =>
      have h1 : Same w w1 := same_of_eq heq (clientGet_same svcColl svcName w)
      split
      · next e w2 heq2 =>
        exact same_trans h1 (same_of_eq heq2 (clientDelete_same svcColl _ w1))
      · next w2 heq2 =>
        exact same_trans (same_trans h1
          (same_of_eq heq2 (clientDelete_same svcColl _ w1))) (ih w2)

theorem pxcServiceStep_same (svc : Service) (err : Option Err) (w : World) :
    Same w (pxcServiceStep svc err w).2 := by
  unfold pxcServiceStep
  split
  · next e w1 heq => exact same_of_eq heq (clientGet_same svcColl svc.name w)
  · next cur w1 heq =>
    have h1 : Same w w1 := same_of_eq heq (clientGet_same svcColl svc.name w)
    split
    · exact h1
    · split
      · next e w2 heq2 =>
        exact same_trans h1 (same_of_eq heq2 (clientUpdate_same svcColl _ w1))
      · next w2 heq2 =>
        exact same_trans h1 (same_of_eq heq2 (clientUpdate_same svcColl _ w1))

theorem serviceStep_same (name : String) (wanted : Service → Service) (getMsg updMsg : String) (w : World) :
    Same w (serviceStep name wanted getMsg updMsg w).2 := by
  unfold serviceStep
  split
  · next e w1 heq => exact same_of_eq heq (clientGet_same svcColl name w)
  · next old w1 heq =>
    have h1 : Same w w1 := same_of_eq heq (clientGet_same svcColl name w)
    simp only []
    split
    · exact same_trans h1
        (wrapped_same _ _ (fun w => clientUpdate_same svcColl _ w) w1)
    · exact h1

theorem proxysqlServiceStep_same (env : Env) (p : PodSpec) (w : World) :
    Same w (proxysqlServiceStep env p w).2 := by
  unfold proxysqlServiceStep
  split
  · next e w1 heq => exact same_of_eq heq (clientGet_same svcColl _ w)
  · next cur w1 heq =>
    have h1 : Same w w1 := same_of_eq heq (clientGet_same svcColl _ w)
    exact same_trans h1
      (wrapped_same _ _ (fun w => clientUpdate_same svcColl _ w) w1)

theorem haproxyStage_same (env : Env) (o : Cluster) (err : Option Err) (w : World) :
    Same w (haproxyStage env o err w).2 := by
  have hd : ∀ err w, Same w (haproxyDisabledStage env err w).2 := by
    intro err w
    unfold haproxyDisabledStage
    refine next_same _ _ (mark_same _) (next_same _ _ (stepOuter_same _ _ _ ?_)
      (stepOuter_same _ _ _ ?_)) err w
    · intro w
      exact deleteStatefulSet_same env _ false w
    · intro w; exact deleteServices_same _ w
  unfold haproxyStage
  cases o.spec.haproxy with
  | none => exact hd err w
  | some h =>
    by_cases he : h.enabled = true
    · simp only [he, if_true]
      unfold haproxyEnabledStage
      refine next_same _ _ (mark_same _) (next_same _ _ (stepInner_same _ _ _
        (wrapped_same _ _ ?_)) (next_same _ _ (stepInner_same _ _ _ ?_)
        (stepInner_same _ _ _ ?_))) err w
      · intro w; exact callCollab_same env _ w
      · intro w; exact serviceStep_same _ _ _ _ w
      · intro w; exact serviceStep_same _ _ _ _ w
    · simp only [he, if_false]
      exact hd err w

theorem proxysqlStage_same (env : Env) (o : Cluster) (err : Option Err) (w : World) :
    Same w (proxysqlStage env o err w).2 := by
  have hd : ∀ err w, Same w (proxysqlDisabledStage env o err w).2 := by
    intro err w
    unfold proxysqlDisabledStage
    refine next_same _ _ (mark_same _) (next_same _ _ (stepOuter_same _ _ _ ?_)
      (stepOuter_same _ _ _ ?_)) err w
    · intro w
      exact deleteStatefulSet_same env _ _
        w
    · intro w; exact deleteServices_same _ w
  unfold proxysqlStage
  cases o.spec.proxysql with
  | none => exact hd err w
  | some p =>
    by_cases he : p.enabled = true
    · simp only [he, if_true]
      unfold proxysqlEnabledStage
      refine next_same _ _ (mark_same _) (next_same _ _ (stepOuter_same _ _ _ ?_)
        (stepInner_same _ _ _ ?_)) err w
      · intro w; exact callCollab_same env _ w
      · intro w; exact proxysqlServiceStep_same env p w
    · simp only [he, if_false]
      exact hd err w

theorem convergence_same (env : Env) (o : Cluster) (err : Option Err) (w : World) :
    Same w (convergence env o err w).2 := by
  have hc : ∀ c w, Same w (callCollab env c w).2 := fun c w => callCollab_same env c w
  have hm : ∀ s err w, Same w (mark s err w).2 := fun s err w => mark_same s err w
  unfold convergence
  exact next_same _ _ (hm _) (next_same _ _ (stepOuter_same _ _ _ (deploy_same env o))
    (next_same _ _ (stepOuter_same _ _ _ (hc _)) (next_same _ _ (condStage_same _ _
    (stepInner_same _ _ _ (hc _))) (next_same _ _ (hm _) (next_same _ _ (stepOuter_same _ _ _ (hc _))
    (next_same _ _ (hm _) (next_same _ _ (pxcServiceStep_same _) (next_same _ _
    (pxcServiceStep_same _) (next_same _ _ (haproxyStage_same env o) (next_same _ _
    (proxysqlStage_same env o) (next_same _ _ (hm _) (next_same _ _ (stepOuter_same _ _ _ (hc _))
    (next_same _ _ (hm _) (next_same _ _ (stepInner_same _ _ _ (wrapped_same _ _ (hc _)))
    (next_same _ _ (hm _) (stepOuter_same _ _ _ (hc _))))))))))))))))) err w

theorem reconcileBody_same (env : Env) (o : Cluster) (changed : Bool) (w : World) :
    Same w (reconcileBody env o changed w).2 := by
  have h : Same w (next (preBranch env o changed)
      (if o.deletionTimestamp.isSome then teardown env o else convergence env o) none w).2 := by
    refine next_same _ _ (preBranch_same env o changed) ?_ none w
    intro err w
    split
    · exact teardown_same env o err w
    · exact convergence_same env o err w
  unfold reconcileBody
  split
  · next x w1 heq => exact same_of_eq heq h
  · next e w1 heq => exact same_of_eq heq h


theorem reconcileLocked_same (env : Env) (uerr : Option Err) (request : String) (w : World) :
    Same w (reconcileLocked env uerr request w).world := by
  unfold reconcileLocked
  split
  · next e w1 heq =>
    have h1 : Same w w1 := same_of_eq heq (clientGet_same clusterColl request w)
    split <;> exact h1
  · next o w1 heq =>
    have h1 : Same w w1 := same_of_eq heq (clientGet_same clusterColl request w)
    split
    · exact h1
    · split
      · exact h1
      · next o1 changed hc =>
        split
        next x w2 heq2 =>
        have h2 : Same w1 w2 := same_of_eq heq2 (reconcileBody_same env o1 changed w1)
        rw [statusClosure_eq]
        exact same_log (same_trans h1 h2)

theorem lockOf_setLock (k key : String) (f : Lock → Lock) (ls : List (String × Lock)) :
    lockOf k (setLock key f ls) = if k = key then (lockOf k ls).map f else lockOf k ls := by
  unfold lockOf setLock
  induction ls with
  | nil => simp
  | cons kl rest ih =>
    by_cases hk : k = key
    · subst hk
      simp only [if_true] at ih ⊢
      by_cases h1 : kl.1 = k
      · simp [List.find?_cons, h1]
      · simp only [List.map_cons, h1, if_false, List.find?_cons]
        have : (kl.1 == k) = false := by simpa using h1
        rw [this]
        exact ih
    · simp only [hk, if_false] at ih ⊢
      by_cases h1 : kl.1 = key
      · have h2 : (kl.1 == k) = false := by
          simp only [beq_eq_false_iff_ne, ne_eq]
          intro h3
          exact hk (h3.symm.trans h1)
        simp only [List.map_cons, h1, if_true, List.find?_cons]
        rw [← h1, h2]
        simp only []
        rw [h1]
        exact ih
      · simp only [List.map_cons, h1, if_false, List.find?_cons]
        cases (kl.1 == k) with
        | true => rfl
        | false => exact ih

theorem lockOf_loadOrCreate (key : String) (ls : List (String × Lock)) :
    ∃ l, lockOf key (loadOrCreate key ls) = some l ∧
      (lockOf key ls = some l ∨
        (lockOf key ls = none ∧ l = { held := false, updateSync := 0 })) := by
  unfold loadOrCreate lockOf
  cases hf : ls.find? (fun kl => kl.1 == key) with
  | some kl =>
    have hany : ls.any (fun kl => kl.1 == key) = true := by
      rw [List.any_eq_true]
      have hk := List.find?_some hf
      exact ⟨kl, List.mem_of_find?_eq_some hf, hk⟩
    rw [if_pos hany, hf]
    exact ⟨kl.2, rfl, Or.inl rfl⟩
  | none =>
    have hany : ¬ ls.any (fun kl => kl.1 == key) = true := by
      rw [List.any_eq_true]
      rintro ⟨kl, hm, hk⟩
      have := List.find?_eq_none.1 hf kl hm
      exact this hk
    rw [if_neg hany, List.find?_append, hf]
    exact ⟨_, by simp, Or.inr ⟨rfl, rfl⟩⟩

theorem lockOf_loadOrCreate_other (k key : String) (ls : List (String × Lock)) (h : k ≠ key) :
    lockOf k (loadOrCreate key ls) = lockOf k ls := by
  unfold loadOrCreate lockOf
  split
  · rfl
  · rw [List.find?_append]
    cases ls.find? (fun kl => kl.1 == k) with
    | some kl => rfl
    | none =>
      have : (key == k) = false := by simpa using fun h2 : key = k => h h2.symm
      simp [List.find?_cons, this]

/-- C15: for every request key and on every exit of `Reconcile`, whatever the
lock registry held on entry: the lock of the key is held from the start of the
pass until the deferred calls run, and when `Reconcile` returns its throttle
flag is `updateDone` and its mutex is free; the locks of other keys are as
they were. -/
theorem Reconcile_releases (env : Env) (uerr : Option Err) (request : String) (w : World) :
    (lockOf request (acquire request w).lockers).map Lock.held = some true ∧
    (reconcileLocked env uerr request (acquire request w)).world.lockers =
      (acquire request w).lockers ∧
    lockOf request (Reconcile env uerr request w).world.lockers =
      some { held := false, updateSync := updateDone } ∧
    ∀ k, k ≠ request →
      lockOf k (Reconcile env uerr request w).world.lockers = lockOf k w.lockers := by
  obtain ⟨l, hl, -⟩ := lockOf_loadOrCreate request w.lockers
  have hacq : (acquire request w).lockers =
      setLock request (Lock.setHeld true) (loadOrCreate request w.lockers) := rfl
  have hbody := reconcileLocked_same env uerr request (acquire request w)
  have hfin : (Reconcile env uerr request w).world.lockers =
      setLock request (Lock.setHeld false) (setLock request (Lock.setUpdateSync updateDone)
        (reconcileLocked env uerr request (acquire request w)).world.lockers) := rfl
  refine ⟨?_, hbody, ?_, ?_⟩
  · rw [hacq, lockOf_setLock, if_pos rfl, hl]
    rfl
  · rw [hfin, hbody, hacq, lockOf_setLock, if_pos rfl, lockOf_setLock, if_pos rfl,
      lockOf_setLock, if_pos rfl, hl]
    rfl
  · intro k hk
    rw [hfin, hbody, hacq, lockOf_setLock, if_neg hk, lockOf_setLock, if_neg hk,
      lockOf_setLock, if_neg hk, lockOf_loadOrCreate_other k request _ hk]


end PXC
